import Mathlib

/-!
Verification of the FixSwiftForge FIX-message core: definition model, XML
definition loader (group construction), message parser (repeating-group
resolution), validator (checksum / body-length framing and structural checks)
and message builder.  The TypeScript sources are shallowly embedded below:
wire text is `List Char`, JavaScript `Map`s are association lists,
JavaScript objects (insertion-ordered, overwrite-in-place) are association
lists manipulated by `objSet`, and fallible constructors return `Except`.
-/

set_option maxHeartbeats 1000000

abbrev Str := List Char

/-- The FIX field delimiter SOH (byte 0x01). -/
def SOH : Char := Char.ofNat 1

/-- Character code, as used by JavaScript `charCodeAt` on BMP text. -/
def charCode (c : Char) : Nat := c.toNat

/-- Sum of the character codes of a string (the checksum accumulator). -/
def sumCodes (s : Str) : Nat := s.foldl (fun a c => a + charCode c) 0

def isDigitCh (c : Char) : Bool := '0' ≤ c && c ≤ '9'

def digitVal (c : Char) : Nat := c.toNat - '0'.toNat

def digitChar (d : Nat) : Char := Char.ofNat (48 + d)

/-- JavaScript whitespace accepted by `parseInt` before the number. -/
def isJsSpace (c : Char) : Bool :=
  c = ' ' || c = '\t' || c = '\n' || c = '\r' || c = Char.ofNat 11 || c = Char.ofNat 12

/-- Numeric value of a list of decimal digit characters (most significant first). -/
def digitsVal (s : Str) : Nat := s.foldl (fun a c => 10 * a + digitVal c) 0

/-- JavaScript `parseInt(s, 10)`: skip whitespace, optional sign, then the
longest prefix of decimal digits; `none` models `NaN`. -/
def jsParseIntDec (s : Str) : Option Int :=
  let s1 := s.dropWhile isJsSpace
  let core : Str → Option Nat := fun r =>
    let ds := r.takeWhile isDigitCh
    if ds = [] then none else some (digitsVal ds)
  match s1 with
  | '+' :: r => (core r).map (fun n => (n : Int))
  | '-' :: r => (core r).map (fun n => -(n : Int))
  | r => (core r).map (fun n => (n : Int))

/-- Decimal rendering of a natural number, with explicit structural fuel
(the fuel `n + 1` always suffices; see `decNatAux_congr`). -/
def decNatAux : Nat → Nat → Str
  | 0, _ => []
  | f + 1, n => if n < 10 then [digitChar n] else decNatAux f (n / 10) ++ [digitChar (n % 10)]

/-- JavaScript `String(n)` for a natural number. -/
def decNat (n : Nat) : Str := decNatAux (n + 1) n

/-- JavaScript `String(i)` for an integer. -/
def decInt (i : Int) : Str :=
  if i < 0 then '-' :: decNat i.natAbs else decNat i.toNat

/-- JavaScript `String(n % 256).padStart(3, '0')`. -/
def pad3 (n : Nat) : Str :=
  let d := decNat n
  List.replicate (3 - d.length) '0' ++ d

/-- JavaScript `s.split(d)` for a single-character separator. -/
def splitChar (s : Str) (d : Char) : List Str :=
  match s with
  | [] => [[]]
  | c :: rest =>
    let r := splitChar rest d
    if c = d then [] :: r
    else
      match r with
      | [] => [[c]]
      | h :: t => (c :: h) :: t

/-- Whether the pattern `pat` occurs in `s` starting at index `i`. -/
def occursAt (s pat : Str) (i : Nat) : Bool := pat.isPrefixOf (s.drop i)

/-- Largest index `≤ k` at which `pat` occurs in `s`. -/
def lastIdxAux (s pat : Str) : Nat → Option Nat
  | 0 => if occursAt s pat 0 then some 0 else none
  | k + 1 => if occursAt s pat (k + 1) then some (k + 1) else lastIdxAux s pat k

/-- JavaScript `s.lastIndexOf(pat)` (as an `Option`; `none` models `-1`). -/
def lastIdxOf (s pat : Str) : Option Nat := lastIdxAux s pat s.length

/-- Smallest index in `[k, k + fuel)` at which `pred` holds. -/
def firstIdxAux (pred : Nat → Bool) : Nat → Nat → Option Nat
  | 0, _ => none
  | fuel + 1, k => if pred k then some k else firstIdxAux pred fuel (k + 1)

/-- JavaScript `s.indexOf(pat)` (as an `Option`; `none` models `-1`). -/
def idxOf (s pat : Str) : Option Nat :=
  firstIdxAux (occursAt s pat) (s.length + 1) 0

/-! ## Definition model (src/types.ts) -/

/-- A FIX field definition from the XML (`FieldDef`).  Enum values map the
wire value to its description. -/
structure FieldDef where
  tag : Int
  name : String
  ftype : String
  values : List (Str × Str)
  deriving Repr, DecidableEq

/-- A field reference within a message, component or group (`FieldRef`). -/
structure FieldRef where
  name : String
  required : Bool
  deriving Repr, DecidableEq

/-- A component reference (`ComponentRef`). -/
structure ComponentRef where
  name : String
  required : Bool
  deriving Repr, DecidableEq

/-- A repeating group definition (`GroupDef`), recursive through `groups`. -/
inductive GroupDef where
  | mk : String → Bool → String → List FieldRef → List GroupDef → List ComponentRef → GroupDef
  deriving Repr

def GroupDef.name : GroupDef → String
  | .mk n _ _ _ _ _ => n

def GroupDef.required : GroupDef → Bool
  | .mk _ r _ _ _ _ => r

def GroupDef.counterField : GroupDef → String
  | .mk _ _ c _ _ _ => c

def GroupDef.fields : GroupDef → List FieldRef
  | .mk _ _ _ f _ _ => f

def GroupDef.groups : GroupDef → List GroupDef
  | .mk _ _ _ _ g _ => g

def GroupDef.components : GroupDef → List ComponentRef
  | .mk _ _ _ _ _ c => c

/-- A component definition (`ComponentDef`). -/
structure ComponentDef where
  name : String
  fields : List FieldRef
  groups : List GroupDef
  components : List ComponentRef

/-- A message definition (`MessageDef`).  `msgtype` is compared against wire
text, hence `Str`. -/
structure MessageDef where
  name : String
  msgtype : Str
  msgcat : String
  fields : List FieldRef
  groups : List GroupDef
  components : List ComponentRef

/-- Header/trailer sections share this shape. -/
structure SectionDef where
  fields : List FieldRef
  groups : List GroupDef
  components : List ComponentRef

/-- The in-memory FIX definition model (`FIXDefinition`). -/
structure FIXDefinition where
  major : Int
  minor : Int
  servicepack : Int
  fieldsByTag : List (Int × FieldDef)
  fieldsByName : List (String × FieldDef)
  messagesByType : List (Str × MessageDef)
  messagesByName : List (String × MessageDef)
  components : List (String × ComponentDef)
  header : SectionDef
  trailer : SectionDef

/-- JavaScript `Map.get`: first binding of the key. -/
def mapGet {α β : Type} [DecidableEq α] (l : List (α × β)) (k : α) : Option β :=
  (l.find? (fun p => p.1 = k)).map (fun p => p.2)

/-- JavaScript `Map.set`: overwrite in place or append. -/
def mapSet {α β : Type} [DecidableEq α] : List (α × β) → α → β → List (α × β)
  | [], k, v => [(k, v)]
  | (k', v') :: t, k, v => if k' = k then (k, v) :: t else (k', v') :: mapSet t k v

/-- JavaScript `Map.delete`. -/
def mapDel {α β : Type} [DecidableEq α] (l : List (α × β)) (k : α) : List (α × β) :=
  l.filter (fun p => p.1 ≠ k)

/-- Values stored in a parsed body or group entry: a wire string or a list of
group entries (`string | ParsedGroupEntry[]`). -/
inductive GVal where
  | str : Str → GVal
  | grp : List (List (String × GVal)) → GVal

/-- A parsed repeating group entry (`ParsedGroupEntry`): a JavaScript object,
insertion-ordered. -/
abbrev GEntry := List (String × GVal)

/-- JavaScript object assignment `o[k] = v`: overwrite in place or append. -/
def objSet : GEntry → String → GVal → GEntry
  | [], k, v => [(k, v)]
  | (k', v') :: t, k, v => if k' = k then (k, v) :: t else (k', v') :: objSet t k v

/-- JavaScript object read `o[k]`. -/
def objGet (o : GEntry) (k : String) : Option GVal :=
  (o.find? (fun p => p.1 = k)).map (fun p => p.2)

/-- `o[k] = v` for a string-valued object (header/trailer sections). -/
def objSetS : List (String × Str) → String → Str → List (String × Str)
  | [], k, v => [(k, v)]
  | (k', v') :: t, k, v => if k' = k then (k, v) :: t else (k', v') :: objSetS t k v

def objGetS (o : List (String × Str)) (k : String) : Option Str :=
  (o.find? (fun p => p.1 = k)).map (fun p => p.2)

/-- Parsed FIX message field (`ParsedField`). -/
structure ParsedField where
  tag : Int
  name : String
  value : Str
  enumDescription : Option Str

/-- Parsed FIX message (`ParsedMessage`).  `bodyLength` is `none` when the
declared tag-9 value did not parse (JavaScript `NaN`). -/
structure ParsedMessage where
  beginString : Str
  msgType : Str
  msgTypeName : String
  bodyLength : Option Int
  checkSum : Str
  header : List (String × Str)
  body : GEntry
  trailer : List (String × Str)
  fields : List ParsedField

inductive Severity where
  | error
  | warning
  deriving Repr, DecidableEq

/-- Validation issue (`ValidationError`). -/
structure VIssue where
  tag : Option Int
  field : Option String
  message : String
  severity : Severity
  deriving Repr, DecidableEq

/-- Validation result (`ValidationResult`). -/
structure VResult where
  valid : Bool
  errors : List VIssue
  warnings : List VIssue
  deriving Repr, DecidableEq

/-! ## XML definition loader, group construction (src loader, parseGroups) -/

/-- The parsed-XML shape of a `<field>` reference element (attributes only). -/
structure XmlFieldRef where
  name : String
  required : String
  deriving Repr, DecidableEq

/-- The parsed-XML shape of a `<component>` reference element. -/
structure XmlComponentRef where
  name : String
  required : String
  deriving Repr, DecidableEq

/-- The parsed-XML shape of a `<group>` element: name/required attributes and
child field, group and component elements in declaration order. -/
inductive XmlGroup where
  | mk : String → String → List XmlFieldRef → List XmlGroup → List XmlComponentRef → XmlGroup
  deriving Repr

def XmlGroup.name : XmlGroup → String
  | .mk n _ _ _ _ => n

def XmlGroup.required : XmlGroup → String
  | .mk _ r _ _ _ => r

def XmlGroup.fields : XmlGroup → List XmlFieldRef
  | .mk _ _ f _ _ => f

def XmlGroup.groups : XmlGroup → List XmlGroup
  | .mk _ _ _ g _ => g

def XmlGroup.components : XmlGroup → List XmlComponentRef
  | .mk _ _ _ _ c => c

/-- `parseFieldRefs` from the loader. -/
def parseFieldRefsX (l : List XmlFieldRef) : List FieldRef :=
  l.map (fun f => { name := f.name, required := f.required = "Y" })

/-- `parseComponentRefs` from the loader. -/
def parseComponentRefsX (l : List XmlComponentRef) : List ComponentRef :=
  l.map (fun c => { name := c.name, required := c.required = "Y" })

/-- `parseGroups` from the loader: each `<group>` element becomes a `GroupDef`
whose `counterField` is the group element's own name attribute. -/
def parseGroupsX : List XmlGroup → List GroupDef
  | [] => []
  | XmlGroup.mk n r fs gs cs :: t =>
    GroupDef.mk n (r = "Y") n (parseFieldRefsX fs) (parseGroupsX gs) (parseComponentRefsX cs)
      :: parseGroupsX t

/-! ## Validator framing computations (src/types.ts, computeChecksum /
computeBodyLength) -/

/-- `computeChecksum` from the validator: detect the delimiter, truncate at the
last occurrence of `<delim>10=` keeping that delimiter, and sum character
codes modulo 256, rendered as three zero-padded digits. -/
def computeChecksum (raw : Str) : Str :=
  let d := if raw.contains SOH then SOH else '|'
  match lastIdxOf raw (d :: ('1' :: '0' :: '=' :: [])) with
  | some k => pad3 (sumCodes (raw.take (k + 1)) % 256)
  | none => pad3 (sumCodes raw % 256)

/-- The first match of the regular expression `9=\d+` in `raw`: the index of
the match and the matched string. -/
def firstMatchNine (raw : Str) : Option (Nat × Str) :=
  (firstIdxAux
      (fun i =>
        match raw.drop i with
        | '9' :: '=' :: c :: _ => isDigitCh c
        | _ => false)
      (raw.length + 1) 0).map
    (fun i => (i, '9' :: '=' :: (raw.drop (i + 2)).takeWhile isDigitCh))

/-- `computeBodyLength` from the validator: characters from just after the
tag-9 field's value and delimiter up to and including the delimiter before
the tag-10 field. -/
def computeBodyLength (raw : Str) : Int :=
  let d := if raw.contains SOH then SOH else '|'
  match firstMatchNine raw with
  | none => 0
  | some (_, m) =>
    let idx9 : Int := match idxOf raw m with | some i => (i : Int) | none => -1
    let bodyStart : Int := idx9 + m.length + 1
    match lastIdxOf raw (d :: ('1' :: '0' :: '=' :: [])) with
    | none => 0
    | some bodyEnd => (bodyEnd : Int) - bodyStart + 1

/-! ## Message parser (parseMessage and helpers) -/

/-- `detectDelimiter`: SOH if present, else pipe, else SOH. -/
def detectDelimiter (raw : Str) : Char :=
  if raw.contains SOH then SOH else if raw.contains '|' then '|' else SOH

/-- One segment to a tag=value pair: find the first `=`, parse the tag. -/
def segToPair (part : Str) : Option (Int × Str) :=
  match part.findIdx? (fun c => c = '=') with
  | none => none
  | some i =>
    match jsParseIntDec (part.take i) with
    | none => none
    | some tag => some (tag, part.drop (i + 1))

/-- `splitFields`: split on the delimiter, drop empty segments, keep segments
with an `=` whose tag prefix parses as an integer. -/
def splitFields (raw : Str) (d : Char) : List (Int × Str) :=
  ((splitChar raw d).filter (fun s => s.length ≠ 0)).filterMap segToPair

/-- `collectSectionFieldNames`: names of a section's own fields plus the
fields of its referenced components. -/
def collectSectionFieldNames (fields : List FieldRef) (comps : List ComponentRef)
    (defn : FIXDefinition) : List String :=
  fields.map (fun f => f.name) ++
    comps.flatMap (fun cref =>
      match mapGet defn.components cref.name with
      | some comp => comp.fields.map (fun f => f.name)
      | none => [])

/-- Field names belonging to a group: its own fields plus its referenced
components' fields (the set built at the top of `parseGroup`). -/
def groupFieldNames (gd : GroupDef) (defn : FIXDefinition) : List String :=
  gd.fields.map (fun f => f.name) ++
    gd.components.flatMap (fun cref =>
      match mapGet defn.components cref.name with
      | some comp => comp.fields.map (fun f => f.name)
      | none => [])

/-- The group's entry-boundary sentinel: the first declared field. -/
def firstFieldNameOf (gd : GroupDef) : Option String :=
  gd.fields.head?.map (fun f => f.name)

/-- `findGroupDef`: group with the given counter field among `groups`, else
among the groups of the referenced components. -/
def findGroupDefIn (fieldName : String) (groups : List GroupDef)
    (comps : List ComponentRef) (defn : FIXDefinition) : Option GroupDef :=
  match groups.find? (fun g => g.counterField = fieldName) with
  | some g => some g
  | none =>
    comps.findSome? (fun cref =>
      (mapGet defn.components cref.name).bind
        (fun comp => comp.groups.find? (fun g => g.counterField = fieldName)))

mutual

/-- The entry-consuming `while` loop of `parseGroup`.  Returns the finished
entry and the number of pairs consumed from `idx` (the JavaScript code
returns the final index; the two formulations are equivalent since the index
never moves backwards). -/
def parseEntryLoop (defn : FIXDefinition) (gd : GroupDef) (pairs : List (Int × Str))
    (entry : GEntry) (isFirst : Bool) (idx : Nat) : GEntry × Nat :=
  if h : idx < pairs.length then
    let tag := (pairs.get ⟨idx, h⟩).1
    let value := (pairs.get ⟨idx, h⟩).2
    match mapGet defn.fieldsByTag tag with
    | none => (entry, 0)
    | some fd =>
      if ¬isFirst ∧ some fd.name = firstFieldNameOf gd then (entry, 0)
      else if ¬(groupFieldNames gd defn).contains fd.name then (entry, 0)
      else
        match gd.groups.find? (fun g => g.counterField = fd.name) with
        | some ng =>
          match jsParseIntDec value with
          | some n =>
            if n > 0 then
              let r := parseGroupEntries defn ng pairs n.toNat (idx + 1)
              let r2 := parseEntryLoop defn gd pairs (objSet entry fd.name (.grp r.1)) false
                (idx + 1 + r.2)
              (r2.1, 1 + r.2 + r2.2)
            else
              let r2 := parseEntryLoop defn gd pairs (objSet entry fd.name (.str value)) false
                (idx + 1)
              (r2.1, 1 + r2.2)
          | none =>
            let r2 := parseEntryLoop defn gd pairs (objSet entry fd.name (.str value)) false
              (idx + 1)
            (r2.1, 1 + r2.2)
        | none =>
          let r2 := parseEntryLoop defn gd pairs (objSet entry fd.name (.str value)) false
            (idx + 1)
          (r2.1, 1 + r2.2)
  else (entry, 0)
termination_by 2 * (pairs.length - idx)
decreasing_by
  all_goals simp_wf
  all_goals omega

/-- The entry-counting `for` loop of `parseGroup`: decode at most `count`
entries starting at `idx`; an entry consuming nothing leaves the scan in
place, so the remaining iterations all yield the same entry. -/
def parseGroupEntries (defn : FIXDefinition) (gd : GroupDef) (pairs : List (Int × Str))
    (count : Nat) (idx : Nat) : List GEntry × Nat :=
  match count with
  | 0 => ([], 0)
  | count' + 1 =>
    if h : idx < pairs.length then
      let r := parseEntryLoop defn gd pairs [] true idx
      if hc : r.2 = 0 then (r.1 :: List.replicate count' r.1, 0)
      else
        let rest := parseGroupEntries defn gd pairs count' (idx + r.2)
        (r.1 :: rest.1, r.2 + rest.2)
    else ([], 0)
termination_by 2 * (pairs.length - idx) + 1
decreasing_by
  all_goals simp_wf
  all_goals try unfold_let r at hc
  all_goals omega

end

/-- Mutable state threaded through `parseMessage`'s main loop. -/
structure PState where
  beginString : Str
  msgType : Str
  msgTypeName : String
  bodyLength : Option Int
  checkSum : Str
  msgDef : Option MessageDef
  header : List (String × Str)
  body : GEntry
  trailer : List (String × Str)
  allFields : List ParsedField

/-- The hardcoded structural header names added by `parseMessage`. -/
def stdHeaderNames : List String :=
  ["BeginString", "BodyLength", "MsgType", "SenderCompID", "TargetCompID",
   "MsgSeqNum", "SendingTime"]

/-- The field name used by the parser for a tag: the model's name, or the
placeholder for unknown tags. -/
def fieldNameOfTag (defn : FIXDefinition) (tag : Int) : String :=
  match mapGet defn.fieldsByTag tag with
  | some fd => fd.name
  | none => "Tag" ++ toString tag

/-- One visited pair: push the raw field, extract the standard tags
(8, 9, 10, 35), leaving categorization to the caller. -/
def extractStep (defn : FIXDefinition) (st : PState) (tag : Int) (value : Str) : PState :=
  let fdOpt := mapGet defn.fieldsByTag tag
  let fieldName := fieldNameOfTag defn tag
  let pf : ParsedField :=
    { tag := tag, name := fieldName, value := value,
      enumDescription := fdOpt.bind (fun fd => mapGet fd.values value) }
  let st := { st with allFields := st.allFields ++ [pf] }
  if tag = 8 then { st with beginString := value }
  else if tag = 9 then { st with bodyLength := jsParseIntDec value }
  else if tag = 10 then { st with checkSum := value }
  else if tag = 35 then
    let md := mapGet defn.messagesByType value
    { st with
      msgType := value
      msgDef := md
      msgTypeName := match md with | some m => m.name | none => st.msgTypeName }
  else st

/-- The group definition visible for a field name at the current point of the
walk: the current message's groups/components, else the header's. -/
def visibleGroupDef (defn : FIXDefinition) (mdOpt : Option MessageDef)
    (fieldName : String) : Option GroupDef :=
  match mdOpt.bind (fun md => findGroupDefIn fieldName md.groups md.components defn) with
  | some g => some g
  | none => findGroupDefIn fieldName defn.header.groups defn.header.components defn

/-- The main `while` loop of `parseMessage`. -/
def parseLoop (defn : FIXDefinition) (pairs : List (Int × Str))
    (hdrNames trlNames : List String) (st : PState) (idx : Nat) : PState :=
  if h : idx < pairs.length then
    let tag := (pairs.get ⟨idx, h⟩).1
    let value := (pairs.get ⟨idx, h⟩).2
    let fieldName := fieldNameOfTag defn tag
    let st := extractStep defn st tag value
    if hdrNames.contains fieldName then
      parseLoop defn pairs hdrNames trlNames
        { st with header := objSetS st.header fieldName value } (idx + 1)
    else if trlNames.contains fieldName then
      parseLoop defn pairs hdrNames trlNames
        { st with trailer := objSetS st.trailer fieldName value } (idx + 1)
    else
      match visibleGroupDef defn st.msgDef fieldName, mapGet defn.fieldsByTag tag with
      | some gd, some fd =>
        if fd.ftype = "NUMINGROUP" then
          match jsParseIntDec value with
          | some n =>
            if n > 0 then
              let r := parseGroupEntries defn gd pairs n.toNat (idx + 1)
              parseLoop defn pairs hdrNames trlNames
                { st with body := objSet st.body fieldName (.grp r.1) } (idx + 1 + r.2)
            else
              parseLoop defn pairs hdrNames trlNames
                { st with body := objSet st.body fieldName (.str value) } (idx + 1)
          | none =>
            parseLoop defn pairs hdrNames trlNames
              { st with body := objSet st.body fieldName (.str value) } (idx + 1)
        else
          parseLoop defn pairs hdrNames trlNames
            { st with body := objSet st.body fieldName (.str value) } (idx + 1)
      | _, _ =>
        parseLoop defn pairs hdrNames trlNames
          { st with body := objSet st.body fieldName (.str value) } (idx + 1)
  else st
termination_by pairs.length - idx
decreasing_by
  all_goals simp_wf
  all_goals omega

/-- Initial parse state (`let beginString = ''` etc.; `bodyLength = 0`). -/
def initPState : PState :=
  { beginString := [], msgType := [], msgTypeName := "", bodyLength := some 0,
    checkSum := [], msgDef := none, header := [], body := [], trailer := [],
    allFields := [] }

/-- Header names for a parse: schema-declared plus the hardcoded standard
names. -/
def headerNamesFor (defn : FIXDefinition) : List String :=
  collectSectionFieldNames defn.header.fields defn.header.components defn ++ stdHeaderNames

/-- Trailer names for a parse: schema-declared plus `CheckSum`. -/
def trailerNamesFor (defn : FIXDefinition) : List String :=
  collectSectionFieldNames defn.trailer.fields defn.trailer.components defn ++ ["CheckSum"]

/-- Package the final loop state as the returned `ParsedMessage`. -/
def pstateToMsg (st : PState) : ParsedMessage :=
  { beginString := st.beginString, msgType := st.msgType,
    msgTypeName := st.msgTypeName, bodyLength := st.bodyLength,
    checkSum := st.checkSum, header := st.header, body := st.body,
    trailer := st.trailer, fields := st.allFields }

/-- `parseMessage`: tokenize, then walk the pairs.  `none` models the thrown
`ParseError` on inputs with no extractable tag=value pair. -/
def parseMessageE (raw : Str) (defn : FIXDefinition) : Option ParsedMessage :=
  let d := detectDelimiter raw
  let pairs := splitFields raw d
  if pairs = [] then none
  else
    some (pstateToMsg
      (parseLoop defn pairs (headerNamesFor defn) (trailerNamesFor defn) initPState 0))

/-! ## Validator (src/types.ts, validateParsed / validateRaw) -/

/-- Wire text rendered back to a `String` (for issue messages). -/
def strOf (s : Str) : String := String.mk s

/-- `collectRequiredFields`: required own fields, then required fields of
required components, in declaration order. -/
def collectRequiredFields (fields : List FieldRef) (comps : List ComponentRef)
    (defn : FIXDefinition) : List String :=
  fields.filterMap (fun f => if f.required then some f.name else none) ++
    comps.flatMap (fun cref =>
      if cref.required then
        match mapGet defn.components cref.name with
        | some comp => comp.fields.filterMap (fun f => if f.required then some f.name else none)
        | none => []
      else [])

/-- `validateFieldType`: lexical check of a value against the declared data
type; `some` is the error text. -/
def validateFieldType (value : Str) (ty : String) : Option String :=
  if ty = "INT" ∨ ty = "SEQNUM" ∨ ty = "NUMINGROUP" ∨ ty = "LENGTH" then
    let core := match value with | '-' :: r => r | r => r
    if core ≠ [] ∧ core.all isDigitCh then none
    else some ("expected integer, got \"" ++ strOf value ++ "\"")
  else if ty = "PRICE" ∨ ty = "QTY" ∨ ty = "AMT" ∨ ty = "FLOAT" ∨ ty = "PERCENTAGE"
      ∨ ty = "PRICEOFFSET" then
    let core := match value with | '-' :: r => r | r => r
    let intPart := core.takeWhile isDigitCh
    let rest := core.drop intPart.length
    if intPart ≠ [] ∧
        (rest = [] ∨ (rest.head? = some '.' ∧ rest.tail ≠ [] ∧ rest.tail.all isDigitCh)) then
      none
    else some ("expected numeric, got \"" ++ strOf value ++ "\"")
  else if ty = "BOOLEAN" then
    if value = ['Y'] ∨ value = ['N'] then none
    else some ("expected Y or N, got \"" ++ strOf value ++ "\"")
  else if ty = "CHAR" then
    if value.length = 1 then none
    else some ("expected single char, got \"" ++ strOf value ++ "\"")
  else none

/-- `validateFieldEnum`: membership in a non-empty declared enum set; `some`
is the warning text. -/
def validateFieldEnum (value : Str) (fieldName : String) (defn : FIXDefinition) :
    Option String :=
  match mapGet defn.fieldsByName fieldName with
  | none => none
  | some fd =>
    if fd.values.length = 0 then none
    else if (mapGet fd.values value).isSome then none
    else
      some ("value \"" ++ strOf value ++ "\" not in allowed values: [" ++
        String.intercalate ", " (fd.values.map (fun p => strOf p.1)) ++ "]")

/-- Issues produced by the per-raw-field type/enum loop of `validateParsed`:
the pair of error and warning lists, in field order. -/
def fieldIssues (fieldsList : List ParsedField) (defn : FIXDefinition) :
    List VIssue × List VIssue :=
  fieldsList.foldl
    (fun acc field =>
      match mapGet defn.fieldsByTag field.tag with
      | none =>
        (acc.1,
          acc.2 ++ [{ tag := some field.tag, field := some field.name,
                      message := "Unknown field tag " ++ toString field.tag,
                      severity := .warning }])
      | some fd =>
        let acc1 :=
          match validateFieldType field.value fd.ftype with
          | some msg =>
            (acc.1 ++ [{ tag := some field.tag, field := some fd.name,
                         message := "Field \"" ++ fd.name ++ "\" (tag "
                           ++ toString field.tag ++ "): " ++ msg,
                         severity := .error }], acc.2)
          | none => acc
        match validateFieldEnum field.value fd.name defn with
        | some msg =>
          (acc1.1,
            acc1.2 ++ [{ tag := some field.tag, field := some fd.name,
                         message := "Field \"" ++ fd.name ++ "\" (tag "
                           ++ toString field.tag ++ "): " ++ msg,
                         severity := .warning }])
        | none => acc1)
    ([], [])

/-- The per-field check behind the missing-required-header-field loop of
`validateParsed`.  A header value that is the empty string counts as missing
(JavaScript truthiness); the three structural fields are skipped. -/
def hdrFieldCheck (msg : ParsedMessage) (defn : FIXDefinition) (fieldName : String) :
    Option VIssue :=
  if fieldName = "BeginString" ∨ fieldName = "BodyLength" ∨ fieldName = "MsgType" then
    none
  else
    let present : Bool := match objGetS msg.header fieldName with
      | some v => v ≠ []
      | none => false
    if present then none
    else
      some { tag := (mapGet defn.fieldsByName fieldName).map (fun fd => fd.tag),
             field := some fieldName,
             message := "Required header field \"" ++ fieldName ++ "\" is missing",
             severity := .error }

/-- The missing-required-header-field issues of `validateParsed`. -/
def missingHeaderIssues (msg : ParsedMessage) (defn : FIXDefinition) : List VIssue :=
  (collectRequiredFields defn.header.fields defn.header.components defn).filterMap
    (hdrFieldCheck msg defn)

/-- The per-field check behind the missing-required-body-field loop of
`validateParsed` (strict `=== undefined` check). -/
def bodyFieldCheck (msg : ParsedMessage) (msgDef : MessageDef) (defn : FIXDefinition)
    (fieldName : String) : Option VIssue :=
  if (objGet msg.body fieldName).isNone then
    some { tag := (mapGet defn.fieldsByName fieldName).map (fun fd => fd.tag),
           field := some fieldName,
           message := "Required field \"" ++ fieldName ++ "\" is missing for message type "
             ++ msgDef.name ++ " (" ++ strOf msg.msgType ++ ")",
           severity := .error }
  else none

/-- The missing-required-body-field issues of `validateParsed`. -/
def missingBodyIssues (msg : ParsedMessage) (msgDef : MessageDef) (defn : FIXDefinition) :
    List VIssue :=
  (collectRequiredFields msgDef.fields msgDef.components defn).filterMap
    (bodyFieldCheck msg msgDef defn)

/-- `validateParsed`: structural validation of a parsed message. -/
def validateParsed (msg : ParsedMessage) (defn : FIXDefinition) : VResult :=
  match mapGet defn.messagesByType msg.msgType with
  | none =>
    { valid := false,
      errors := [{ tag := some 35, field := some "MsgType",
                   message := "Unknown message type \"" ++ strOf msg.msgType ++ "\"",
                   severity := .error }],
      warnings := [] }
  | some msgDef =>
    let headerErrs := missingHeaderIssues msg defn
    let bodyErrs := missingBodyIssues msg msgDef defn
    let fi := fieldIssues msg.fields defn
    let errors := headerErrs ++ bodyErrs ++ fi.1
    { valid := errors.length = 0, errors := errors, warnings := fi.2 }

/-- The checksum-mismatch issue list of `validateRaw` (empty when the check
is skipped or passes). -/
def checksumIssues (raw : Str) (parsed : ParsedMessage) : List VIssue :=
  let expected := computeChecksum raw
  if parsed.checkSum ≠ [] ∧ parsed.checkSum ≠ expected then
    [{ tag := some 10, field := some "CheckSum",
       message := "Invalid checksum: expected " ++ strOf expected ++ ", got "
         ++ strOf parsed.checkSum,
       severity := .error }]
  else []

/-- The body-length-mismatch issue list of `validateRaw` (empty when the
check is skipped or passes; the declared value `0` or `NaN` is falsy). -/
def bodyLengthIssues (raw : Str) (parsed : ParsedMessage) : List VIssue :=
  let expected := computeBodyLength raw
  let truthy : Bool := match parsed.bodyLength with
    | none => false
    | some v => v ≠ 0
  if truthy ∧ parsed.bodyLength ≠ some expected then
    [{ tag := some 9, field := some "BodyLength",
       message := "BodyLength mismatch: expected " ++ toString expected ++ ", got "
         ++ (match parsed.bodyLength with | some v => toString v | none => "NaN"),
       severity := .warning }]
  else []

/-- `validateRaw`: parse, framing checks, then delegate to `validateParsed`. -/
def validateRaw (raw : Str) (defn : FIXDefinition) : VResult :=
  match parseMessageE raw defn with
  | none =>
    { valid := false,
      errors := [{ tag := none, field := none,
                   message := "Failed to parse message: Empty or unparseable FIX message",
                   severity := .error }],
      warnings := [] }
  | some parsed =>
    let csIssues := checksumIssues raw parsed
    let blIssues := bodyLengthIssues raw parsed
    let pr := validateParsed parsed defn
    { valid := (csIssues ++ pr.errors).length = 0,
      errors := csIssues ++ pr.errors,
      warnings := blIssues ++ pr.warnings }

/-! ## Message builder (MessageBuilder in the builder source) -/

/-- The builder's local checksum helper: plain sum of all character codes of
`content`, modulo 256, three zero-padded digits. -/
def builderChecksum (content : Str) : Str := pad3 (sumCodes content % 256)

/-- Builder session state (`MessageBuilder`): the bound definition, the
resolved message definition, the frame begin-string and the tag-keyed field
values. -/
structure Builder where
  definition : FIXDefinition
  msgDef : MessageDef
  beginString : Str
  fieldValues : List (Int × Str)

/-- The `BeginString` derived from the definition version in the builder
constructor. -/
def beginStringFor (defn : FIXDefinition) : Str :=
  if defn.major = 5 then ("FIXT.1.1").data
  else ("FIX.").data ++ decInt defn.major ++ ['.'] ++ decInt defn.minor

/-- `join(', ')` over wire-level strings. -/
def joinComma (parts : List Str) : Str :=
  (List.intersperse (',' :: ' ' :: []) parts).flatten

/-- The constructor's unknown-message-type error text, enumerating every
known type code. -/
def unknownTypeMsg (defn : FIXDefinition) (msgType : Str) : String :=
  strOf (("Unknown message type \"").data ++ msgType ++ ("\". Available types: ").data ++
    joinComma (defn.messagesByType.map (fun p => p.1)))

/-- The `MessageBuilder` constructor: reject unknown type codes, derive the
begin-string, seed tag 35. -/
def createBuilder (defn : FIXDefinition) (msgType : Str) : Except String Builder :=
  match mapGet defn.messagesByType msgType with
  | none => .error (unknownTypeMsg defn msgType)
  | some md =>
    .ok { definition := defn, msgDef := md, beginString := beginStringFor defn,
          fieldValues := [(35, msgType)] }

/-- `setTag`: tags 8, 9 and 10 are managed automatically and rejected. -/
def setTag (b : Builder) (tag : Int) (value : Str) : Except String Builder :=
  if tag = 8 ∨ tag = 9 ∨ tag = 10 then
    .error ("Tag " ++ toString tag ++ " ("
      ++ (if tag = 8 then "BeginString" else if tag = 9 then "BodyLength" else "CheckSum")
      ++ ") is managed automatically and cannot be set manually")
  else .ok { b with fieldValues := mapSet b.fieldValues tag value }

/-- `set`: resolve a field name through the model, then `setTag`. -/
def setByName (b : Builder) (name : String) (value : Str) : Except String Builder :=
  match mapGet b.definition.fieldsByName name with
  | none => .error ("Unknown field name \"" ++ name ++ "\"")
  | some fd => setTag b fd.tag value

/-- `clearTag`. -/
def clearTag (b : Builder) (tag : Int) : Builder :=
  { b with fieldValues := mapDel b.fieldValues tag }

/-- Insert an integer into a list sorted ascending (for the builder's
numeric sort of body tags). -/
def insertAsc (x : Int) : List Int → List Int
  | [] => [x]
  | y :: t => if x ≤ y then x :: y :: t else y :: insertAsc x t

/-- Ascending sort of the body tag list (`sort((a, b) => a - b)`). -/
def sortAsc (l : List Int) : List Int := l.foldr insertAsc []

/-- The tags emitted after tag 35, ascending (`sortedTags` in `build`). -/
def sortedBodyTags (b : Builder) : List Int :=
  sortAsc ((b.fieldValues.map (fun p => p.1)).filter
    (fun t => t ≠ 35 ∧ t ≠ 8 ∧ t ≠ 9 ∧ t ≠ 10))

/-- The body `tag=value` segments in emission order: tag 35 first (if its
value is truthy), then the remaining set fields ascending by tag. -/
def bodyParts (b : Builder) : List Str :=
  (match mapGet b.fieldValues 35 with
   | some mt => if mt = [] then [] else [('3' :: '5' :: '=' :: []) ++ mt]
   | none => []) ++
  (sortedBodyTags b).map (fun t => decInt t ++ ['='] ++ (mapGet b.fieldValues t).getD [])

/-- `join(SOH) + SOH` over the body segments. -/
def joinSOH (parts : List Str) : Str := (List.intersperse [SOH] parts).flatten ++ [SOH]

/-- The `8=...<SOH>9=...<SOH>` frame prefix of `build`. -/
def buildPrefix (b : Builder) (bodyLen : Nat) : Str :=
  ('8' :: '=' :: []) ++ b.beginString ++ [SOH] ++ ('9' :: '=' :: []) ++ decNat bodyLen ++ [SOH]

/-- `build()`: body segments, frame prefix with the exact body length, and
the checksum of everything before the tag-10 field. -/
def build (b : Builder) : Str :=
  let bodyStr := joinSOH (bodyParts b)
  let withoutChecksum := buildPrefix b bodyStr.length ++ bodyStr
  withoutChecksum ++ ('1' :: '0' :: '=' :: []) ++ builderChecksum withoutChecksum ++ [SOH]

/-! ## Claim C3: counter field of loaded groups -/

/-- All groups in a list together with their transitively nested groups. -/
def collectGroups : List GroupDef → List GroupDef
  | [] => []
  | GroupDef.mk n r c f gs comps :: t =>
    GroupDef.mk n r c f gs comps :: (collectGroups gs ++ collectGroups t)

/-- A group element whose name attribute differs from its first declared
field (the usual FIX-repository shape, for example NoPartyIDs/PartyID). -/
def c3xml : XmlGroup :=
  XmlGroup.mk "NoPartyIDs" "N" [{ name := "PartyID", required := "N" }] [] []

theorem c3_eval : parseGroupsX [c3xml] =
    [GroupDef.mk "NoPartyIDs" false "NoPartyIDs" [{ name := "PartyID", required := false }] [] []] := by
  simp [parseGroupsX, c3xml, parseFieldRefsX, parseComponentRefsX]

theorem collectGroups_append (l1 l2 : List GroupDef) :
    collectGroups (l1 ++ l2) = collectGroups l1 ++ collectGroups l2 := by
  induction l1 with
  | nil => simp [collectGroups]
  | cons g t ih =>
    cases g with
    | mk n r c f gs comps => simp [collectGroups, ih]

theorem parseGroupsX_counter_aux :
    ∀ bound, ∀ gs : List XmlGroup, sizeOf gs ≤ bound →
      ∀ g ∈ collectGroups (parseGroupsX gs), g.counterField = g.name := by
  intro bound
  induction bound with
  | zero =>
    intro gs hsz g hg
    cases gs with
    | nil => simp [parseGroupsX, collectGroups] at hg
    | cons x t => cases x with
      | mk a b c d e => simp at hsz
  | succ n ih =>
    intro gs hsz g hg
    cases gs with
    | nil => simp [parseGroupsX, collectGroups] at hg
    | cons x t =>
      cases x with
      | mk xn xr xf xg xc =>
        simp only [parseGroupsX, collectGroups] at hg
        rcases List.mem_cons.mp hg with h | h
        · subst h; rfl
        · rcases List.mem_append.mp h with h2 | h2
          · exact ih xg (by simp at hsz ⊢; omega) g h2
          · exact ih t (by simp at hsz ⊢; omega) g h2

/-- C3: the claim as written is refuted: the loader sets `counterField` to the
group element's own name attribute, which in general differs from the name of
the group's first declared field.  Concretely, a NoPartyIDs/PartyID group is
loaded with `counterField = "NoPartyIDs"` while its first declared field is
`PartyID`. -/
theorem c3_counterexample :
    ∃ g ∈ parseGroupsX [c3xml],
      g.counterField = "NoPartyIDs" ∧ firstFieldNameOf g = some "PartyID" := by
  refine ⟨GroupDef.mk "NoPartyIDs" false "NoPartyIDs"
    [{ name := "PartyID", required := false }] [] [], ?_, rfl, rfl⟩
  rw [c3_eval]
  exact List.mem_singleton.mpr rfl

/-- C3 (amended): for every GroupSpec the loader produces, including nested
ones, `counterFieldName` equals the group's own declared name attribute (the
FIX-repository convention makes that attribute the counter field's name); the
decoder's entry-boundary sentinel is instead the group's first declared
field. -/
theorem c3_counterField_eq_name (gs : List XmlGroup) :
    ∀ g ∈ collectGroups (parseGroupsX gs), g.counterField = g.name :=
  parseGroupsX_counter_aux (sizeOf gs) gs le_rfl

/-- C3 witness: the amended theorem applied to the concrete schema group. -/
theorem c3_witness :
    (GroupDef.mk "NoPartyIDs" false "NoPartyIDs"
        [{ name := "PartyID", required := false }] [] [] : GroupDef) ∈
      collectGroups (parseGroupsX [c3xml]) ∧
    (GroupDef.mk "NoPartyIDs" false "NoPartyIDs"
        [{ name := "PartyID", required := false }] [] [] : GroupDef).counterField =
      (GroupDef.mk "NoPartyIDs" false "NoPartyIDs"
        [{ name := "PartyID", required := false }] [] [] : GroupDef).name := by
  have hmem : (GroupDef.mk "NoPartyIDs" false "NoPartyIDs"
      [{ name := "PartyID", required := false }] [] [] : GroupDef) ∈
      collectGroups (parseGroupsX [c3xml]) := by
    rw [c3_eval]; simp [collectGroups]
  exact ⟨hmem, c3_counterField_eq_name [c3xml] _ hmem⟩

/-! ## Claim C9: builder construction -/

theorem flatten_intersperse_cons (sep p : Str) :
    ∀ t : List Str, (List.intersperse sep (p :: t)).flatten =
      p ++ t.flatMap (fun x => sep ++ x) := by
  intro t
  induction t generalizing p with
  | nil => simp [List.intersperse]
  | cons q t2 ih => simp [List.intersperse, ih q]

theorem mem_infix_flatMap (sep : Str) (l : List Str) (code : Str) (h : code ∈ l) :
    code <:+: l.flatMap (fun x => sep ++ x) := by
  induction l with
  | nil => simp at h
  | cons r t ih =>
    simp only [List.flatMap_cons]
    rcases List.mem_cons.mp h with h1 | h1
    · subst h1
      exact ((List.suffix_append sep code).isInfix).trans (List.prefix_append _ _).isInfix
    · exact (ih h1).trans (List.suffix_append _ _).isInfix

theorem mem_infix_joinComma (parts : List Str) (code : Str) (h : code ∈ parts) :
    code <:+: joinComma parts := by
  induction parts with
  | nil => simp at h
  | cons p t _ =>
    rw [joinComma, flatten_intersperse_cons]
    rcases List.mem_cons.mp h with h1 | h1
    · subst h1
      exact (List.prefix_append _ _).isInfix
    · exact (mem_infix_flatMap _ t code h1).trans (List.suffix_append _ _).isInfix

/-- C9: requesting a builder for a type code absent from the model fails with
the unknown-type error, whose text contains every known type code (joined
after the "Available types:" banner), and no session is produced; for a code
present in the model, construction succeeds with the seeded tag-35 session. -/
theorem c9_builder_construction (defn : FIXDefinition) (mt : Str) :
    (mapGet defn.messagesByType mt = none →
      createBuilder defn mt = .error (unknownTypeMsg defn mt) ∧
      ∀ code ∈ defn.messagesByType.map (fun p => p.1),
        code <:+: (unknownTypeMsg defn mt).data) ∧
    (∀ md, mapGet defn.messagesByType mt = some md →
      createBuilder defn mt = .ok { definition := defn, msgDef := md,
                                    beginString := beginStringFor defn,
                                    fieldValues := [(35, mt)] }) := by
  constructor
  · intro hnone
    refine ⟨by simp [createBuilder, hnone], ?_⟩
    intro code hcode
    have h1 : (unknownTypeMsg defn mt).data =
        ("Unknown message type \"").data ++ mt ++ ("\". Available types: ").data ++
          joinComma (defn.messagesByType.map (fun p => p.1)) := rfl
    rw [h1]
    exact (mem_infix_joinComma _ _ hcode).trans (List.suffix_append _ _).isInfix
  · intro md hsome
    simp [createBuilder, hsome]

/-- Standard framing field: BeginString(8). -/
def fdBegin : FieldDef := { tag := 8, name := "BeginString", ftype := "STRING", values := [] }

/-- Standard framing field: BodyLength(9). -/
def fdBodyLen : FieldDef := { tag := 9, name := "BodyLength", ftype := "LENGTH", values := [] }

/-- Standard field: MsgType(35). -/
def fdMsgType : FieldDef := { tag := 35, name := "MsgType", ftype := "STRING", values := [] }

/-- Standard framing field: CheckSum(10). -/
def fdCheckSum : FieldDef := { tag := 10, name := "CheckSum", ftype := "STRING", values := [] }

/-- Body field Side(54). -/
def fdSide : FieldDef := { tag := 54, name := "Side", ftype := "STRING", values := [] }

/-- A message type D with one mandatory body field Side. -/
def mdD : MessageDef :=
  { name := "Order", msgtype := ['D'], msgcat := "app",
    fields := [{ name := "Side", required := true }], groups := [], components := [] }

/-- A small definition model with the framing fields and message type D. -/
def mA : FIXDefinition :=
  { major := 4, minor := 4, servicepack := 0,
    fieldsByTag := [(8, fdBegin), (9, fdBodyLen), (35, fdMsgType), (10, fdCheckSum),
      (54, fdSide)],
    fieldsByName := [("BeginString", fdBegin), ("BodyLength", fdBodyLen),
      ("MsgType", fdMsgType), ("CheckSum", fdCheckSum), ("Side", fdSide)],
    messagesByType := [(['D'], mdD)],
    messagesByName := [("Order", mdD)],
    components := [],
    header := { fields := [], groups := [], components := [] },
    trailer := { fields := [], groups := [], components := [] } }

/-- C9 witness: unknown code "X" is rejected with the enumerating error and
the known code "D" yields a seeded session. -/
theorem c9_witness :
    createBuilder mA ['X'] = .error (unknownTypeMsg mA ['X']) ∧
    (['D'] : Str) <:+: (unknownTypeMsg mA ['X']).data ∧
    createBuilder mA ['D'] = .ok { definition := mA, msgDef := mdD,
                                   beginString := beginStringFor mA,
                                   fieldValues := [(35, ['D'])] } := by
  have h := c9_builder_construction mA ['X']
  have h2 := c9_builder_construction mA ['D']
  have hn : mapGet mA.messagesByType (['X'] : Str) = none := rfl
  have hs : mapGet mA.messagesByType (['D'] : Str) = some mdD := rfl
  refine ⟨(h.1 hn).1, ?_, h2.2 mdD hs⟩
  refine (h.1 hn).2 ['D'] ?_
  simp [mA]

/-! ## Claim C5: the recomputed checksum -/

/-- Modelled from the spec sentence for comparison: checksum as the sum of
every byte strictly before (not including) the delimiter that precedes the
checksum field, modulo 256, three zero-padded digits. -/
def specChecksumExcludingDelim (raw : Str) : Str :=
  let d := if raw.contains SOH then SOH else '|'
  match lastIdxOf raw (d :: ('1' :: '0' :: '=' :: [])) with
  | some k => pad3 (sumCodes (raw.take k) % 256)
  | none => pad3 (sumCodes raw % 256)

/-- The concrete raw text 8=A|10=x| used to separate the two readings. -/
def c5raw : Str := ['8', '=', 'A', '|', '1', '0', '=', 'x', '|']

/-- C5: the claim as written is refuted: the code sums every byte up to AND
INCLUDING the delimiter that precedes the checksum field.  On 8=A|10=x| the
code yields 050 (sum includes the pipe) while the claimed
delimiter-excluding sum yields 182. -/
theorem c5_counterexample :
    computeChecksum c5raw = ('0' :: '5' :: '0' :: []) ∧
    specChecksumExcludingDelim c5raw = ('1' :: '8' :: '2' :: []) ∧
    computeChecksum c5raw ≠ specChecksumExcludingDelim c5raw := by
  refine ⟨by decide, by decide, by decide⟩

theorem lastIdxAux_eq_some (s pat : Str) (m : Nat) :
    ∀ k, occursAt s pat m = true → m ≤ k →
      (∀ j, m < j → j ≤ k → occursAt s pat j = false) →
      lastIdxAux s pat k = some m := by
  intro k
  induction k with
  | zero =>
    intro hm hmk _
    interval_cases m
    simp [lastIdxAux, hm]
  | succ k ih =>
    intro hm hmk hmax
    by_cases he : m = k + 1
    · subst he
      simp [lastIdxAux, hm]
    · have hlt : m ≤ k := by omega
      have hko : occursAt s pat (k + 1) = false := hmax (k + 1) (by omega) le_rfl
      rw [lastIdxAux, hko]
      simp only [Bool.false_eq_true, if_false]
      exact ih hm hlt (fun j h1 h2 => hmax j h1 (by omega))

theorem occursAt_ge_length (s pat : Str) (j : Nat) (hj : s.length ≤ j) (hp : pat ≠ []) :
    occursAt s pat j = false := by
  rw [occursAt, List.drop_eq_nil_of_le hj]
  cases pat with
  | nil => simp at hp
  | cons c t => rfl

/-- C5 (amended): for every raw message whose text decomposes around the last
occurrence of `<delim>10=`, the checksum `validateRaw` recomputes equals the
sum of the character codes of every byte from the start of the message up to
AND INCLUDING the delimiter that precedes the checksum field, reduced modulo
256 and rendered as three zero-padded digits. -/
theorem c5_checksum_amended (raw a rest : Str) (d : Char)
    (hd : d = (if raw.contains SOH then SOH else '|'))
    (hsplit : raw = a ++ (d :: '1' :: '0' :: '=' :: []) ++ rest)
    (hlast : ∀ j, a.length < j → j < raw.length →
      occursAt raw (d :: '1' :: '0' :: '=' :: []) j = false) :
    computeChecksum raw = pad3 (sumCodes (a ++ [d]) % 256) := by
  have hocc : occursAt raw (d :: '1' :: '0' :: '=' :: []) a.length = true := by
    rw [occursAt, hsplit]
    rw [show a ++ (d :: '1' :: '0' :: '=' :: []) ++ rest
        = a ++ ((d :: '1' :: '0' :: '=' :: []) ++ rest) by simp]
    rw [List.drop_left]
    exact List.isPrefixOf_iff_prefix.mpr (List.prefix_append _ _)
  have hlen : a.length + 4 ≤ raw.length := by
    rw [hsplit]; simp
  have hidx : lastIdxOf raw (d :: '1' :: '0' :: '=' :: []) = some a.length := by
    rw [lastIdxOf]
    refine lastIdxAux_eq_some raw _ a.length raw.length hocc (by omega) ?_
    intro j h1 h2
    by_cases hjl : j < raw.length
    · exact hlast j h1 hjl
    · exact occursAt_ge_length raw _ j (by omega) (by simp)
  rw [computeChecksum]
  simp only [← hd, hidx]
  have h1 : List.take (a.length + 1) raw = a ++ [d] := by
    rw [hsplit]
    rw [show a ++ ([d, '1', '0', '='] : Str) ++ rest
        = a ++ (d :: ('1' :: '0' :: '=' :: rest)) by simp]
    rw [List.take_append_eq_append_take]
    have h2 : a.length + 1 - a.length = 1 := by omega
    rw [h2]
    have h3 : List.take (a.length + 1) a = a :=
      List.take_of_length_le (by omega)
    rw [h3]
    rfl
  rw [h1]

/-- C5 witness: the amended checksum characterization applied to 8=A|10=x|. -/
theorem c5_witness :
    computeChecksum c5raw =
      pad3 (sumCodes (('8' :: '=' :: 'A' :: []) ++ ['|']) % 256) := by
  refine c5_checksum_amended c5raw ('8' :: '=' :: 'A' :: []) ('x' :: '|' :: []) '|'
    (by decide) (by decide) ?_
  intro j h1 h2
  have h3 : j < 9 := h2
  interval_cases j <;> simp_all <;> decide

/-! ## Small-step characterizations of the parse loops -/

theorem getPair_of_getElem? {pairs : List (Int × Str)} {idx : Nat} {tag : Int} {value : Str}
    (hpair : pairs[idx]? = some (tag, value)) :
    ∃ h : idx < pairs.length, pairs.get ⟨idx, h⟩ = (tag, value) := by
  rw [List.getElem?_eq_some] at hpair
  obtain ⟨h2, h3⟩ := hpair
  exact ⟨h2, by simp [List.get_eq_getElem, h3]⟩

theorem parseLoop_halt (defn : FIXDefinition) (pairs : List (Int × Str))
    (hdr trl : List String) (st : PState) (idx : Nat) (h : pairs.length ≤ idx) :
    parseLoop defn pairs hdr trl st idx = st := by
  rw [parseLoop, dif_neg (by omega)]

theorem parseLoop_step_header (defn : FIXDefinition) (pairs : List (Int × Str))
    (hdr trl : List String) (st : PState) (idx : Nat) (tag : Int) (value : Str)
    (st2 : PState)
    (hpair : pairs[idx]? = some (tag, value))
    (hst2 : extractStep defn st tag value = st2)
    (hh : hdr.contains (fieldNameOfTag defn tag) = true) :
    parseLoop defn pairs hdr trl st idx =
      parseLoop defn pairs hdr trl
        { st2 with header := objSetS st2.header (fieldNameOfTag defn tag) value } (idx + 1) := by
  obtain ⟨h, hget⟩ := getPair_of_getElem? hpair
  rw [parseLoop, dif_pos h]
  simp only [hget, hst2, hh, if_true]

theorem parseLoop_step_trailer (defn : FIXDefinition) (pairs : List (Int × Str))
    (hdr trl : List String) (st : PState) (idx : Nat) (tag : Int) (value : Str)
    (st2 : PState)
    (hpair : pairs[idx]? = some (tag, value))
    (hst2 : extractStep defn st tag value = st2)
    (hh : hdr.contains (fieldNameOfTag defn tag) = false)
    (ht : trl.contains (fieldNameOfTag defn tag) = true) :
    parseLoop defn pairs hdr trl st idx =
      parseLoop defn pairs hdr trl
        { st2 with trailer := objSetS st2.trailer (fieldNameOfTag defn tag) value } (idx + 1) := by
  obtain ⟨h, hget⟩ := getPair_of_getElem? hpair
  rw [parseLoop, dif_pos h]
  simp only [hget, hst2, hh, ht, if_true, Bool.false_eq_true, if_false]

theorem parseLoop_step_body_nogroup (defn : FIXDefinition) (pairs : List (Int × Str))
    (hdr trl : List String) (st : PState) (idx : Nat) (tag : Int) (value : Str)
    (st2 : PState)
    (hpair : pairs[idx]? = some (tag, value))
    (hst2 : extractStep defn st tag value = st2)
    (hh : hdr.contains (fieldNameOfTag defn tag) = false)
    (ht : trl.contains (fieldNameOfTag defn tag) = false)
    (hgd : visibleGroupDef defn st2.msgDef (fieldNameOfTag defn tag) = none ∨
        mapGet defn.fieldsByTag tag = none ∨
        (∀ fd, mapGet defn.fieldsByTag tag = some fd → fd.ftype ≠ "NUMINGROUP") ∨
        jsParseIntDec value = none ∨ (∃ n, jsParseIntDec value = some n ∧ n ≤ 0)) :
    parseLoop defn pairs hdr trl st idx =
      parseLoop defn pairs hdr trl
        { st2 with body := objSet st2.body (fieldNameOfTag defn tag) (.str value) } (idx + 1) := by
  obtain ⟨h, hget⟩ := getPair_of_getElem? hpair
  rw [parseLoop, dif_pos h]
  simp only [hget, hst2, hh, ht, Bool.false_eq_true, if_false]
  rcases hgd with hgd | hgd | hgd | hgd | hgd
  · rw [hgd]
  · rw [hgd]
    rcases hv : visibleGroupDef defn st2.msgDef (fieldNameOfTag defn tag) with _ | gd <;> rfl
  · rcases hv : visibleGroupDef defn st2.msgDef (fieldNameOfTag defn tag) with _ | gd
    · rcases hfd : mapGet defn.fieldsByTag tag with _ | fd <;> rfl
    · rcases hfd : mapGet defn.fieldsByTag tag with _ | fd
      · rfl
      · have := hgd fd hfd
        simp only [if_neg this]
  · rcases hv : visibleGroupDef defn st2.msgDef (fieldNameOfTag defn tag) with _ | gd
    · rcases hfd : mapGet defn.fieldsByTag tag with _ | fd <;> rfl
    · rcases hfd : mapGet defn.fieldsByTag tag with _ | fd
      · rfl
      · by_cases hty : fd.ftype = "NUMINGROUP"
        · simp only [if_pos hty, hgd]
        · simp only [if_neg hty]
  · obtain ⟨n, hn, hle⟩ := hgd
    rcases hv : visibleGroupDef defn st2.msgDef (fieldNameOfTag defn tag) with _ | gd
    · rcases hfd : mapGet defn.fieldsByTag tag with _ | fd <;> rfl
    · rcases hfd : mapGet defn.fieldsByTag tag with _ | fd
      · rfl
      · by_cases hty : fd.ftype = "NUMINGROUP"
        · simp only [if_pos hty, hn]
          rw [if_neg (by omega)]
        · simp only [if_neg hty]

theorem parseLoop_step_group (defn : FIXDefinition) (pairs : List (Int × Str))
    (hdr trl : List String) (st : PState) (idx : Nat) (tag : Int) (value : Str)
    (st2 : PState) (gd : GroupDef) (fd : FieldDef) (n : Int) (es : List GEntry) (c : Nat)
    (hpair : pairs[idx]? = some (tag, value))
    (hst2 : extractStep defn st tag value = st2)
    (hh : hdr.contains (fieldNameOfTag defn tag) = false)
    (ht : trl.contains (fieldNameOfTag defn tag) = false)
    (hv : visibleGroupDef defn st2.msgDef (fieldNameOfTag defn tag) = some gd)
    (hfd : mapGet defn.fieldsByTag tag = some fd)
    (hty : fd.ftype = "NUMINGROUP")
    (hn : jsParseIntDec value = some n)
    (hpos : 0 < n)
    (hge : parseGroupEntries defn gd pairs n.toNat (idx + 1) = (es, c)) :
    parseLoop defn pairs hdr trl st idx =
      parseLoop defn pairs hdr trl
        { st2 with body := objSet st2.body (fieldNameOfTag defn tag) (.grp es) }
        (idx + 1 + c) := by
  obtain ⟨h, hget⟩ := getPair_of_getElem? hpair
  rw [parseLoop, dif_pos h]
  simp only [hget, hst2, hh, ht, Bool.false_eq_true, if_false, hv, hfd, hty, if_true, hn,
    if_pos hpos, hge]

theorem pel_halt (defn : FIXDefinition) (gd : GroupDef) (pairs : List (Int × Str))
    (entry : GEntry) (isFirst : Bool) (idx : Nat) (h : pairs.length ≤ idx) :
    parseEntryLoop defn gd pairs entry isFirst idx = (entry, 0) := by
  rw [parseEntryLoop, dif_neg (by omega)]

theorem pel_stop_unknown (defn : FIXDefinition) (gd : GroupDef) (pairs : List (Int × Str))
    (entry : GEntry) (isFirst : Bool) (idx : Nat) (tag : Int) (value : Str)
    (hpair : pairs[idx]? = some (tag, value))
    (hfd : mapGet defn.fieldsByTag tag = none) :
    parseEntryLoop defn gd pairs entry isFirst idx = (entry, 0) := by
  obtain ⟨h, hget⟩ := getPair_of_getElem? hpair
  rw [parseEntryLoop, dif_pos h]
  simp only [hget, hfd]

theorem pel_stop_first (defn : FIXDefinition) (gd : GroupDef) (pairs : List (Int × Str))
    (entry : GEntry) (idx : Nat) (tag : Int) (value : Str) (fd : FieldDef)
    (hpair : pairs[idx]? = some (tag, value))
    (hfd : mapGet defn.fieldsByTag tag = some fd)
    (hfirst : some fd.name = firstFieldNameOf gd) :
    parseEntryLoop defn gd pairs entry false idx = (entry, 0) := by
  obtain ⟨h, hget⟩ := getPair_of_getElem? hpair
  rw [parseEntryLoop, dif_pos h]
  simp only [hget, hfd]
  rw [if_pos (by simp [hfirst])]

theorem pel_stop_notmem (defn : FIXDefinition) (gd : GroupDef) (pairs : List (Int × Str))
    (entry : GEntry) (isFirst : Bool) (idx : Nat) (tag : Int) (value : Str) (fd : FieldDef)
    (hpair : pairs[idx]? = some (tag, value))
    (hfd : mapGet defn.fieldsByTag tag = some fd)
    (hnf : isFirst = true ∨ some fd.name ≠ firstFieldNameOf gd)
    (hmem : (groupFieldNames gd defn).contains fd.name = false) :
    parseEntryLoop defn gd pairs entry isFirst idx = (entry, 0) := by
  obtain ⟨h, hget⟩ := getPair_of_getElem? hpair
  rw [parseEntryLoop, dif_pos h]
  simp only [hget, hfd]
  rw [if_neg (by rcases hnf with hnf | hnf <;> simp [hnf])]
  rw [if_pos (by simp; simp at hmem; exact hmem)]

theorem pel_step_value (defn : FIXDefinition) (gd : GroupDef) (pairs : List (Int × Str))
    (entry : GEntry) (isFirst : Bool) (idx : Nat) (tag : Int) (value : Str) (fd : FieldDef)
    (hpair : pairs[idx]? = some (tag, value))
    (hfd : mapGet defn.fieldsByTag tag = some fd)
    (hnf : isFirst = true ∨ some fd.name ≠ firstFieldNameOf gd)
    (hmem : (groupFieldNames gd defn).contains fd.name = true)
    (hnest : gd.groups.find? (fun g => g.counterField = fd.name) = none ∨
        (∃ ng, gd.groups.find? (fun g => g.counterField = fd.name) = some ng ∧
          (jsParseIntDec value = none ∨ ∃ n, jsParseIntDec value = some n ∧ n ≤ 0))) :
    parseEntryLoop defn gd pairs entry isFirst idx =
      (let r2 := parseEntryLoop defn gd pairs (objSet entry fd.name (.str value)) false (idx + 1)
       (r2.1, 1 + r2.2)) := by
  obtain ⟨h, hget⟩ := getPair_of_getElem? hpair
  rw [parseEntryLoop, dif_pos h]
  simp only [hget, hfd]
  rw [if_neg (by rcases hnf with hnf | hnf <;> simp [hnf])]
  rw [if_neg (by simp; simp at hmem; exact hmem)]
  rcases hnest with hnest | ⟨ng, hng, hbad⟩
  · rw [hnest]
  · rw [hng]
    rcases hbad with hbad | ⟨n, hn, hle⟩
    · rw [hbad]
    · simp only [hn]
      rw [if_neg (show ¬n > 0 by omega)]

theorem pel_step_nested (defn : FIXDefinition) (gd : GroupDef) (pairs : List (Int × Str))
    (entry : GEntry) (isFirst : Bool) (idx : Nat) (tag : Int) (value : Str) (fd : FieldDef)
    (ng : GroupDef) (n : Int) (es : List GEntry) (c : Nat)
    (hpair : pairs[idx]? = some (tag, value))
    (hfd : mapGet defn.fieldsByTag tag = some fd)
    (hnf : isFirst = true ∨ some fd.name ≠ firstFieldNameOf gd)
    (hmem : (groupFieldNames gd defn).contains fd.name = true)
    (hng : gd.groups.find? (fun g => g.counterField = fd.name) = some ng)
    (hn : jsParseIntDec value = some n) (hpos : 0 < n)
    (hge : parseGroupEntries defn ng pairs n.toNat (idx + 1) = (es, c)) :
    parseEntryLoop defn gd pairs entry isFirst idx =
      (let r2 := parseEntryLoop defn gd pairs (objSet entry fd.name (.grp es)) false
        (idx + 1 + c)
       (r2.1, 1 + c + r2.2)) := by
  obtain ⟨h, hget⟩ := getPair_of_getElem? hpair
  rw [parseEntryLoop, dif_pos h]
  simp only [hget, hfd]
  rw [if_neg (by rcases hnf with hnf | hnf <;> simp [hnf])]
  rw [if_neg (by simp; simp at hmem; exact hmem)]
  rw [hng]
  simp only [hn, if_pos hpos, hge]

theorem pge_zero (defn : FIXDefinition) (gd : GroupDef) (pairs : List (Int × Str))
    (idx : Nat) : parseGroupEntries defn gd pairs 0 idx = ([], 0) := by
  rw [parseGroupEntries]

theorem pge_halt (defn : FIXDefinition) (gd : GroupDef) (pairs : List (Int × Str))
    (count idx : Nat) (h : pairs.length ≤ idx) :
    parseGroupEntries defn gd pairs count idx = ([], 0) := by
  cases count with
  | zero => rw [parseGroupEntries]
  | succ k => rw [parseGroupEntries, dif_neg (by omega)]

theorem pge_step (defn : FIXDefinition) (gd : GroupDef) (pairs : List (Int × Str))
    (count idx : Nat) (e : GEntry) (c : Nat) (es : List GEntry) (c' : Nat)
    (h : idx < pairs.length)
    (he : parseEntryLoop defn gd pairs [] true idx = (e, c)) (hc : c ≠ 0)
    (hrest : parseGroupEntries defn gd pairs count (idx + c) = (es, c')) :
    parseGroupEntries defn gd pairs (count + 1) idx = (e :: es, c + c') := by
  rw [parseGroupEntries, dif_pos h]
  simp only [he]
  rw [dif_neg hc]
  simp only [hrest]

theorem pge_pad (defn : FIXDefinition) (gd : GroupDef) (pairs : List (Int × Str))
    (count idx : Nat) (e : GEntry)
    (h : idx < pairs.length)
    (he : parseEntryLoop defn gd pairs [] true idx = (e, 0)) :
    parseGroupEntries defn gd pairs (count + 1) idx = (e :: List.replicate count e, 0) := by
  rw [parseGroupEntries, dif_pos h]
  simp only [he]
  simp

theorem parseMessageE_eq (raw : Str) (defn : FIXDefinition) (pairs : List (Int × Str))
    (hp : splitFields raw (detectDelimiter raw) = pairs) (hne : pairs ≠ []) :
    parseMessageE raw defn =
      some (pstateToMsg
        (parseLoop defn pairs (headerNamesFor defn) (trailerNamesFor defn) initPState 0)) := by
  rw [parseMessageE]
  simp only [hp, if_neg hne]

/-! ## Claim C10: silent skipping of absent framing values -/

/-- C10: when the declared checksum is missing/empty the checksum check is
silently skipped, and when the declared body length is missing or zero the
body-length check is silently skipped: `validateRaw` returns exactly the
issues of `validateParsed`, so the absence of the framing fields is never
itself reported. -/
theorem c10_framing_skipped (raw : Str) (defn : FIXDefinition) (parsed : ParsedMessage)
    (hp : parseMessageE raw defn = some parsed) :
    (parsed.checkSum = [] →
      (validateRaw raw defn).errors = (validateParsed parsed defn).errors) ∧
    ((parsed.bodyLength = some 0 ∨ parsed.bodyLength = none) →
      (validateRaw raw defn).warnings = (validateParsed parsed defn).warnings) := by
  constructor
  · intro hcs
    rw [validateRaw]
    simp only [hp]
    have hcsi : checksumIssues raw parsed = [] := by
      rw [checksumIssues]
      simp [hcs]
    simp [hcsi]
  · intro hbl
    rw [validateRaw]
    simp only [hp]
    have hbli : bodyLengthIssues raw parsed = [] := by
      rw [bodyLengthIssues]
      rcases hbl with hbl | hbl <;> simp [hbl]
    simp [hbli]

/-- Raw text 8=A|35=D| : no tag 9 and no tag 10 at all. -/
def c10raw : Str := ['8', '=', 'A', '|', '3', '5', '=', 'D', '|']

/-- The parse of `c10raw` against `mA`. -/
def c10parsed : ParsedMessage :=
  { beginString := ['A'], msgType := ['D'], msgTypeName := "Order",
    bodyLength := some 0, checkSum := [],
    header := [("BeginString", ['A']), ("MsgType", ['D'])], body := [], trailer := [],
    fields := [{ tag := 8, name := "BeginString", value := ['A'], enumDescription := none },
               { tag := 35, name := "MsgType", value := ['D'], enumDescription := none }] }

theorem c10_parse_eval : parseMessageE c10raw mA = some c10parsed := by
  have h0 := parseMessageE_eq c10raw mA [(8, ['A']), (35, ['D'])] (by decide) (by decide)
  rw [h0]
  rw [parseLoop_step_header mA [(8, ['A']), (35, ['D'])] (headerNamesFor mA)
    (trailerNamesFor mA) initPState 0 8 ['A'] (extractStep mA initPState 8 ['A'])
    (by decide) rfl (by decide)]
  rw [parseLoop_step_header mA [(8, ['A']), (35, ['D'])] (headerNamesFor mA)
    (trailerNamesFor mA) _ 1 35 ['D'] _ (by decide) rfl (by decide)]
  rw [parseLoop_halt mA [(8, ['A']), (35, ['D'])] (headerNamesFor mA)
    (trailerNamesFor mA) _ 2 (by decide)]
  rfl

/-- C10 witness: on a message with no tag-10 and no tag-9 pair at all,
`validateRaw` adds no framing issue. -/
theorem c10_witness :
    (validateRaw c10raw mA).errors = (validateParsed c10parsed mA).errors ∧
    (validateRaw c10raw mA).warnings = (validateParsed c10parsed mA).warnings := by
  have h := c10_framing_skipped c10raw mA c10parsed c10_parse_eval
  exact ⟨h.1 rfl, h.2 (Or.inl rfl)⟩

/-! ## Claim C6: checksum mismatch is an error, body-length mismatch only a
warning -/

/-- C6: for raw input that parses, a checksum mismatch (with a non-empty
declared checksum) is reported as a tag-10 issue of severity error and makes
the result invalid; a body-length mismatch (with a truthy declared value) is
reported only as a tag-9 issue of severity warning; the error and warning
lists decompose so that the body-length check never contributes to the error
list, and validity is exactly emptiness of the error list. -/
theorem c6_framing_severities (raw : Str) (defn : FIXDefinition) (parsed : ParsedMessage)
    (hp : parseMessageE raw defn = some parsed) :
    ((parsed.checkSum ≠ [] ∧ parsed.checkSum ≠ computeChecksum raw) →
      (validateRaw raw defn).valid = false ∧
      ∃ i ∈ (validateRaw raw defn).errors,
        i.tag = some 10 ∧ i.field = some "CheckSum" ∧ i.severity = .error) ∧
    ((∃ v, parsed.bodyLength = some v ∧ v ≠ 0 ∧ v ≠ computeBodyLength raw) →
      ∃ i ∈ (validateRaw raw defn).warnings,
        i.tag = some 9 ∧ i.field = some "BodyLength" ∧ i.severity = .warning) ∧
    (validateRaw raw defn).errors =
      checksumIssues raw parsed ++ (validateParsed parsed defn).errors ∧
    (validateRaw raw defn).warnings =
      bodyLengthIssues raw parsed ++ (validateParsed parsed defn).warnings ∧
    ((validateRaw raw defn).valid = true ↔ (validateRaw raw defn).errors = []) := by
  have hvr : validateRaw raw defn =
      { valid := (checksumIssues raw parsed ++ (validateParsed parsed defn).errors).length = 0,
        errors := checksumIssues raw parsed ++ (validateParsed parsed defn).errors,
        warnings := bodyLengthIssues raw parsed ++ (validateParsed parsed defn).warnings } := by
    rw [validateRaw]
    simp only [hp]
  refine ⟨?_, ?_, by rw [hvr], by rw [hvr], ?_⟩
  · intro ⟨h1, h2⟩
    have hcs : checksumIssues raw parsed =
        [{ tag := some 10, field := some "CheckSum",
           message := "Invalid checksum: expected " ++ strOf (computeChecksum raw) ++ ", got "
             ++ strOf parsed.checkSum,
           severity := .error }] := by
      rw [checksumIssues]
      rw [if_pos ⟨h1, h2⟩]
    rw [hvr]
    constructor
    · simp [hcs]
    · exact ⟨{ tag := some 10, field := some "CheckSum",
               message := "Invalid checksum: expected " ++ strOf (computeChecksum raw)
                 ++ ", got " ++ strOf parsed.checkSum,
               severity := .error }, by simp [hcs], rfl, rfl, rfl⟩
  · intro ⟨v, hv, hv0, hvne⟩
    have hbl : bodyLengthIssues raw parsed =
        [{ tag := some 9, field := some "BodyLength",
           message := "BodyLength mismatch: expected " ++ toString (computeBodyLength raw)
             ++ ", got " ++ toString v,
           severity := .warning }] := by
      rw [bodyLengthIssues]
      rw [if_pos ?_]
      · simp [hv]
      · constructor
        · simp [hv, hv0]
        · simp [hv, hvne]
    rw [hvr]
    exact ⟨{ tag := some 9, field := some "BodyLength",
             message := "BodyLength mismatch: expected " ++ toString (computeBodyLength raw)
               ++ ", got " ++ toString v,
             severity := .warning }, by simp [hbl], rfl, rfl, rfl⟩
  · rw [hvr]
    simp [List.length_eq_zero]

/-- Raw text 8=A|9=7|35=D|10=999| : checksum and body length both mismatch. -/
def c6raw : Str :=
  ['8', '=', 'A', '|', '9', '=', '7', '|', '3', '5', '=', 'D', '|',
   '1', '0', '=', '9', '9', '9', '|']

/-- The parse of `c6raw` against `mA`. -/
def c6parsed : ParsedMessage :=
  { beginString := ['A'], msgType := ['D'], msgTypeName := "Order",
    bodyLength := some 7, checkSum := ['9', '9', '9'],
    header := [("BeginString", ['A']), ("BodyLength", ['7']), ("MsgType", ['D'])],
    body := [], trailer := [("CheckSum", ['9', '9', '9'])],
    fields := [{ tag := 8, name := "BeginString", value := ['A'], enumDescription := none },
               { tag := 9, name := "BodyLength", value := ['7'], enumDescription := none },
               { tag := 35, name := "MsgType", value := ['D'], enumDescription := none },
               { tag := 10, name := "CheckSum", value := ['9', '9', '9'],
                 enumDescription := none }] }

theorem c6_parse_eval : parseMessageE c6raw mA = some c6parsed := by
  have h0 := parseMessageE_eq c6raw mA
    [(8, ['A']), (9, ['7']), (35, ['D']), (10, ['9', '9', '9'])] (by decide) (by decide)
  rw [h0]
  rw [parseLoop_step_header mA [(8, ['A']), (9, ['7']), (35, ['D']), (10, ['9', '9', '9'])]
    (headerNamesFor mA) (trailerNamesFor mA) initPState 0 8 ['A']
    (extractStep mA initPState 8 ['A']) (by decide) rfl (by decide)]
  rw [parseLoop_step_header mA [(8, ['A']), (9, ['7']), (35, ['D']), (10, ['9', '9', '9'])]
    (headerNamesFor mA) (trailerNamesFor mA) _ 1 9 ['7'] _ (by decide) rfl (by decide)]
  rw [parseLoop_step_header mA [(8, ['A']), (9, ['7']), (35, ['D']), (10, ['9', '9', '9'])]
    (headerNamesFor mA) (trailerNamesFor mA) _ 2 35 ['D'] _ (by decide) rfl (by decide)]
  rw [parseLoop_step_trailer mA [(8, ['A']), (9, ['7']), (35, ['D']), (10, ['9', '9', '9'])]
    (headerNamesFor mA) (trailerNamesFor mA) _ 3 10 ['9', '9', '9'] _ (by decide) rfl
    (by decide) (by decide)]
  rw [parseLoop_halt mA [(8, ['A']), (9, ['7']), (35, ['D']), (10, ['9', '9', '9'])]
    (headerNamesFor mA) (trailerNamesFor mA) _ 4 (by decide)]
  rfl

/-- C6 witness: on a message declaring checksum 999 and body length 7 whose
recomputed values differ, the checksum mismatch is an error making the result
invalid and the body-length mismatch is a warning. -/
theorem c6_witness :
    (validateRaw c6raw mA).valid = false ∧
    (∃ i ∈ (validateRaw c6raw mA).errors,
      i.tag = some 10 ∧ i.field = some "CheckSum" ∧ i.severity = .error) ∧
    (∃ i ∈ (validateRaw c6raw mA).warnings,
      i.tag = some 9 ∧ i.field = some "BodyLength" ∧ i.severity = .warning) := by
  have h := c6_framing_severities c6raw mA c6parsed c6_parse_eval
  have h1 := h.1 (by constructor <;> decide)
  have h2 := h.2.1 ⟨7, rfl, by decide, by decide⟩
  exact ⟨h1.1, h1.2, h2⟩

/-! ## Claim C8: removal of a single mandatory field -/

/-- Removing a field (by name) from a parsed message: the claim's mutation. -/
def removeField (m : ParsedMessage) (name : String) : ParsedMessage :=
  { m with header := m.header.filter (fun p => p.1 ≠ name),
           body := m.body.filter (fun p => p.1 ≠ name),
           fields := m.fields.filter (fun f => f.name ≠ name) }

theorem assocFind_filter_ne {β : Type} (l : List (String × β)) (F k : String) (hk : k ≠ F) :
    (l.filter (fun p => p.1 ≠ F)).find? (fun p => p.1 = k) = l.find? (fun p => p.1 = k) := by
  induction l with
  | nil => rfl
  | cons a t ih =>
    by_cases ha : a.1 = F
    · have h1 : ¬(a.1 = k) := by rw [ha]; exact fun h => hk h.symm
      rw [List.filter_cons, if_neg (by simp [ha])]
      rw [List.find?_cons_of_neg _ (by simp [h1])]
      exact ih
    · rw [List.filter_cons, if_pos (by simp [ha])]
      by_cases hak : a.1 = k
      · rw [List.find?_cons_of_pos _ (by simp [hak]), List.find?_cons_of_pos _ (by simp [hak])]
      · rw [List.find?_cons_of_neg _ (by simp [hak]), List.find?_cons_of_neg _ (by simp [hak])]
        exact ih

theorem assocFind_filter_self {β : Type} (l : List (String × β)) (F : String) :
    (l.filter (fun p => p.1 ≠ F)).find? (fun p => p.1 = F) = none := by
  induction l with
  | nil => rfl
  | cons a t ih =>
    by_cases ha : a.1 = F
    · rw [List.filter_cons, if_neg (by simp [ha])]
      exact ih
    · rw [List.filter_cons, if_pos (by simp [ha])]
      rw [List.find?_cons_of_neg _ (by simp [ha])]
      exact ih

theorem filterMap_count_replicate (l : List String) (f : String → Option VIssue) (F : String)
    (e : VIssue) (hother : ∀ x ∈ l, x ≠ F → f x = none) (hF : f F = some e) :
    l.filterMap f = List.replicate (l.count F) e := by
  induction l with
  | nil => rfl
  | cons a t ih =>
    by_cases ha : a = F
    · subst ha
      simp only [List.filterMap_cons, hF, List.count_cons_self, List.replicate_succ]
      rw [ih (fun x hx => hother x (List.mem_cons_of_mem _ hx))]
    · have hc : (a :: t).count F = t.count F := by
        rw [List.count_cons]
        simp
        exact ha
      simp only [List.filterMap_cons, hother a (List.mem_cons_self _ _) ha, hc]
      exact ih (fun x hx => hother x (List.mem_cons_of_mem _ hx))

/-- Error issues contributed by one raw field in `validateParsed`. -/
def errsOfField (defn : FIXDefinition) (field : ParsedField) : List VIssue :=
  match mapGet defn.fieldsByTag field.tag with
  | none => []
  | some fd =>
    match validateFieldType field.value fd.ftype with
    | some msg =>
      [{ tag := some field.tag, field := some fd.name,
         message := "Field \"" ++ fd.name ++ "\" (tag " ++ toString field.tag ++ "): " ++ msg,
         severity := .error }]
    | none => []

/-- Warning issues contributed by one raw field in `validateParsed`. -/
def warnsOfField (defn : FIXDefinition) (field : ParsedField) : List VIssue :=
  match mapGet defn.fieldsByTag field.tag with
  | none =>
    [{ tag := some field.tag, field := some field.name,
       message := "Unknown field tag " ++ toString field.tag, severity := .warning }]
  | some fd =>
    match validateFieldEnum field.value fd.name defn with
    | some msg =>
      [{ tag := some field.tag, field := some fd.name,
         message := "Field \"" ++ fd.name ++ "\" (tag " ++ toString field.tag ++ "): " ++ msg,
         severity := .warning }]
    | none => []

theorem fieldIssues_flatMap (defn : FIXDefinition) :
    ∀ (l : List ParsedField) (acc : List VIssue × List VIssue),
      l.foldl
        (fun acc field =>
          match mapGet defn.fieldsByTag field.tag with
          | none =>
            (acc.1,
              acc.2 ++ [{ tag := some field.tag, field := some field.name,
                          message := "Unknown field tag " ++ toString field.tag,
                          severity := .warning }])
          | some fd =>
            let acc1 :=
              match validateFieldType field.value fd.ftype with
              | some msg =>
                (acc.1 ++ [{ tag := some field.tag, field := some fd.name,
                             message := "Field \"" ++ fd.name ++ "\" (tag "
                               ++ toString field.tag ++ "): " ++ msg,
                             severity := .error }], acc.2)
              | none => acc
            match validateFieldEnum field.value fd.name defn with
            | some msg =>
              (acc1.1,
                acc1.2 ++ [{ tag := some field.tag, field := some fd.name,
                             message := "Field \"" ++ fd.name ++ "\" (tag "
                               ++ toString field.tag ++ "): " ++ msg,
                             severity := .warning }])
            | none => acc1)
        acc =
      (acc.1 ++ l.flatMap (errsOfField defn), acc.2 ++ l.flatMap (warnsOfField defn)) := by
  intro l
  induction l with
  | nil => intro acc; simp
  | cons x t ih =>
    intro acc
    rw [List.foldl_cons, ih]
    rw [List.flatMap_cons, List.flatMap_cons]
    rcases hfd : mapGet defn.fieldsByTag x.tag with _ | fd
    · simp only [errsOfField, warnsOfField, hfd]
      simp
    · rcases hty : validateFieldType x.value fd.ftype with _ | msg <;>
        rcases hen : validateFieldEnum x.value fd.name defn with _ | msg2 <;>
          simp only [errsOfField, warnsOfField, hfd, hty, hen] <;> simp

theorem fieldIssues_eq (defn : FIXDefinition) (l : List ParsedField) :
    fieldIssues l defn = (l.flatMap (errsOfField defn), l.flatMap (warnsOfField defn)) := by
  rw [fieldIssues, fieldIssues_flatMap defn l ([], [])]
  simp

theorem validateParsed_eq (msg : ParsedMessage) (defn : FIXDefinition) (msgDef : MessageDef)
    (hmd : mapGet defn.messagesByType msg.msgType = some msgDef) :
    validateParsed msg defn =
      { valid := (missingHeaderIssues msg defn ++ missingBodyIssues msg msgDef defn ++
          (fieldIssues msg.fields defn).1).length = 0,
        errors := missingHeaderIssues msg defn ++ missingBodyIssues msg msgDef defn ++
          (fieldIssues msg.fields defn).1,
        warnings := (fieldIssues msg.fields defn).2 } := by
  rw [validateParsed]
  simp only [hmd]

theorem hdrFieldCheck_remove_ne (msg : ParsedMessage) (defn : FIXDefinition) (F x : String)
    (hx : x ≠ F) : hdrFieldCheck (removeField msg F) defn x = hdrFieldCheck msg defn x := by
  rw [hdrFieldCheck, hdrFieldCheck]
  have h1 : objGetS (removeField msg F).header x = objGetS msg.header x := by
    rw [objGetS, objGetS]
    rw [show (removeField msg F).header = msg.header.filter (fun p => p.1 ≠ F) from rfl]
    rw [assocFind_filter_ne msg.header F x hx]
  rw [h1]

theorem objGetS_remove_self (msg : ParsedMessage) (F : String) :
    objGetS (removeField msg F).header F = none := by
  rw [objGetS]
  rw [show (removeField msg F).header = msg.header.filter (fun p => p.1 ≠ F) from rfl]
  rw [assocFind_filter_self msg.header F]
  rfl

theorem hdrFieldCheck_remove_self (msg : ParsedMessage) (defn : FIXDefinition) (F : String)
    (hstd : ¬(F = "BeginString" ∨ F = "BodyLength" ∨ F = "MsgType")) :
    hdrFieldCheck (removeField msg F) defn F =
      some { tag := (mapGet defn.fieldsByName F).map (fun fd => fd.tag),
             field := some F,
             message := "Required header field \"" ++ F ++ "\" is missing",
             severity := .error } := by
  rw [hdrFieldCheck, if_neg hstd]
  rw [objGetS_remove_self]
  rfl

theorem bodyFieldCheck_remove_ne (msg : ParsedMessage) (msgDef : MessageDef)
    (defn : FIXDefinition) (F x : String) (hx : x ≠ F) :
    bodyFieldCheck (removeField msg F) msgDef defn x = bodyFieldCheck msg msgDef defn x := by
  rw [bodyFieldCheck, bodyFieldCheck]
  have h1 : objGet (removeField msg F).body x = objGet msg.body x := by
    rw [objGet, objGet]
    rw [show (removeField msg F).body = msg.body.filter (fun p => p.1 ≠ F) from rfl]
    rw [assocFind_filter_ne msg.body F x hx]
  rw [h1]
  rfl

theorem bodyFieldCheck_remove_self (msg : ParsedMessage) (msgDef : MessageDef)
    (defn : FIXDefinition) (F : String) :
    bodyFieldCheck (removeField msg F) msgDef defn F =
      some { tag := (mapGet defn.fieldsByName F).map (fun fd => fd.tag),
             field := some F,
             message := "Required field \"" ++ F ++ "\" is missing for message type "
               ++ msgDef.name ++ " (" ++ strOf msg.msgType ++ ")",
             severity := .error } := by
  rw [bodyFieldCheck]
  have h1 : objGet (removeField msg F).body F = none := by
    rw [objGet]
    rw [show (removeField msg F).body = msg.body.filter (fun p => p.1 ≠ F) from rfl]
    rw [assocFind_filter_self msg.body F]
    rfl
  rw [h1]
  rfl

/-- C8 (amended): removing a single mandatory field that the model requires
exactly once (and that is not one of the three structural fields) from a
message that validates cleanly yields valid=false with exactly one error,
and that error identifies the removed field. -/
theorem c8_single_mandatory_removal (msg : ParsedMessage) (defn : FIXDefinition)
    (msgDef : MessageDef) (F : String)
    (hmd : mapGet defn.messagesByType msg.msgType = some msgDef)
    (hvalid : (validateParsed msg defn).errors = [])
    (hcount : (collectRequiredFields defn.header.fields defn.header.components defn).count F
        + (collectRequiredFields msgDef.fields msgDef.components defn).count F = 1)
    (hstd : ¬(F = "BeginString" ∨ F = "BodyLength" ∨ F = "MsgType")) :
    (validateParsed (removeField msg F) defn).valid = false ∧
    ∃ e, (validateParsed (removeField msg F) defn).errors = [e] ∧ e.field = some F ∧
      e.tag = (mapGet defn.fieldsByName F).map (fun fd => fd.tag) := by
  have hmd' : mapGet defn.messagesByType (removeField msg F).msgType = some msgDef := hmd
  rw [validateParsed_eq msg defn msgDef hmd] at hvalid
  have hvalid2 : missingHeaderIssues msg defn ++ missingBodyIssues msg msgDef defn ++
      (fieldIssues msg.fields defn).1 = [] := hvalid
  simp only [List.append_eq_nil] at hvalid2
  obtain ⟨⟨hA, hB⟩, hC⟩ := hvalid2
  rw [missingHeaderIssues] at hA
  rw [missingBodyIssues] at hB
  rw [fieldIssues_eq] at hC
  have hAn := List.filterMap_eq_nil_iff.mp hA
  have hBn := List.filterMap_eq_nil_iff.mp hB
  have hCn : ∀ f ∈ msg.fields, errsOfField defn f = [] := by
    intro f hf
    exact List.flatMap_eq_nil_iff.mp hC f hf
  have hA' : missingHeaderIssues (removeField msg F) defn =
      List.replicate
        ((collectRequiredFields defn.header.fields defn.header.components defn).count F)
        { tag := (mapGet defn.fieldsByName F).map (fun fd => fd.tag),
          field := some F,
          message := "Required header field \"" ++ F ++ "\" is missing",
          severity := .error } := by
    rw [missingHeaderIssues]
    refine filterMap_count_replicate _ _ F _ ?_ (hdrFieldCheck_remove_self msg defn F hstd)
    intro x hx hxF
    rw [hdrFieldCheck_remove_ne msg defn F x hxF]
    exact hAn x hx
  have hB' : missingBodyIssues (removeField msg F) msgDef defn =
      List.replicate
        ((collectRequiredFields msgDef.fields msgDef.components defn).count F)
        { tag := (mapGet defn.fieldsByName F).map (fun fd => fd.tag),
          field := some F,
          message := "Required field \"" ++ F ++ "\" is missing for message type "
            ++ msgDef.name ++ " (" ++ strOf msg.msgType ++ ")",
          severity := .error } := by
    rw [missingBodyIssues]
    refine filterMap_count_replicate _ _ F _ ?_ (bodyFieldCheck_remove_self msg msgDef defn F)
    intro x hx hxF
    rw [bodyFieldCheck_remove_ne msg msgDef defn F x hxF]
    exact hBn x hx
  have hC' : (fieldIssues (removeField msg F).fields defn).1 = [] := by
    rw [fieldIssues_eq]
    refine List.flatMap_eq_nil_iff.mpr ?_
    intro f hf
    exact hCn f (List.mem_of_mem_filter hf)
  rw [validateParsed_eq (removeField msg F) defn msgDef hmd']
  rw [hA', hB', hC']
  rcases Nat.le_one_iff_eq_zero_or_eq_one.mp
      (show (collectRequiredFields defn.header.fields defn.header.components defn).count F ≤ 1
        by omega) with hh | hh
  · have hb : (collectRequiredFields msgDef.fields msgDef.components defn).count F = 1 := by
      omega
    constructor
    · simp [hh, hb]
    · refine ⟨{ tag := (mapGet defn.fieldsByName F).map (fun fd => fd.tag),
                field := some F,
                message := "Required field \"" ++ F ++ "\" is missing for message type "
                  ++ msgDef.name ++ " (" ++ strOf msg.msgType ++ ")",
                severity := .error }, ?_, rfl, rfl⟩
      simp [hh, hb]
  · have hb : (collectRequiredFields msgDef.fields msgDef.components defn).count F = 0 := by
      omega
    constructor
    · simp [hh, hb]
    · refine ⟨{ tag := (mapGet defn.fieldsByName F).map (fun fd => fd.tag),
                field := some F,
                message := "Required header field \"" ++ F ++ "\" is missing",
                severity := .error }, ?_, rfl, rfl⟩
      simp [hh, hb]

/-- A component requiring Side, used to declare Side mandatory twice. -/
def cmpC : ComponentDef :=
  { name := "C", fields := [{ name := "Side", required := true }], groups := [],
    components := [] }

/-- Message type E that requires Side both directly and through component C. -/
def mdE : MessageDef :=
  { name := "Dup", msgtype := ['E'], msgcat := "app",
    fields := [{ name := "Side", required := true }], groups := [],
    components := [{ name := "C", required := true }] }

/-- Model in which Side is declared mandatory twice for message E. -/
def c8model : FIXDefinition :=
  { major := 4, minor := 4, servicepack := 0,
    fieldsByTag := [(54, fdSide)],
    fieldsByName := [("Side", fdSide)],
    messagesByType := [(['E'], mdE)],
    messagesByName := [("Dup", mdE)],
    components := [("C", cmpC)],
    header := { fields := [], groups := [], components := [] },
    trailer := { fields := [], groups := [], components := [] } }

/-- A message of type E carrying Side, which validates cleanly. -/
def c8msg : ParsedMessage :=
  { beginString := [], msgType := ['E'], msgTypeName := "Dup", bodyLength := some 0,
    checkSum := [], header := [], body := [("Side", .str ['1'])], trailer := [],
    fields := [{ tag := 54, name := "Side", value := ['1'], enumDescription := none }] }

/-- C8: the claim as written is refuted: when the model declares the removed
field mandatory more than once (here Side is required both directly and via a
required component), removing it yields TWO missing-field errors, not exactly
one. -/
theorem c8_counterexample :
    (validateParsed c8msg c8model).valid = true ∧
    (validateParsed (removeField c8msg "Side") c8model).valid = false ∧
    (validateParsed (removeField c8msg "Side") c8model).errors.length = 2 := by
  refine ⟨by decide, by decide, by decide⟩

/-- A message of type D carrying Side, for the witness. -/
def c8wmsg : ParsedMessage :=
  { beginString := ['A'], msgType := ['D'], msgTypeName := "Order", bodyLength := some 0,
    checkSum := [], header := [], body := [("Side", .str ['1'])], trailer := [],
    fields := [{ tag := 54, name := "Side", value := ['1'], enumDescription := none }] }

/-- C8 witness: removing the single mandatory field Side from a cleanly
validating D message yields exactly one error naming Side. -/
theorem c8_witness :
    (validateParsed (removeField c8wmsg "Side") mA).valid = false ∧
    ∃ e, (validateParsed (removeField c8wmsg "Side") mA).errors = [e] ∧
      e.field = some "Side" ∧
      e.tag = (mapGet mA.fieldsByName "Side").map (fun fd => fd.tag) :=
  c8_single_mandatory_removal c8wmsg mA mdD "Side" rfl (by decide) (by decide) (by decide)

/-! ## Claim C4: rawFields and group-consumed pairs -/

def fdNoPartyIDs : FieldDef :=
  { tag := 453, name := "NoPartyIDs", ftype := "NUMINGROUP", values := [] }

def fdPartyID : FieldDef := { tag := 448, name := "PartyID", ftype := "STRING", values := [] }

/-- Party repeating group (counter NoPartyIDs, first field PartyID). -/
def gdParty : GroupDef :=
  GroupDef.mk "NoPartyIDs" false "NoPartyIDs" [{ name := "PartyID", required := false }] [] []

/-- Message D with the party group. -/
def mdDG : MessageDef :=
  { name := "OrderG", msgtype := ['D'], msgcat := "app", fields := [], groups := [gdParty],
    components := [] }

/-- Model with the party group on message D. -/
def c4model : FIXDefinition :=
  { major := 4, minor := 4, servicepack := 0,
    fieldsByTag := [(8, fdBegin), (9, fdBodyLen), (35, fdMsgType), (10, fdCheckSum),
      (453, fdNoPartyIDs), (448, fdPartyID)],
    fieldsByName := [("BeginString", fdBegin), ("BodyLength", fdBodyLen),
      ("MsgType", fdMsgType), ("CheckSum", fdCheckSum), ("NoPartyIDs", fdNoPartyIDs),
      ("PartyID", fdPartyID)],
    messagesByType := [(['D'], mdDG)],
    messagesByName := [("OrderG", mdDG)],
    components := [],
    header := { fields := [], groups := [], components := [] },
    trailer := { fields := [], groups := [], components := [] } }

/-- Raw text 8=A|35=D|453=1|448=X|10=0| : five tag=value pairs, one group. -/
def c4raw : Str :=
  ['8', '=', 'A', '|', '3', '5', '=', 'D', '|', '4', '5', '3', '=', '1', '|',
   '4', '4', '8', '=', 'X', '|', '1', '0', '=', '0', '|']

def c4pairs : List (Int × Str) :=
  [(8, ['A']), (35, ['D']), (453, ['1']), (448, ['X']), (10, ['0'])]

theorem c4_entry_eval :
    parseEntryLoop c4model gdParty c4pairs [] true 3 = ([("PartyID", GVal.str ['X'])], 1) := by
  have e1 : parseEntryLoop c4model gdParty c4pairs
      (objSet [] "PartyID" (.str ['X'])) false 4 = ([("PartyID", GVal.str ['X'])], 0) :=
    pel_stop_notmem c4model gdParty c4pairs _ false 4 10 ['0'] fdCheckSum (by decide) rfl
      (Or.inr (by decide)) (by decide)
  rw [pel_step_value c4model gdParty c4pairs [] true 3 448 ['X'] fdPartyID (by decide) rfl
    (Or.inl rfl) (by decide) (Or.inl rfl)]
  have e1' : parseEntryLoop c4model gdParty c4pairs
      (objSet [] fdPartyID.name (.str ['X'])) false (3 + 1) = ([("PartyID", GVal.str ['X'])], 0) :=
    e1
  rw [e1']
  rfl

theorem c4_group_eval :
    parseGroupEntries c4model gdParty c4pairs 1 3 = ([[("PartyID", GVal.str ['X'])]], 1) :=
  pge_step c4model gdParty c4pairs 0 3 [("PartyID", GVal.str ['X'])] 1 [] 0 (by decide)
    c4_entry_eval (by decide) (pge_zero c4model gdParty c4pairs 4)

/-- The parse of `c4raw` against `c4model`. -/
def c4parsed : ParsedMessage :=
  { beginString := ['A'], msgType := ['D'], msgTypeName := "OrderG",
    bodyLength := some 0, checkSum := ['0'],
    header := [("BeginString", ['A']), ("MsgType", ['D'])],
    body := [("NoPartyIDs", GVal.grp [[("PartyID", GVal.str ['X'])]])],
    trailer := [("CheckSum", ['0'])],
    fields := [{ tag := 8, name := "BeginString", value := ['A'], enumDescription := none },
               { tag := 35, name := "MsgType", value := ['D'], enumDescription := none },
               { tag := 453, name := "NoPartyIDs", value := ['1'], enumDescription := none },
               { tag := 10, name := "CheckSum", value := ['0'], enumDescription := none }] }

theorem c4_parse_eval : parseMessageE c4raw c4model = some c4parsed := by
  have h0 := parseMessageE_eq c4raw c4model c4pairs (by decide) (by decide)
  rw [h0]
  rw [parseLoop_step_header c4model c4pairs (headerNamesFor c4model) (trailerNamesFor c4model)
    initPState 0 8 ['A'] (extractStep c4model initPState 8 ['A']) (by decide) rfl (by decide)]
  rw [parseLoop_step_header c4model c4pairs (headerNamesFor c4model) (trailerNamesFor c4model)
    _ 1 35 ['D'] _ (by decide) rfl (by decide)]
  rw [parseLoop_step_group c4model c4pairs (headerNamesFor c4model) (trailerNamesFor c4model)
    _ 2 453 ['1'] _ gdParty fdNoPartyIDs 1 [[("PartyID", GVal.str ['X'])]] 1 (by decide) (by rfl)
    (by decide) (by decide) (by rfl) (by rfl) (by rfl) (by decide) (by decide) c4_group_eval]
  rw [parseLoop_step_trailer c4model c4pairs (headerNamesFor c4model) (trailerNamesFor c4model)
    _ 4 10 ['0'] _ (by decide) rfl (by decide) (by decide)]
  rw [parseLoop_halt c4model c4pairs (headerNamesFor c4model) (trailerNamesFor c4model)
    _ 5 (by decide)]
  rfl

/-- C4: the parser drops repeating-group entry fields from `fields`: the
input tokenizes to five tag=value pairs and the group entry is decoded into
the body, yet `fields` has only four entries and contains no entry for the
consumed tag 448 pair — it does not mirror the input pair-for-pair.  (The
source's own comment says the group entries should also be added to the raw
field list, and the spec states `rawFields` always mirrors input order, so
this is recorded as a bug of the code.) -/
theorem c4_rawfields_incomplete :
    parseMessageE c4raw c4model = some c4parsed ∧
    (splitFields c4raw (detectDelimiter c4raw)).length = 5 ∧
    c4parsed.fields.length = 4 ∧
    (∀ f ∈ c4parsed.fields, f.tag ≠ 448) ∧
    objGet c4parsed.body "NoPartyIDs" = some (GVal.grp [[("PartyID", GVal.str ['X'])]]) := by
  refine ⟨c4_parse_eval, by decide, by decide, ?_, rfl⟩
  intro f hf
  fin_cases hf <;> decide

/-! ## Claim C7: group cardinality bound and exactness -/

/-- Whether a pair is consumable inside a group entry: known field, belonging
to the group, not a nested-group counter; the first pair of an entry must be
the group's first declared field, later pairs must not be. -/
def entryPairOk (defn : FIXDefinition) (gd : GroupDef) (first : Bool) (p : Int × Str) : Bool :=
  match mapGet defn.fieldsByTag p.1 with
  | none => false
  | some fd =>
    (groupFieldNames gd defn).contains fd.name &&
    (gd.groups.find? (fun g => g.counterField = fd.name)).isNone &&
    (if first then decide (some fd.name = firstFieldNameOf gd)
     else !decide (some fd.name = firstFieldNameOf gd))

/-- A well-formed group entry chunk: non-empty, starting with the group's
first declared field, containing only plain group fields. -/
def wfChunk (defn : FIXDefinition) (gd : GroupDef) (ch : List (Int × Str)) : Bool :=
  match ch with
  | [] => false
  | p :: t => entryPairOk defn gd true p && t.all (entryPairOk defn gd false)

/-- Whether the scan stops an entry at this point: end of input, an unknown
tag, the group's first field again, or a field outside the group. -/
def stopsAt (defn : FIXDefinition) (gd : GroupDef) (rest : List (Int × Str)) : Bool :=
  match rest with
  | [] => true
  | p :: _ =>
    match mapGet defn.fieldsByTag p.1 with
    | none => true
    | some fd =>
      decide (some fd.name = firstFieldNameOf gd) ||
        !(groupFieldNames gd defn).contains fd.name

theorem pel_stops (defn : FIXDefinition) (gd : GroupDef) (pairs : List (Int × Str))
    (entry : GEntry) (idx : Nat) (rest : List (Int × Str))
    (hdrop : pairs.drop idx = rest) (hstop : stopsAt defn gd rest = true) :
    parseEntryLoop defn gd pairs entry false idx = (entry, 0) := by
  cases rest with
  | nil =>
    refine pel_halt defn gd pairs entry false idx ?_
    by_contra hc
    have : pairs.drop idx ≠ [] := by
      intro he
      exact hc (by have := List.drop_eq_nil_iff_le.mp he; omega)
    exact this hdrop
  | cons p t =>
    have hpair : pairs[idx]? = some p := by
      rw [← List.head?_drop, hdrop]
      rfl
    rcases hfd : mapGet defn.fieldsByTag p.1 with _ | fd
    · exact pel_stop_unknown defn gd pairs entry false idx p.1 p.2
        (by rw [hpair]) hfd
    · rw [stopsAt, hfd] at hstop
      by_cases hfn : some fd.name = firstFieldNameOf gd
      · exact pel_stop_first defn gd pairs entry idx p.1 p.2 fd (by rw [hpair]) hfd hfn
      · have hs : (groupFieldNames gd defn).contains fd.name = false := by
          rcases (Bool.or_eq_true _ _).mp hstop with hs | hs
          · exact absurd (of_decide_eq_true hs) hfn
          · simpa using hs
        exact pel_stop_notmem defn gd pairs entry false idx p.1 p.2 fd (by rw [hpair]) hfd
          (Or.inr hfn) hs

theorem pel_consumes_tail (defn : FIXDefinition) (gd : GroupDef) (pairs : List (Int × Str))
    (rest : List (Int × Str)) (hstop : stopsAt defn gd rest = true) :
    ∀ (t : List (Int × Str)) (idx : Nat) (entry : GEntry),
      pairs.drop idx = t ++ rest →
      (∀ q ∈ t, entryPairOk defn gd false q = true) →
      (parseEntryLoop defn gd pairs entry false idx).2 = t.length := by
  intro t
  induction t with
  | nil =>
    intro idx entry hdrop hok
    rw [pel_stops defn gd pairs entry idx rest (by simpa using hdrop) hstop]
    rfl
  | cons q t2 ih =>
    intro idx entry hdrop hok
    have hpair : pairs[idx]? = some q := by
      rw [← List.head?_drop, hdrop]
      rfl
    have hq := hok q (List.mem_cons_self _ _)
    rw [entryPairOk] at hq
    rcases hfd : mapGet defn.fieldsByTag q.1 with _ | fd
    · rw [hfd] at hq
      simp at hq
    · rw [hfd] at hq
      simp only [Bool.and_eq_true, Bool.not_eq_true] at hq
      obtain ⟨⟨hmem, hnone⟩, hnf⟩ := hq
      rw [pel_step_value defn gd pairs entry false idx q.1 q.2 fd (by rw [hpair]) hfd
        (Or.inr (by simpa using hnf)) hmem
        (Or.inl (Option.isNone_iff_eq_none.mp hnone))]
      have hdrop2 : pairs.drop (idx + 1) = t2 ++ rest := by
        have h1 : (pairs.drop idx).drop 1 = pairs.drop (idx + 1) := List.drop_drop 1 idx pairs
        rw [hdrop] at h1
        simpa using h1.symm
      have h2 := ih (idx + 1) (objSet entry fd.name (.str q.2)) hdrop2
        (fun x hx => hok x (List.mem_cons_of_mem _ hx))
      simp only [h2, List.length_cons]
      omega

theorem pel_consumes_chunk (defn : FIXDefinition) (gd : GroupDef) (pairs : List (Int × Str))
    (ch rest : List (Int × Str)) (idx : Nat)
    (hwf : wfChunk defn gd ch = true)
    (hdrop : pairs.drop idx = ch ++ rest)
    (hstop : stopsAt defn gd rest = true) :
    (parseEntryLoop defn gd pairs [] true idx).2 = ch.length := by
  cases ch with
  | nil => simp [wfChunk] at hwf
  | cons p t =>
    rw [wfChunk] at hwf
    simp only [Bool.and_eq_true, List.all_eq_true] at hwf
    obtain ⟨hp, ht⟩ := hwf
    rw [entryPairOk] at hp
    rcases hfd : mapGet defn.fieldsByTag p.1 with _ | fd
    · rw [hfd] at hp
      simp at hp
    · rw [hfd] at hp
      simp only [Bool.and_eq_true, if_pos] at hp
      obtain ⟨⟨hmem, hnone⟩, _⟩ := hp
      have hpair : pairs[idx]? = some p := by
        rw [← List.head?_drop, hdrop]
        rfl
      rw [pel_step_value defn gd pairs [] true idx p.1 p.2 fd (by rw [hpair]) hfd
        (Or.inl rfl) hmem (Or.inl (Option.isNone_iff_eq_none.mp hnone))]
      have hdrop2 : pairs.drop (idx + 1) = t ++ rest := by
        have h1 : (pairs.drop idx).drop 1 = pairs.drop (idx + 1) := List.drop_drop 1 idx pairs
        rw [hdrop] at h1
        simpa using h1.symm
      have h2 := pel_consumes_tail defn gd pairs rest hstop t (idx + 1)
        (objSet [] fd.name (.str p.2)) hdrop2 (fun x hx => ht x hx)
      simp only [h2, List.length_cons]
      omega

theorem stopsAt_next_chunk (defn : FIXDefinition) (gd : GroupDef)
    (chunks : List (List (Int × Str))) (rest : List (Int × Str))
    (hwf : ∀ ch ∈ chunks, wfChunk defn gd ch = true)
    (hstop : stopsAt defn gd rest = true) :
    stopsAt defn gd (chunks.flatten ++ rest) = true := by
  cases chunks with
  | nil => simpa using hstop
  | cons ch chunks2 =>
    have hch := hwf ch (List.mem_cons_self _ _)
    cases ch with
    | nil => simp [wfChunk] at hch
    | cons p t =>
      rw [wfChunk] at hch
      simp only [Bool.and_eq_true, List.all_eq_true] at hch
      obtain ⟨hp, _⟩ := hch
      rw [entryPairOk] at hp
      rcases hfd : mapGet defn.fieldsByTag p.1 with _ | fd
      · rw [hfd] at hp
        simp at hp
      · rw [hfd] at hp
        simp only [Bool.and_eq_true, if_pos] at hp
        obtain ⟨_, hfirst⟩ := hp
        have hcons : chunks2.flatten ++ rest = chunks2.flatten ++ rest := rfl
        rw [List.flatten_cons]
        rw [show (p :: t) ++ chunks2.flatten ++ rest = p :: (t ++ chunks2.flatten ++ rest)
          by simp]
        rw [stopsAt, hfd]
        simp only [Bool.or_eq_true]
        left
        exact hfirst

theorem pge_exact (defn : FIXDefinition) (gd : GroupDef) (pairs : List (Int × Str))
    (rest : List (Int × Str)) (hstop : stopsAt defn gd rest = true) :
    ∀ (chunks : List (List (Int × Str))) (idx : Nat),
      pairs.drop idx = chunks.flatten ++ rest →
      (∀ ch ∈ chunks, wfChunk defn gd ch = true) →
      (parseGroupEntries defn gd pairs chunks.length idx).1.length = chunks.length ∧
        (parseGroupEntries defn gd pairs chunks.length idx).2 = chunks.flatten.length := by
  intro chunks
  induction chunks with
  | nil =>
    intro idx _ _
    rw [show ([] : List (List (Int × Str))).length = 0 from rfl, pge_zero]
    exact ⟨rfl, rfl⟩
  | cons ch chunks2 ih =>
    intro idx hdrop hwf
    have hch := hwf ch (List.mem_cons_self _ _)
    have hchne : ch ≠ [] := by
      intro he
      rw [he] at hch
      simp [wfChunk] at hch
    have hlt : idx < pairs.length := by
      by_contra hc
      have h1 : pairs.drop idx = [] := List.drop_eq_nil_of_le (by omega)
      rw [h1] at hdrop
      cases ch with
      | nil => exact hchne rfl
      | cons p t => simp at hdrop
    have hdrop1 : pairs.drop idx = ch ++ (chunks2.flatten ++ rest) := by
      rw [hdrop, List.flatten_cons]
      simp
    have hstop1 : stopsAt defn gd (chunks2.flatten ++ rest) = true :=
      stopsAt_next_chunk defn gd chunks2 rest
        (fun x hx => hwf x (List.mem_cons_of_mem _ hx)) hstop
    have hc2 := pel_consumes_chunk defn gd pairs ch (chunks2.flatten ++ rest) idx hch hdrop1
      hstop1
    rcases hpe : parseEntryLoop defn gd pairs [] true idx with ⟨e, c⟩
    have hcl : c = ch.length := by
      rw [hpe] at hc2
      exact hc2
    have hdrop3 : pairs.drop (idx + ch.length) = chunks2.flatten ++ rest := by
      have h1 : (pairs.drop idx).drop ch.length = pairs.drop (idx + ch.length) :=
        List.drop_drop ch.length idx pairs
      rw [hdrop1, List.drop_left] at h1
      exact h1.symm
    have ihr := ih (idx + ch.length) hdrop3 (fun x hx => hwf x (List.mem_cons_of_mem _ hx))
    rcases hge : parseGroupEntries defn gd pairs chunks2.length (idx + ch.length) with ⟨es, c2⟩
    rw [hge] at ihr
    have hstep := pge_step defn gd pairs chunks2.length idx e c es c2 hlt hpe
      (by rw [hcl]; simp [List.length_eq_zero] at hchne ⊢; exact hchne)
      (by rw [← hcl] at hge; exact hge)
    rw [show (ch :: chunks2).length = chunks2.length + 1 from rfl, hstep]
    constructor
    · simp [ihr.1]
    · rw [List.flatten_cons]
      simp only [List.length_append]
      have := ihr.2
      omega

theorem pge_length_le (defn : FIXDefinition) (gd : GroupDef) (pairs : List (Int × Str)) :
    ∀ (count : Nat) (idx : Nat),
      (parseGroupEntries defn gd pairs count idx).1.length ≤ count := by
  intro count
  induction count with
  | zero => intro idx; rw [pge_zero]; simp
  | succ k ih =>
    intro idx
    by_cases h : idx < pairs.length
    · rcases hpe : parseEntryLoop defn gd pairs [] true idx with ⟨e, c⟩
      by_cases hc : c = 0
      · rw [hc] at hpe
        rw [pge_pad defn gd pairs k idx e h hpe]
        simp
      · rcases hge : parseGroupEntries defn gd pairs k (idx + c) with ⟨es, c2⟩
        rw [pge_step defn gd pairs k idx e c es c2 h hpe hc hge]
        have := ih (idx + c)
        rw [hge] at this
        simpa using this
    · rw [pge_halt defn gd pairs (k + 1) idx (by omega)]
      simp

/-- C7: for a counter value N, the group decoder returns at most N entries,
and exactly N when the input from the counter onward consists of N
well-formed entry chunks (each starting with the group's first declared
field and containing only plain fields of the group) followed by an
entry-terminating remainder. -/
theorem c7_group_cardinality (defn : FIXDefinition) (gd : GroupDef)
    (pairs : List (Int × Str)) (count idx : Nat) :
    (parseGroupEntries defn gd pairs count idx).1.length ≤ count ∧
    (∀ (chunks : List (List (Int × Str))) (rest : List (Int × Str)),
      chunks.length = count →
      pairs.drop idx = chunks.flatten ++ rest →
      (∀ ch ∈ chunks, wfChunk defn gd ch = true) →
      stopsAt defn gd rest = true →
      (parseGroupEntries defn gd pairs count idx).1.length = count) := by
  refine ⟨pge_length_le defn gd pairs count idx, ?_⟩
  intro chunks rest hlen hdrop hwf hstop
  have h := (pge_exact defn gd pairs rest hstop chunks idx hdrop hwf).1
  rw [hlen] at h
  exact h

def fdPartySrc : FieldDef :=
  { tag := 447, name := "PartyIDSource", ftype := "STRING", values := [] }

/-- Party group with two declared fields, PartyID first. -/
def gdParty2 : GroupDef :=
  GroupDef.mk "NoPartyIDs" false "NoPartyIDs"
    [{ name := "PartyID", required := false }, { name := "PartyIDSource", required := false }]
    [] []

/-- Minimal model for the two-entry group decode. -/
def c7model : FIXDefinition :=
  { major := 4, minor := 4, servicepack := 0,
    fieldsByTag := [(448, fdPartyID), (447, fdPartySrc)],
    fieldsByName := [("PartyID", fdPartyID), ("PartyIDSource", fdPartySrc)],
    messagesByType := [], messagesByName := [], components := [],
    header := { fields := [], groups := [], components := [] },
    trailer := { fields := [], groups := [], components := [] } }

/-- Two well-formed entries: 448=A|447=B|448=C|447=D. -/
def c7pairs : List (Int × Str) := [(448, ['A']), (447, ['B']), (448, ['C']), (447, ['D'])]

/-- C7 witness: with counter value 2 over two well-formed interleaved
entries, the decoder returns exactly two entries. -/
theorem c7_witness :
    (parseGroupEntries c7model gdParty2 c7pairs 2 0).1.length ≤ 2 ∧
    (parseGroupEntries c7model gdParty2 c7pairs 2 0).1.length = 2 := by
  have h := c7_group_cardinality c7model gdParty2 c7pairs 2 0
  exact ⟨h.1, h.2 [[(448, ['A']), (447, ['B'])], [(448, ['C']), (447, ['D'])]] []
    (by decide) (by decide) (by decide) (by decide)⟩

/-! ## Decimal rendering facts -/

theorem decNatAux_congr : ∀ f g n, n < f → n < g → decNatAux f n = decNatAux g n := by
  intro f
  induction f with
  | zero => intro g n hf; omega
  | succ f ih =>
    intro g n hf hg
    cases g with
    | zero => omega
    | succ g =>
      rw [decNatAux, decNatAux]
      by_cases h10 : n < 10
      · rw [if_pos h10, if_pos h10]
      · rw [if_neg h10, if_neg h10]
        have : n / 10 < f := by omega
        have : n / 10 < g := by omega
        rw [ih g (n / 10) (by omega) (by omega)]

theorem decNat_step (n : Nat) (h : ¬n < 10) :
    decNat n = decNat (n / 10) ++ [digitChar (n % 10)] := by
  rw [decNat, decNat, decNatAux, if_neg h]
  rw [decNatAux_congr n (n / 10 + 1) (n / 10) (by omega) (by omega)]

theorem decNat_small (n : Nat) (h : n < 10) : decNat n = [digitChar n] := by
  rw [decNat, decNatAux, if_pos h]

theorem decNat_ne_nil (n : Nat) : decNat n ≠ [] := by
  induction n using Nat.strong_induction_on with
  | _ n ih =>
    by_cases h : n < 10
    · rw [decNat_small n h]
      simp
    · rw [decNat_step n h]
      simp

theorem digitChar_isDigit (d : Nat) (h : d < 10) : isDigitCh (digitChar d) = true := by
  interval_cases d <;> decide

theorem decNat_all_digits (n : Nat) : ∀ c ∈ decNat n, isDigitCh c = true := by
  induction n using Nat.strong_induction_on with
  | _ n ih =>
    intro c hc
    by_cases h : n < 10
    · rw [decNat_small n h] at hc
      rcases List.mem_singleton.mp hc with rfl
      exact digitChar_isDigit n h
    · rw [decNat_step n h] at hc
      rcases List.mem_append.mp hc with hc | hc
      · exact ih (n / 10) (by omega) c hc
      · rcases List.mem_singleton.mp hc with rfl
        exact digitChar_isDigit (n % 10) (by omega)

theorem digit_ne_soh (c : Char) (h : isDigitCh c = true) : c ≠ SOH := by
  intro he
  subst he
  exact absurd h (by decide)

theorem digit_ne_eqch (c : Char) (h : isDigitCh c = true) : c ≠ '=' := by
  intro he
  subst he
  exact absurd h (by decide)

theorem digit_not_space (c : Char) (h : isDigitCh c = true) : isJsSpace c = false := by
  rcases hc : isJsSpace c with _ | _
  · rfl
  · rw [isJsSpace] at hc
    simp only [Bool.or_eq_true, decide_eq_true_eq] at hc
    rcases hc with ((((hc | hc) | hc) | hc) | hc) | hc <;> subst hc <;> exact absurd h (by decide)

theorem digit_ne_minus (c : Char) (h : isDigitCh c = true) : c ≠ '-' := by
  intro he
  subst he
  exact absurd h (by decide)

theorem digit_ne_plus (c : Char) (h : isDigitCh c = true) : c ≠ '+' := by
  intro he
  subst he
  exact absurd h (by decide)

theorem takeWhile_all {p : Char → Bool} : ∀ l : Str, (∀ c ∈ l, p c = true) → l.takeWhile p = l := by
  intro l
  induction l with
  | nil => intro _; rfl
  | cons c t ih =>
    intro h
    rw [List.takeWhile_cons, h c (List.mem_cons_self _ _), ih (fun x hx => h x (List.mem_cons_of_mem _ hx))]
    simp

theorem takeWhile_all_append {p : Char → Bool} (a : Str) (c : Char) (b : Str)
    (ha : ∀ x ∈ a, p x = true) (hc : p c = false) :
    (a ++ c :: b).takeWhile p = a := by
  induction a with
  | nil => simp [List.takeWhile_cons, hc]
  | cons x t ih =>
    rw [List.cons_append, List.takeWhile_cons, ha x (List.mem_cons_self _ _)]
    rw [ih (fun y hy => ha y (List.mem_cons_of_mem _ hy))]
    simp

theorem digitVal_digitChar (d : Nat) (h : d < 10) : digitVal (digitChar d) = d := by
  interval_cases d <;> decide

theorem digitsVal_snoc (a : Str) (d : Char) :
    digitsVal (a ++ [d]) = 10 * digitsVal a + digitVal d := by
  rw [digitsVal, List.foldl_append]
  rfl

theorem digitsVal_decNat (n : Nat) : digitsVal (decNat n) = n := by
  induction n using Nat.strong_induction_on with
  | _ n ih =>
    by_cases h : n < 10
    · rw [decNat_small n h]
      have h2 : digitsVal [digitChar n] = digitVal (digitChar n) := by
        simp [digitsVal]
      rw [h2, digitVal_digitChar n h]
    · rw [decNat_step n h, digitsVal_snoc, ih (n / 10) (by omega),
        digitVal_digitChar (n % 10) (by omega)]
      omega

theorem decNat_head_digit (n : Nat) :
    ∃ c rest, decNat n = c :: rest ∧ isDigitCh c = true := by
  rcases hd : decNat n with _ | ⟨c, rest⟩
  · exact absurd hd (decNat_ne_nil n)
  · exact ⟨c, rest, rfl, decNat_all_digits n c (by rw [hd]; exact List.mem_cons_self _ _)⟩

theorem jsParseIntDec_decNat (n : Nat) : jsParseIntDec (decNat n) = some (n : Int) := by
  obtain ⟨c, rest, hd, hc⟩ := decNat_head_digit n
  have hall := decNat_all_digits n
  rw [jsParseIntDec]
  have hdrop : (decNat n).dropWhile isJsSpace = decNat n := by
    rw [hd, List.dropWhile_cons, digit_not_space c hc]
    simp
  rw [hdrop]
  have htake : (decNat n).takeWhile isDigitCh = decNat n := takeWhile_all _ hall
  rw [hd]
  rw [hd] at htake
  split
  · rename_i r heq
    injection heq with h1 _
    exact absurd h1 (digit_ne_plus c hc)
  · rename_i r heq
    injection heq with h1 _
    exact absurd h1 (digit_ne_minus c hc)
  · simp only [htake]
    rw [if_neg (by simp)]
    have h3 : digitsVal (c :: rest) = n := by
      rw [← hd, digitsVal_decNat]
    rw [h3]
    rfl

theorem soh_not_mem_decNat (n : Nat) : SOH ∉ decNat n := by
  intro h
  exact digit_ne_soh SOH (decNat_all_digits n SOH h) rfl

theorem eqch_not_mem_decNat (n : Nat) : '=' ∉ decNat n := by
  intro h
  exact digit_ne_eqch '=' (decNat_all_digits n '=' h) rfl

theorem soh_not_mem_decInt (t : Int) : SOH ∉ decInt t := by
  rw [decInt]
  by_cases h : t < 0
  · rw [if_pos h]
    intro hm
    rcases List.mem_cons.mp hm with hm | hm
    · exact absurd hm.symm (by decide)
    · exact soh_not_mem_decNat _ hm
  · rw [if_neg h]
    exact soh_not_mem_decNat _

theorem eqch_not_mem_decInt (t : Int) : '=' ∉ decInt t := by
  rw [decInt]
  by_cases h : t < 0
  · rw [if_pos h]
    intro hm
    rcases List.mem_cons.mp hm with hm | hm
    · exact absurd hm.symm (by decide)
    · exact eqch_not_mem_decNat _ hm
  · rw [if_neg h]
    exact eqch_not_mem_decNat _

theorem jsParseIntDec_decInt (t : Int) : jsParseIntDec (decInt t) = some t := by
  rw [decInt]
  by_cases h : t < 0
  · rw [if_pos h]
    obtain ⟨c, rest, hd, hc⟩ := decNat_head_digit t.natAbs
    rw [jsParseIntDec]
    have hdrop : ('-' :: decNat t.natAbs).dropWhile isJsSpace = '-' :: decNat t.natAbs := by
      rw [List.dropWhile_cons]
      simp [isJsSpace]
    rw [hdrop]
    have htake : (decNat t.natAbs).takeWhile isDigitCh = decNat t.natAbs :=
      takeWhile_all _ (decNat_all_digits t.natAbs)
    simp only [htake]
    rw [if_neg (decNat_ne_nil t.natAbs)]
    rw [digitsVal_decNat]
    have habs : ((t.natAbs : Int)) = -t := by omega
    simp [habs]
  · rw [if_neg h]
    rw [jsParseIntDec_decNat]
    congr 1
    omega

theorem decNat_length_le : ∀ (k n : Nat), 0 < k → n < 10 ^ k → (decNat n).length ≤ k := by
  intro k
  induction k with
  | zero => intro n h0 _; omega
  | succ k ih =>
    intro n _ h
    by_cases h10 : n < 10
    · rw [decNat_small n h10]
      simp
    · have hk : 0 < k := by
        by_contra hc
        have : k = 0 := by omega
        subst this
        simp at h
        omega
      rw [decNat_step n h10]
      simp only [List.length_append, List.length_singleton]
      have := ih (n / 10) hk (by
        have h2 : 10 ^ (k + 1) = 10 ^ k * 10 := by ring
        omega)
      omega

theorem pad3_length (n : Nat) (h : n < 1000) : (pad3 n).length = 3 := by
  rw [pad3]
  have := decNat_length_le 3 n (by norm_num) (by norm_num; omega)
  simp only [List.length_append, List.length_replicate]
  omega

theorem pad3_all_digits (n : Nat) : ∀ c ∈ pad3 n, isDigitCh c = true := by
  intro c hc
  rw [pad3] at hc
  rcases List.mem_append.mp hc with hc | hc
  · rw [List.eq_of_mem_replicate hc]
    decide
  · exact decNat_all_digits n c hc

/-! ## Tokenization of built messages -/

theorem splitChar_skip (d : Char) : ∀ (s rest : Str), d ∉ s →
    splitChar (s ++ d :: rest) d = s :: splitChar rest d := by
  intro s
  induction s with
  | nil =>
    intro rest _
    rw [List.nil_append, splitChar]
    simp
  | cons c t ih =>
    intro rest hmem
    rw [List.cons_append, splitChar]
    have hcd : ¬c = d := fun he => hmem (he ▸ List.mem_cons_self _ _)
    rw [ih rest (fun hm => hmem (List.mem_cons_of_mem _ hm))]
    simp [hcd]

theorem splitChar_flatMap (d : Char) : ∀ (segs : List Str), (∀ s ∈ segs, d ∉ s) →
    splitChar (segs.flatMap (fun s => s ++ [d])) d = segs ++ [[]] := by
  intro segs
  induction segs with
  | nil =>
    intro _
    rfl
  | cons s t ih =>
    intro h
    rw [List.flatMap_cons]
    rw [show (s ++ [d]) ++ t.flatMap (fun s => s ++ [d])
        = s ++ d :: t.flatMap (fun s => s ++ [d]) by simp]
    rw [splitChar_skip d s _ (h s (List.mem_cons_self _ _))]
    rw [ih (fun x hx => h x (List.mem_cons_of_mem _ hx))]
    rfl

theorem flatMap_soh_aux : ∀ t : List Str,
    t.flatMap (fun x => [SOH] ++ x) ++ [SOH] = [SOH] ++ t.flatMap (fun s => s ++ [SOH]) := by
  intro t
  induction t with
  | nil => rfl
  | cons q t2 ih =>
    simp only [List.flatMap_cons, List.append_assoc]
    rw [ih]

theorem joinSOH_flatMap (parts : List Str) :
    joinSOH parts = (if parts = [] then [[]] else parts).flatMap (fun s => s ++ [SOH]) := by
  cases parts with
  | nil => rfl
  | cons p t =>
    rw [if_neg (by simp)]
    rw [joinSOH, flatten_intersperse_cons, List.flatMap_cons]
    rw [List.append_assoc, flatMap_soh_aux]
    simp

/-- The segments of a built message, in order. -/
def buildSegs (b : Builder) : List Str :=
  ('8' :: '=' :: b.beginString) ::
    ('9' :: '=' :: decNat (joinSOH (bodyParts b)).length) ::
      ((if bodyParts b = [] then [[]] else bodyParts b) ++
        [('1' :: '0' :: '=' ::
          builderChecksum (buildPrefix b (joinSOH (bodyParts b)).length ++ joinSOH (bodyParts b)))])

theorem build_eq_flatMap (b : Builder) :
    build b = (buildSegs b).flatMap (fun s => s ++ [SOH]) := by
  rw [build, buildSegs]
  simp only [List.flatMap_cons, List.flatMap_append, List.flatMap_cons, List.flatMap_nil]
  rw [← joinSOH_flatMap]
  rw [buildPrefix]
  simp

theorem findIdx_eqch_append_aux :
    ∀ (a : Str) (r : Str) (i : Nat), (∀ x ∈ a, x ≠ '=') →
      List.findIdx? (fun c => decide (c = '=')) (a ++ '=' :: r) i = some (i + a.length) := by
  intro a
  induction a with
  | nil =>
    intro r i _
    simp [List.findIdx?]
  | cons x t ih =>
    intro r i h
    rw [List.cons_append, List.findIdx?]
    rw [if_neg (by simp [h x (List.mem_cons_self _ _)])]
    rw [ih r (i + 1) (fun y hy => h y (List.mem_cons_of_mem _ hy))]
    congr 1
    simp
    omega

theorem segToPair_tagged (t : Int) (v : Str) :
    segToPair (decInt t ++ '=' :: v) = some (t, v) := by
  have h1 := findIdx_eqch_append_aux (decInt t) v 0
    (fun x hx he => eqch_not_mem_decInt t (he ▸ hx))
  rw [segToPair]
  simp only [show (0 : Nat) + (decInt t).length = (decInt t).length by omega] at h1
  simp only [h1, List.take_left, jsParseIntDec_decInt]
  rw [show (decInt t).length + 1 = (decInt t ++ ['=']).length by simp]
  rw [show decInt t ++ '=' :: v = (decInt t ++ ['=']) ++ v by simp]
  rw [List.drop_left]

theorem insertAsc_perm (x : Int) : ∀ l : List Int, (insertAsc x l).Perm (x :: l) := by
  intro l
  induction l with
  | nil => rfl
  | cons y t ih =>
    rw [insertAsc]
    by_cases h : x ≤ y
    · rw [if_pos h]
    · rw [if_neg h]
      exact (List.Perm.cons y ih).trans (List.Perm.swap x y t)

theorem sortAsc_perm (l : List Int) : (sortAsc l).Perm l := by
  induction l with
  | nil => rfl
  | cons x t ih =>
    rw [sortAsc, List.foldr_cons]
    exact (insertAsc_perm x _).trans (List.Perm.cons x (by rw [sortAsc] at ih; exact ih))

theorem mem_sortedBodyTags (b : Builder) (t : Int) (h : t ∈ sortedBodyTags b) :
    (∃ v, mapGet b.fieldValues t = some v ∧ (t, v) ∈ b.fieldValues) ∧
      t ≠ 35 ∧ t ≠ 8 ∧ t ≠ 9 ∧ t ≠ 10 := by
  rw [sortedBodyTags] at h
  have h2 := (sortAsc_perm _).mem_iff.mp h
  rw [List.mem_filter] at h2
  obtain ⟨h3, h4⟩ := h2
  simp only [decide_eq_true_eq] at h4
  obtain ⟨t2, v, h5, h6⟩ : ∃ t2 v, (t2, v) ∈ b.fieldValues ∧ t2 = t := by
    rcases List.mem_map.mp h3 with ⟨p, hp, he⟩
    exact ⟨p.1, p.2, by simpa using hp, he⟩
  subst h6
  refine ⟨?_, h4.1, h4.2.1, h4.2.2.1, h4.2.2.2⟩
  rcases hf : b.fieldValues.find? (fun p => p.1 = t2) with _ | p2
  · exfalso
    have := List.find?_eq_none.mp hf _ h5
    simp at this
  · have hmem := List.mem_of_find?_eq_some hf
    have hkey := List.find?_some hf
    simp only [decide_eq_true_eq] at hkey
    refine ⟨p2.2, ?_, ?_⟩
    · rw [mapGet, hf]
      rfl
    · rw [← hkey]
      simpa using hmem

theorem filterMap_some_map {α β : Type} (f : α → Option β) (g : α → β) :
    ∀ l : List α, (∀ x ∈ l, f x = some (g x)) → l.filterMap f = l.map g := by
  intro l
  induction l with
  | nil => intro _; rfl
  | cons x t ih =>
    intro h
    rw [List.filterMap_cons, h x (List.mem_cons_self _ _), List.map_cons,
      ih (fun y hy => h y (List.mem_cons_of_mem _ hy))]

theorem mapGet_mem {α β : Type} [DecidableEq α] (l : List (α × β)) (k : α) (v : β)
    (h : mapGet l k = some v) : (k, v) ∈ l := by
  rw [mapGet] at h
  rcases hf : l.find? (fun p => p.1 = k) with _ | p
  · rw [hf] at h
    exact absurd h (by simp)
  · rw [hf] at h
    have hmem := List.mem_of_find?_eq_some hf
    have hkey := List.find?_some hf
    simp only [decide_eq_true_eq] at hkey
    have h2 : p.2 = v := by simpa using h
    rw [← hkey, ← h2]
    simpa using hmem

/-- The tag=value pairs of the built body segments, in emission order. -/
def bodyPairList (b : Builder) : List (Int × Str) :=
  (match mapGet b.fieldValues 35 with
   | some mt => if mt = [] then [] else [(35, mt)]
   | none => []) ++
    (sortedBodyTags b).map (fun t => (t, (mapGet b.fieldValues t).getD []))

theorem bodyParts_segments (b : Builder) :
    bodyParts b = ((match mapGet b.fieldValues 35 with
      | some mt => if mt = [] then [] else [(35, mt)]
      | none => []) : List (Int × Str)).map (fun p => decInt p.1 ++ '=' :: p.2) ++
      (sortedBodyTags b).map (fun t => decInt t ++ '=' :: (mapGet b.fieldValues t).getD []) := by
  rw [bodyParts]
  congr 1
  · rcases h35 : mapGet b.fieldValues 35 with _ | mt
    · rfl
    · by_cases hmt : mt = []
      · subst hmt
        rfl
      · simp only [if_neg hmt, List.map_cons, List.map_nil]
        rw [show decInt 35 = ['3', '5'] by decide]
        rfl
  · apply List.map_congr_left
    intro t _
    simp

theorem soh_not_mem_bodyParts (b : Builder)
    (hvals : ∀ p ∈ b.fieldValues, SOH ∉ p.2) :
    ∀ s ∈ bodyParts b, SOH ∉ s := by
  intro s hs
  rw [bodyParts_segments] at hs
  rcases List.mem_append.mp hs with hs | hs
  · rcases List.mem_map.mp hs with ⟨p, hp, he⟩
    subst he
    rcases h35 : mapGet b.fieldValues 35 with _ | mt <;> rw [h35] at hp
    · simp at hp
    · by_cases hmt : mt = []
      · subst hmt
        simp at hp
      · simp only [if_neg hmt] at hp
        rcases List.mem_singleton.mp hp with rfl
        intro hm
        rcases List.mem_append.mp hm with hm | hm
        · exact soh_not_mem_decInt 35 hm
        · rcases List.mem_cons.mp hm with hm | hm
          · exact absurd hm.symm (by decide)
          · exact hvals (35, mt) (mapGet_mem _ _ _ h35) hm
  · rcases List.mem_map.mp hs with ⟨t, ht, he⟩
    subst he
    obtain ⟨⟨v, hv, hvm⟩, -⟩ := mem_sortedBodyTags b t ht
    intro hm
    rcases List.mem_append.mp hm with hm | hm
    · exact soh_not_mem_decInt t hm
    · rcases List.mem_cons.mp hm with hm | hm
      · exact absurd hm.symm (by decide)
      · rw [hv] at hm
        exact hvals (t, v) hvm hm

theorem soh_not_mem_buildSegs (b : Builder)
    (hB : SOH ∉ b.beginString)
    (hvals : ∀ p ∈ b.fieldValues, SOH ∉ p.2) :
    ∀ s ∈ buildSegs b, SOH ∉ s := by
  intro s hs
  rw [buildSegs] at hs
  rcases List.mem_cons.mp hs with rfl | hs
  · intro hm
    rcases List.mem_cons.mp hm with hm | hm
    · exact absurd hm.symm (by decide)
    · rcases List.mem_cons.mp hm with hm | hm
      · exact absurd hm.symm (by decide)
      · exact hB hm
  · rcases List.mem_cons.mp hs with rfl | hs
    · intro hm
      rcases List.mem_cons.mp hm with hm | hm
      · exact absurd hm.symm (by decide)
      · rcases List.mem_cons.mp hm with hm | hm
        · exact absurd hm.symm (by decide)
        · exact soh_not_mem_decNat _ hm
    · rcases List.mem_append.mp hs with hs | hs
      · by_cases hbp : bodyParts b = []
        · rw [if_pos hbp] at hs
          rcases List.mem_singleton.mp hs with rfl
          simp
        · rw [if_neg hbp] at hs
          exact soh_not_mem_bodyParts b hvals s hs
      · rcases List.mem_singleton.mp hs with rfl
        intro hm
        rcases List.mem_cons.mp hm with hm | hm
        · exact absurd hm.symm (by decide)
        · rcases List.mem_cons.mp hm with hm | hm
          · exact absurd hm.symm (by decide)
          · rcases List.mem_cons.mp hm with hm | hm
            · exact absurd hm.symm (by decide)
            · rw [builderChecksum] at hm
              exact digit_ne_soh SOH (pad3_all_digits _ SOH hm) rfl

theorem splitFields_segs (segs : List Str) (hd : ∀ s ∈ segs, SOH ∉ s) :
    splitFields (segs.flatMap (fun s => s ++ [SOH])) SOH =
      (segs.filter (fun s => s.length ≠ 0)).filterMap segToPair := by
  rw [splitFields, splitChar_flatMap SOH segs hd, List.filter_append]
  simp

theorem bodyParts_len_ne (b : Builder) : ∀ s ∈ bodyParts b, s.length ≠ 0 := by
  intro s hs
  rw [bodyParts] at hs
  rcases List.mem_append.mp hs with hs | hs
  · rcases h35 : mapGet b.fieldValues 35 with _ | mt <;> rw [h35] at hs
    · simp at hs
    · by_cases hmt : mt = []
      · subst hmt
        simp at hs
      · simp only [if_neg hmt] at hs
        rcases List.mem_singleton.mp hs with rfl
        simp
  · rcases List.mem_map.mp hs with ⟨t, _, he⟩
    subst he
    simp

theorem buildSegs_filter (b : Builder) :
    (buildSegs b).filter (fun s => s.length ≠ 0) =
      ('8' :: '=' :: b.beginString) ::
        ('9' :: '=' :: decNat (joinSOH (bodyParts b)).length) ::
          (bodyParts b ++
            [('1' :: '0' :: '=' ::
              builderChecksum (buildPrefix b (joinSOH (bodyParts b)).length ++
                joinSOH (bodyParts b)))]) := by
  rw [buildSegs]
  simp only [List.filter_cons]
  rw [if_pos (by simp), if_pos (by simp), List.filter_append]
  congr 1
  congr 1
  by_cases hbp : bodyParts b = []
  · rw [if_pos hbp, hbp]
    simp
  · rw [if_neg hbp,
      List.filter_eq_self.mpr (fun a ha => by simpa using bodyParts_len_ne b a ha)]
    simp

theorem filterMap_bodyParts (b : Builder) :
    (bodyParts b).filterMap segToPair = bodyPairList b := by
  rw [bodyParts_segments, bodyPairList, List.filterMap_append]
  congr 1
  · rw [List.filterMap_map]
    have h := filterMap_some_map
      (fun p : Int × Str => segToPair (decInt p.1 ++ '=' :: p.2)) (fun p => p)
      ((match mapGet b.fieldValues 35 with
        | some mt => if mt = [] then [] else [(35, mt)]
        | none => []) : List (Int × Str))
      (by
        intro p _
        show segToPair (decInt p.1 ++ '=' :: p.2) = some p
        rw [segToPair_tagged])
    rw [show ((fun p : Int × Str => segToPair (decInt p.1 ++ '=' :: p.2)) =
      (segToPair ∘ fun p : Int × Str => decInt p.1 ++ '=' :: p.2)) from rfl] at h
    rw [h]
    simp
  · rw [List.filterMap_map]
    apply filterMap_some_map
    intro t _
    exact segToPair_tagged t _

theorem splitFields_build (b : Builder)
    (hB : SOH ∉ b.beginString)
    (hvals : ∀ p ∈ b.fieldValues, SOH ∉ p.2) :
    splitFields (build b) SOH =
      (8, b.beginString) :: (9, decNat (joinSOH (bodyParts b)).length) ::
        (bodyPairList b ++
          [(10, builderChecksum (buildPrefix b (joinSOH (bodyParts b)).length ++
            joinSOH (bodyParts b)))]) := by
  rw [build_eq_flatMap, splitFields_segs _ (soh_not_mem_buildSegs b hB hvals),
    buildSegs_filter, List.filterMap_cons, List.filterMap_cons, List.filterMap_append,
    filterMap_bodyParts]
  rw [show ('8' :: '=' :: b.beginString) = decInt 8 ++ '=' :: b.beginString from
    by rw [show decInt 8 = ['8'] from by decide]; rfl]
  rw [show ('9' :: '=' :: decNat (joinSOH (bodyParts b)).length) =
    decInt 9 ++ '=' :: decNat (joinSOH (bodyParts b)).length from
    by rw [show decInt 9 = ['9'] from by decide]; rfl]
  rw [show ('1' :: '0' :: '=' ::
      builderChecksum (buildPrefix b (joinSOH (bodyParts b)).length ++
        joinSOH (bodyParts b))) =
    decInt 10 ++ '=' :: builderChecksum (buildPrefix b (joinSOH (bodyParts b)).length ++
      joinSOH (bodyParts b)) from
    by rw [show decInt 10 = ['1', '0'] from by decide]; rfl]
  rw [segToPair_tagged, segToPair_tagged, List.filterMap_cons, segToPair_tagged,
    List.filterMap_nil]

theorem extractStep_checkSum (defn : FIXDefinition) (st : PState) (tag : Int) (value : Str) :
    (extractStep defn st tag value).checkSum = if tag = 10 then value else st.checkSum := by
  rw [extractStep]
  by_cases h8 : tag = 8
  · subst h8
    simp
  · by_cases h9 : tag = 9
    · subst h9
      simp
    · by_cases h10 : tag = 10
      · subst h10
        simp
      · by_cases h35 : tag = 35
        · subst h35
          simp
        · simp [h8, h9, h10, h35]

theorem extractStep_bodyLength (defn : FIXDefinition) (st : PState) (tag : Int) (value : Str) :
    (extractStep defn st tag value).bodyLength =
      if tag = 9 then jsParseIntDec value else st.bodyLength := by
  rw [extractStep]
  by_cases h8 : tag = 8
  · subst h8
    simp
  · by_cases h9 : tag = 9
    · subst h9
      simp
    · by_cases h10 : tag = 10
      · subst h10
        simp
      · by_cases h35 : tag = 35
        · subst h35
          simp
        · simp [h8, h9, h10, h35]

theorem parseLoop_progress (defn : FIXDefinition) (pairs : List (Int × Str))
    (hdr trl : List String) (st : PState) (idx : Nat) (h : idx < pairs.length) :
    ∃ st2 idx2, idx + 1 ≤ idx2 ∧
      parseLoop defn pairs hdr trl st idx = parseLoop defn pairs hdr trl st2 idx2 ∧
      st2.checkSum = (extractStep defn st (pairs.get ⟨idx, h⟩).1 (pairs.get ⟨idx, h⟩).2).checkSum ∧
      st2.bodyLength =
        (extractStep defn st (pairs.get ⟨idx, h⟩).1 (pairs.get ⟨idx, h⟩).2).bodyLength := by
  have hpair : pairs[idx]? =
      some ((pairs.get ⟨idx, h⟩).1, (pairs.get ⟨idx, h⟩).2) := by
    rw [List.getElem?_eq_getElem h]
    exact rfl
  by_cases hh : hdr.contains (fieldNameOfTag defn (pairs.get ⟨idx, h⟩).1)
  · exact ⟨_, idx + 1, le_refl _,
      parseLoop_step_header defn pairs hdr trl st idx _ _ _ hpair rfl hh, rfl, rfl⟩
  · have hh2 : hdr.contains (fieldNameOfTag defn (pairs.get ⟨idx, h⟩).1) = false := by
      simpa using hh
    by_cases htr : trl.contains (fieldNameOfTag defn (pairs.get ⟨idx, h⟩).1)
    · exact ⟨_, idx + 1, le_refl _,
        parseLoop_step_trailer defn pairs hdr trl st idx _ _ _ hpair rfl hh2 htr, rfl, rfl⟩
    · have htr2 : trl.contains (fieldNameOfTag defn (pairs.get ⟨idx, h⟩).1) = false := by
        simpa using htr
      rcases hgd : visibleGroupDef defn
          (extractStep defn st (pairs.get ⟨idx, h⟩).1 (pairs.get ⟨idx, h⟩).2).msgDef
          (fieldNameOfTag defn (pairs.get ⟨idx, h⟩).1) with _ | gd
      · exact ⟨_, idx + 1, le_refl _,
          parseLoop_step_body_nogroup defn pairs hdr trl st idx _ _ _ hpair rfl hh2 htr2
            (Or.inl hgd), rfl, rfl⟩
      · rcases hfd : mapGet defn.fieldsByTag (pairs.get ⟨idx, h⟩).1 with _ | fd
        · exact ⟨_, idx + 1, le_refl _,
            parseLoop_step_body_nogroup defn pairs hdr trl st idx _ _ _ hpair rfl hh2 htr2
              (Or.inr (Or.inl hfd)), rfl, rfl⟩
        · by_cases hty : fd.ftype = "NUMINGROUP"
          · rcases hn : jsParseIntDec (pairs.get ⟨idx, h⟩).2 with _ | n
            · exact ⟨_, idx + 1, le_refl _,
                parseLoop_step_body_nogroup defn pairs hdr trl st idx _ _ _ hpair rfl hh2 htr2
                  (Or.inr (Or.inr (Or.inr (Or.inl hn)))), rfl, rfl⟩
            · by_cases hpos : 0 < n
              · exact ⟨_,
                  idx + 1 + (parseGroupEntries defn gd pairs n.toNat (idx + 1)).2,
                  by omega,
                  parseLoop_step_group defn pairs hdr trl st idx _ _ _ gd fd n _ _ hpair rfl
                    hh2 htr2 hgd hfd hty hn hpos rfl, rfl, rfl⟩
              · exact ⟨_, idx + 1, le_refl _,
                  parseLoop_step_body_nogroup defn pairs hdr trl st idx _ _ _ hpair rfl hh2 htr2
                    (Or.inr (Or.inr (Or.inr (Or.inr ⟨n, hn, by omega⟩)))), rfl, rfl⟩
          · exact ⟨_, idx + 1, le_refl _,
              parseLoop_step_body_nogroup defn pairs hdr trl st idx _ _ _ hpair rfl hh2 htr2
                (Or.inr (Or.inr (Or.inl (fun fd2 hfd2 => by
                  rw [hfd] at hfd2
                  injection hfd2 with he
                  rw [← he]
                  exact hty)))), rfl, rfl⟩

theorem parseLoop_framing (defn : FIXDefinition) (pairs : List (Int × Str))
    (hdr trl : List String) (cs : Str) (L : Int)
    (hp : ∀ p ∈ pairs, (p.1 = 10 → p.2 = cs) ∧ (p.1 = 9 → jsParseIntDec p.2 = some L)) :
    ∀ fuel idx st, pairs.length ≤ idx + fuel →
      (st.checkSum = [] ∨ st.checkSum = cs) →
      (st.bodyLength = some 0 ∨ st.bodyLength = some L) →
      ((parseLoop defn pairs hdr trl st idx).checkSum = [] ∨
        (parseLoop defn pairs hdr trl st idx).checkSum = cs) ∧
      ((parseLoop defn pairs hdr trl st idx).bodyLength = some 0 ∨
        (parseLoop defn pairs hdr trl st idx).bodyLength = some L) := by
  intro fuel
  induction fuel with
  | zero =>
    intro idx st hle hcs hbl
    rw [parseLoop_halt defn pairs hdr trl st idx (by omega)]
    exact ⟨hcs, hbl⟩
  | succ fuel ih =>
    intro idx st hle hcs hbl
    by_cases h : idx < pairs.length
    · obtain ⟨st2, idx2, hge, heq, hcs2, hbl2⟩ := parseLoop_progress defn pairs hdr trl st idx h
      rw [heq]
      obtain ⟨h10, h9⟩ := hp _ (List.get_mem pairs idx h)
      have hcs3 : st2.checkSum = [] ∨ st2.checkSum = cs := by
        rw [hcs2, extractStep_checkSum]
        by_cases ht10 : (pairs.get ⟨idx, h⟩).1 = 10
        · rw [if_pos ht10]
          exact Or.inr (h10 ht10)
        · rw [if_neg ht10]
          exact hcs
      have hbl3 : st2.bodyLength = some 0 ∨ st2.bodyLength = some L := by
        rw [hbl2, extractStep_bodyLength]
        by_cases ht9 : (pairs.get ⟨idx, h⟩).1 = 9
        · rw [if_pos ht9]
          exact Or.inr (h9 ht9)
        · rw [if_neg ht9]
          exact hbl
      exact ih idx2 st2 (by omega) hcs3 hbl3
    · rw [parseLoop_halt defn pairs hdr trl st idx (by omega)]
      exact ⟨hcs, hbl⟩

theorem list_len3 {α : Type} (l : List α) (h : l.length = 3) : ∃ a b c, l = [a, b, c] := by
  match l, h with
  | [a, b, c], _ => exact ⟨a, b, c, rfl⟩

theorem getElem_opt_of_drop (l t : Str) (c : Char) (n : Nat) (h : l.drop n = c :: t) :
    l[n]? = some c := by
  have h2 := List.getElem?_drop l n 0
  rw [h] at h2
  simpa using h2.symm

theorem drop_succ_of_drop (l t : Str) (c : Char) (n : Nat) (h : l.drop n = c :: t) :
    l.drop (n + 1) = t := by
  rw [← List.drop_drop, h]
  rfl

theorem soh_mem_build (b : Builder) : SOH ∈ build b := by
  rw [build]
  simp

theorem build_contains_soh (b : Builder) : (build b).contains SOH = true := by
  simpa using soh_mem_build b

theorem detectDelimiter_build (b : Builder) : detectDelimiter (build b) = SOH := by
  rw [detectDelimiter, if_pos (build_contains_soh b)]

theorem lastIdxOf_frame (A : Str) (c1 c2 c3 : Char)
    (h1 : isDigitCh c1 = true) (h2 : isDigitCh c2 = true) (h3 : isDigitCh c3 = true) :
    lastIdxOf (A ++ SOH :: '1' :: '0' :: '=' :: c1 :: c2 :: c3 :: [SOH]) [SOH, '1', '0', '=']
      = some A.length := by
  have hlen : (A ++ SOH :: '1' :: '0' :: '=' :: c1 :: c2 :: c3 :: [SOH]).length =
      A.length + 8 := by
    simp
  rw [lastIdxOf, hlen]
  apply lastIdxAux_eq_some
  · rw [occursAt, List.drop_left, List.isPrefixOf_iff_prefix]
    exact ⟨c1 :: c2 :: c3 :: [SOH], rfl⟩
  · omega
  · intro j hj hjk
    obtain ⟨i, rfl, hi1, hi8⟩ : ∃ i, j = A.length + i ∧ 1 ≤ i ∧ i ≤ 8 :=
      ⟨j - A.length, by omega, by omega, by omega⟩
    rw [occursAt, List.drop_append i]
    have hb1 : (SOH == c1) = false :=
      beq_eq_false_iff_ne.mpr (Ne.symm (digit_ne_soh c1 h1))
    have hb2 : (SOH == c2) = false :=
      beq_eq_false_iff_ne.mpr (Ne.symm (digit_ne_soh c2 h2))
    have hb3 : (SOH == c3) = false :=
      beq_eq_false_iff_ne.mpr (Ne.symm (digit_ne_soh c3 h3))
    interval_cases i
    · rfl
    · rfl
    · rfl
    · simp [List.isPrefixOf, hb1]
    · simp [List.isPrefixOf, hb2]
    · simp [List.isPrefixOf, hb3]
    · rfl
    · rfl

theorem computeChecksum_frame (A : Str) (c1 c2 c3 : Char)
    (h1 : isDigitCh c1 = true) (h2 : isDigitCh c2 = true) (h3 : isDigitCh c3 = true) :
    computeChecksum (A ++ SOH :: '1' :: '0' :: '=' :: c1 :: c2 :: c3 :: [SOH]) =
      pad3 (sumCodes (A ++ [SOH]) % 256) := by
  have hc : (A ++ SOH :: '1' :: '0' :: '=' :: c1 :: c2 :: c3 :: [SOH]).contains SOH = true := by
    simp
  rw [computeChecksum]
  simp only [hc, if_true]
  rw [lastIdxOf_frame A c1 c2 c3 h1 h2 h3]
  show pad3 (sumCodes ((A ++ SOH :: '1' :: '0' :: '=' :: c1 :: c2 :: c3 :: [SOH]).take
    (A.length + 1)) % 256) = pad3 (sumCodes (A ++ [SOH]) % 256)
  rw [List.take_append 1]
  rfl

theorem computeChecksum_build (b : Builder) :
    computeChecksum (build b) =
      builderChecksum (buildPrefix b (joinSOH (bodyParts b)).length ++ joinSOH (bodyParts b)) := by
  obtain ⟨c1, c2, c3, hccc⟩ :=
    list_len3
      (builderChecksum (buildPrefix b (joinSOH (bodyParts b)).length ++ joinSOH (bodyParts b)))
      (by
        rw [builderChecksum]
        apply pad3_length
        have := Nat.mod_lt
          (sumCodes (buildPrefix b (joinSOH (bodyParts b)).length ++ joinSOH (bodyParts b)))
          (show 0 < 256 by norm_num)
        omega)
  have hdig : ∀ c ∈ ([c1, c2, c3] : Str), isDigitCh c = true := by
    rw [← hccc, builderChecksum]
    exact pad3_all_digits _
  have hW : buildPrefix b (joinSOH (bodyParts b)).length ++ joinSOH (bodyParts b) =
      (buildPrefix b (joinSOH (bodyParts b)).length ++
        (List.intersperse [SOH] (bodyParts b)).flatten) ++ [SOH] := by
    rw [joinSOH, List.append_assoc]
  have hbuild : build b =
      (buildPrefix b (joinSOH (bodyParts b)).length ++
        (List.intersperse [SOH] (bodyParts b)).flatten) ++
        (SOH :: '1' :: '0' :: '=' :: c1 :: c2 :: c3 :: [SOH]) := by
    rw [build]
    simp only [hccc]
    rw [hW]
    simp [List.append_assoc]
  rw [hbuild, computeChecksum_frame _ c1 c2 c3 (hdig c1 (by simp)) (hdig c2 (by simp))
    (hdig c3 (by simp))]
  rw [builderChecksum, ← hW]

theorem firstIdxAux_eq_some (pred : Nat → Bool) :
    ∀ fuel k m, k ≤ m → m < k + fuel → pred m = true →
      (∀ j, k ≤ j → j < m → pred j = false) →
      firstIdxAux pred fuel k = some m := by
  intro fuel
  induction fuel with
  | zero =>
    intro k m h1 h2 _ _
    omega
  | succ fuel ih =>
    intro k m h1 h2 hm hmin
    by_cases hk : k = m
    · subst hk
      rw [firstIdxAux, if_pos hm]
    · have hq : pred k = false := hmin k (le_refl k) (by omega)
      rw [firstIdxAux, if_neg (by rw [hq]; exact Bool.false_ne_true)]
      exact ih (k + 1) m (by omega) (by omega) hm (fun j hj1 hj2 => hmin j (by omega) hj2)

theorem idxOf_eq_some (s pat : Str) (m : Nat) (hm : occursAt s pat m = true)
    (hlt : m < s.length + 1)
    (hmin : ∀ j, j < m → occursAt s pat j = false) :
    idxOf s pat = some m := by
  rw [idxOf]
  exact firstIdxAux_eq_some _ _ 0 m (by omega) (by omega) hm (fun j _ h2 => hmin j h2)

theorem ninePred_facts (s : Str) (j : Nat)
    (h : (match s.drop j with
      | '9' :: '=' :: c :: _ => isDigitCh c
      | _ => false) = true) :
    s[j]? = some '9' ∧ s[j + 1]? = some '=' := by
  split at h
  next c rest heq =>
    exact ⟨getElem_opt_of_drop _ _ _ _ heq,
      getElem_opt_of_drop _ _ _ _ (drop_succ_of_drop _ _ _ _ heq)⟩
  next =>
    simp at h

theorem prefix_pair_facts (s t : Str) (a bc : Char) (j : Nat)
    (hm : occursAt s (a :: bc :: t) j = true) :
    s[j]? = some a ∧ s[j + 1]? = some bc := by
  rw [occursAt, List.isPrefixOf_iff_prefix] at hm
  obtain ⟨r, hr⟩ := hm
  have heq : s.drop j = a :: bc :: (t ++ r) := by
    rw [← hr]
    rfl
  exact ⟨getElem_opt_of_drop _ _ _ _ heq,
    getElem_opt_of_drop _ _ _ _ (drop_succ_of_drop _ _ _ _ heq)⟩

theorem no_nine_eq_before (B t : Str) (hBe : '=' ∉ B) :
    ∀ j, j < B.length + 3 →
      ¬(('8' :: '=' :: (B ++ SOH :: '9' :: '=' :: t))[j]? = some '9' ∧
        ('8' :: '=' :: (B ++ SOH :: '9' :: '=' :: t))[j + 1]? = some '=') := by
  intro j hj hpair
  obtain ⟨h9, he⟩ := hpair
  rcases j with _ | j2
  · rw [List.getElem?_cons_zero] at h9
    exact absurd (Option.some.inj h9) (by decide)
  · rw [List.getElem?_cons_succ, List.getElem?_cons_succ] at he
    by_cases h1 : j2 < B.length
    · rw [List.getElem?_append, if_pos h1] at he
      exact hBe (List.getElem?_mem he)
    · rw [List.getElem?_append, if_neg h1] at he
      have hk : j2 - B.length = 0 ∨ j2 - B.length = 1 := by omega
      rcases hk with hk | hk <;> rw [hk] at he
      · rw [List.getElem?_cons_zero] at he
        exact absurd (Option.some.inj he) (by decide)
      · rw [List.getElem?_cons_succ, List.getElem?_cons_zero] at he
        exact absurd (Option.some.inj he) (by decide)

theorem drop_to_nine (B t : Str) :
    ('8' :: '=' :: (B ++ SOH :: '9' :: '=' :: t)).drop (B.length + 3) = '9' :: '=' :: t := by
  rw [show B.length + 3 = B.length + 2 + 1 from rfl, List.drop_succ_cons,
    show B.length + 2 = B.length + 1 + 1 from rfl, List.drop_succ_cons,
    List.drop_append 1]
  rfl

theorem firstMatchNine_frame (B N R : Str) (hBe : '=' ∉ B) (hN : N ≠ [])
    (hNd : ∀ c ∈ N, isDigitCh c = true) :
    firstMatchNine ('8' :: '=' :: (B ++ SOH :: '9' :: '=' :: (N ++ SOH :: R))) =
      some (B.length + 3, '9' :: '=' :: N) := by
  have hdrop := drop_to_nine B (N ++ SOH :: R)
  have hdrop2 : ('8' :: '=' :: (B ++ SOH :: '9' :: '=' :: (N ++ SOH :: R))).drop
      (B.length + 3 + 2) = N ++ SOH :: R := by
    rw [show B.length + 3 + 2 = B.length + 3 + 1 + 1 from rfl]
    exact drop_succ_of_drop _ _ _ _ (drop_succ_of_drop _ _ _ _ hdrop)
  rw [firstMatchNine]
  have hfi : firstIdxAux
      (fun i =>
        match ('8' :: '=' :: (B ++ SOH :: '9' :: '=' :: (N ++ SOH :: R))).drop i with
        | '9' :: '=' :: c :: _ => isDigitCh c
        | _ => false)
      (('8' :: '=' :: (B ++ SOH :: '9' :: '=' :: (N ++ SOH :: R))).length + 1) 0 =
      some (B.length + 3) := by
    apply firstIdxAux_eq_some
    · omega
    · simp
    · show (match ('8' :: '=' :: (B ++ SOH :: '9' :: '=' :: (N ++ SOH :: R))).drop
          (B.length + 3) with
        | '9' :: '=' :: c :: _ => isDigitCh c
        | _ => false) = true
      rw [hdrop]
      rcases N with _ | ⟨n0, N2⟩
      · exact absurd rfl hN
      · exact hNd n0 (List.mem_cons_self _ _)
    · intro j _ hjm
      by_cases hp : (match ('8' :: '=' :: (B ++ SOH :: '9' :: '=' :: (N ++ SOH :: R))).drop
          j with
        | '9' :: '=' :: c :: _ => isDigitCh c
        | _ => false) = true
      · exact absurd (ninePred_facts _ j hp) (no_nine_eq_before B (N ++ SOH :: R) hBe j hjm)
      · simpa using hp
  rw [hfi, Option.map_some', hdrop2, takeWhile_all_append N SOH R hNd (by decide)]

theorem idxOf_nine_frame (B N R : Str) (hBe : '=' ∉ B) :
    idxOf ('8' :: '=' :: (B ++ SOH :: '9' :: '=' :: (N ++ SOH :: R))) ('9' :: '=' :: N) =
      some (B.length + 3) := by
  apply idxOf_eq_some
  · rw [occursAt, drop_to_nine B (N ++ SOH :: R), List.isPrefixOf_iff_prefix]
    exact ⟨SOH :: R, by simp⟩
  · simp
  · intro j hjm
    by_cases hp : occursAt ('8' :: '=' :: (B ++ SOH :: '9' :: '=' :: (N ++ SOH :: R)))
        ('9' :: '=' :: N) j = true
    · exact absurd (prefix_pair_facts _ N '9' '=' j hp)
        (no_nine_eq_before B (N ++ SOH :: R) hBe j hjm)
    · simpa using hp

theorem computeBodyLength_frame (B N F : Str) (c1 c2 c3 : Char) (hBe : '=' ∉ B)
    (hN : N ≠ []) (hNd : ∀ c ∈ N, isDigitCh c = true)
    (h1 : isDigitCh c1 = true) (h2 : isDigitCh c2 = true) (h3 : isDigitCh c3 = true) :
    computeBodyLength ('8' :: '=' :: (B ++ SOH :: '9' :: '=' ::
        (N ++ SOH :: (F ++ SOH :: '1' :: '0' :: '=' :: c1 :: c2 :: c3 :: [SOH])))) =
      ((F.length : Int) + 1) := by
  have hcont : ('8' :: '=' :: (B ++ SOH :: '9' :: '=' ::
      (N ++ SOH :: (F ++ SOH :: '1' :: '0' :: '=' :: c1 :: c2 :: c3 :: [SOH])))).contains SOH
      = true := by
    simp
  have hshape : ('8' :: '=' :: (B ++ SOH :: '9' :: '=' ::
      (N ++ SOH :: (F ++ SOH :: '1' :: '0' :: '=' :: c1 :: c2 :: c3 :: [SOH])))) =
      ('8' :: '=' :: (B ++ SOH :: '9' :: '=' :: (N ++ SOH :: F))) ++
        SOH :: '1' :: '0' :: '=' :: c1 :: c2 :: c3 :: [SOH] := by
    simp
  have hlast : lastIdxOf ('8' :: '=' :: (B ++ SOH :: '9' :: '=' ::
      (N ++ SOH :: (F ++ SOH :: '1' :: '0' :: '=' :: c1 :: c2 :: c3 :: [SOH]))))
      [SOH, '1', '0', '='] =
      some ('8' :: '=' :: (B ++ SOH :: '9' :: '=' :: (N ++ SOH :: F))).length := by
    rw [hshape]
    exact lastIdxOf_frame _ c1 c2 c3 h1 h2 h3
  rw [computeBodyLength]
  simp only [hcont, if_true,
    firstMatchNine_frame B N (F ++ SOH :: '1' :: '0' :: '=' :: c1 :: c2 :: c3 :: [SOH])
      hBe hN hNd,
    idxOf_nine_frame B N (F ++ SOH :: '1' :: '0' :: '=' :: c1 :: c2 :: c3 :: [SOH]) hBe,
    hlast]
  simp
  omega

theorem computeBodyLength_build (b : Builder) (hBe : '=' ∉ b.beginString) :
    computeBodyLength (build b) = ((joinSOH (bodyParts b)).length : Int) := by
  obtain ⟨c1, c2, c3, hccc⟩ :=
    list_len3
      (builderChecksum (buildPrefix b (joinSOH (bodyParts b)).length ++ joinSOH (bodyParts b)))
      (by
        rw [builderChecksum]
        apply pad3_length
        have := Nat.mod_lt
          (sumCodes (buildPrefix b (joinSOH (bodyParts b)).length ++ joinSOH (bodyParts b)))
          (show 0 < 256 by norm_num)
        omega)
  have hdig : ∀ c ∈ ([c1, c2, c3] : Str), isDigitCh c = true := by
    rw [← hccc, builderChecksum]
    exact pad3_all_digits _
  have hbuild2 : build b = '8' :: '=' :: (b.beginString ++ SOH :: '9' :: '=' ::
      (decNat (joinSOH (bodyParts b)).length ++ SOH ::
        ((List.intersperse [SOH] (bodyParts b)).flatten ++
          SOH :: '1' :: '0' :: '=' :: c1 :: c2 :: c3 :: [SOH]))) := by
    rw [build]
    simp only [hccc]
    simp [buildPrefix, joinSOH, List.append_assoc]
  rw [hbuild2, computeBodyLength_frame _ _ _ c1 c2 c3 hBe
    (decNat_ne_nil _) (decNat_all_digits _)
    (hdig c1 (by simp)) (hdig c2 (by simp)) (hdig c3 (by simp))]
  rw [joinSOH]
  simp

theorem build_parse (defn : FIXDefinition) (b : Builder)
    (hB : SOH ∉ b.beginString)
    (hvals : ∀ p ∈ b.fieldValues, SOH ∉ p.2) :
    parseMessageE (build b) defn =
      some (pstateToMsg (parseLoop defn
        ((8, b.beginString) :: (9, decNat (joinSOH (bodyParts b)).length) ::
          (bodyPairList b ++
            [(10, builderChecksum (buildPrefix b (joinSOH (bodyParts b)).length ++
              joinSOH (bodyParts b)))]))
        (headerNamesFor defn) (trailerNamesFor defn) initPState 0)) := by
  rw [parseMessageE]
  simp only [detectDelimiter_build b, splitFields_build b hB hvals]
  rw [if_neg (by simp)]

theorem build_pairs_framing (b : Builder) :
    ∀ p ∈ ((8, b.beginString) :: (9, decNat (joinSOH (bodyParts b)).length) ::
        (bodyPairList b ++
          [(10, builderChecksum (buildPrefix b (joinSOH (bodyParts b)).length ++
            joinSOH (bodyParts b)))]) : List (Int × Str)),
      (p.1 = 10 → p.2 = builderChecksum (buildPrefix b (joinSOH (bodyParts b)).length ++
        joinSOH (bodyParts b))) ∧
      (p.1 = 9 → jsParseIntDec p.2 = some ((joinSOH (bodyParts b)).length : Int)) := by
  intro p hp
  rcases List.mem_cons.mp hp with rfl | hp
  · exact ⟨fun h => absurd (show (8 : Int) = 10 from h) (by decide),
      fun h => absurd (show (8 : Int) = 9 from h) (by decide)⟩
  rcases List.mem_cons.mp hp with rfl | hp
  · exact ⟨fun h => absurd (show (9 : Int) = 10 from h) (by decide),
      fun _ => jsParseIntDec_decNat _⟩
  rcases List.mem_append.mp hp with hp | hp
  · rw [bodyPairList] at hp
    rcases List.mem_append.mp hp with hp | hp
    · rcases h35 : mapGet b.fieldValues 35 with _ | mt <;> rw [h35] at hp
      · simp at hp
      · by_cases hmt : mt = []
        · subst hmt
          simp at hp
        · simp only [if_neg hmt] at hp
          rcases List.mem_singleton.mp hp with rfl
          exact ⟨fun h => absurd (show (35 : Int) = 10 from h) (by decide),
            fun h => absurd (show (35 : Int) = 9 from h) (by decide)⟩
    · rcases List.mem_map.mp hp with ⟨t, ht, he⟩
      subst he
      obtain ⟨-, -, -, h9, h10⟩ := mem_sortedBodyTags b t ht
      exact ⟨fun h => absurd h h10, fun h => absurd h h9⟩
  · rcases List.mem_singleton.mp hp with rfl
    exact ⟨fun _ => rfl, fun h => absurd (show (10 : Int) = 9 from h) (by decide)⟩

/-- **C1** (corrected): for every definition model and every builder session
whose begin-string is free of the delimiter and of `=` and whose field values
are free of the delimiter, the built wire text parses, the recomputed
checksum matches the emitted tag-10 value and the recomputed body length
matches the emitted tag-9 value, so `validateRaw` adds no checksum-mismatch
error and no body-length-mismatch warning beyond `validateParsed`'s own
issues. -/
theorem c1_framing_roundtrip (defn : FIXDefinition) (b : Builder)
    (hB : SOH ∉ b.beginString) (hBe : '=' ∉ b.beginString)
    (hvals : ∀ p ∈ b.fieldValues, SOH ∉ p.2) :
    ∃ parsed, parseMessageE (build b) defn = some parsed ∧
      checksumIssues (build b) parsed = [] ∧
      bodyLengthIssues (build b) parsed = [] ∧
      (validateRaw (build b) defn).errors = (validateParsed parsed defn).errors ∧
      (validateRaw (build b) defn).warnings = (validateParsed parsed defn).warnings := by
  have hparse := build_parse defn b hB hvals
  obtain ⟨hcsi, hbli⟩ := parseLoop_framing defn
    ((8, b.beginString) :: (9, decNat (joinSOH (bodyParts b)).length) ::
      (bodyPairList b ++
        [(10, builderChecksum (buildPrefix b (joinSOH (bodyParts b)).length ++
          joinSOH (bodyParts b)))]))
    (headerNamesFor defn) (trailerNamesFor defn)
    (builderChecksum (buildPrefix b (joinSOH (bodyParts b)).length ++ joinSOH (bodyParts b)))
    ((joinSOH (bodyParts b)).length : Int)
    (build_pairs_framing b)
    ((8, b.beginString) :: (9, decNat (joinSOH (bodyParts b)).length) ::
      (bodyPairList b ++
        [(10, builderChecksum (buildPrefix b (joinSOH (bodyParts b)).length ++
          joinSOH (bodyParts b)))])).length
    0 initPState (by omega) (Or.inl rfl) (Or.inl rfl)
  have hcseq : checksumIssues (build b)
      (pstateToMsg (parseLoop defn
        ((8, b.beginString) :: (9, decNat (joinSOH (bodyParts b)).length) ::
          (bodyPairList b ++
            [(10, builderChecksum (buildPrefix b (joinSOH (bodyParts b)).length ++
              joinSOH (bodyParts b)))]))
        (headerNamesFor defn) (trailerNamesFor defn) initPState 0)) = [] := by
    simp only [checksumIssues]
    rw [if_neg ?hcond]
    case hcond =>
      intro hcond
      obtain ⟨hne, hne2⟩ := hcond
      rcases hcsi with hc0 | hc0
      · exact hne hc0
      · apply hne2
        rw [computeChecksum_build b]
        exact hc0
  have hbleq : bodyLengthIssues (build b)
      (pstateToMsg (parseLoop defn
        ((8, b.beginString) :: (9, decNat (joinSOH (bodyParts b)).length) ::
          (bodyPairList b ++
            [(10, builderChecksum (buildPrefix b (joinSOH (bodyParts b)).length ++
              joinSOH (bodyParts b)))]))
        (headerNamesFor defn) (trailerNamesFor defn) initPState 0)) = [] := by
    simp only [bodyLengthIssues]
    rw [if_neg ?hcond2]
    case hcond2 =>
      intro hcond
      obtain ⟨hne, hne2⟩ := hcond
      rcases hbli with hb0 | hb0
      · rw [show (pstateToMsg (parseLoop defn
            ((8, b.beginString) :: (9, decNat (joinSOH (bodyParts b)).length) ::
              (bodyPairList b ++
                [(10, builderChecksum (buildPrefix b (joinSOH (bodyParts b)).length ++
                  joinSOH (bodyParts b)))]))
            (headerNamesFor defn) (trailerNamesFor defn) initPState 0)).bodyLength =
          some 0 from hb0] at hne
        exact absurd hne (by decide)
      · apply hne2
        rw [computeBodyLength_build b hBe]
        exact hb0
  refine ⟨_, hparse, hcseq, hbleq, ?_, ?_⟩
  · rw [validateRaw, hparse]
    simp only [hcseq]
    rfl
  · rw [validateRaw, hparse]
    simp only [hbleq]
    rfl

/-- A builder session whose Side value embeds a delimiter byte followed by a
spurious `9=777` field. -/
def c1cb : Builder :=
  { definition := mA, msgDef := mdD, beginString := beginStringFor mA,
    fieldValues := [(35, ['D']), (54, ['1', SOH, '9', '=', '7', '7', '7'])] }

/-- The tokenization of the text built from `c1cb`. -/
def c1pairs : List (Int × Str) :=
  [(8, ['F', 'I', 'X', '.', '4', '.', '4']), (9, ['1', '6']), (35, ['D']), (54, ['1']),
   (9, ['7', '7', '7']), (10, ['2', '2', '1'])]

/-- The parse of the text built from `c1cb` against `mA`: the embedded
`9=777` wins and becomes the declared body length. -/
def c1parsed : ParsedMessage :=
  { beginString := ['F', 'I', 'X', '.', '4', '.', '4'], msgType := ['D'],
    msgTypeName := "Order", bodyLength := some 777, checkSum := ['2', '2', '1'],
    header := [("BeginString", ['F', 'I', 'X', '.', '4', '.', '4']),
               ("BodyLength", ['7', '7', '7']), ("MsgType", ['D'])],
    body := [("Side", .str ['1'])],
    trailer := [("CheckSum", ['2', '2', '1'])],
    fields := [
      { tag := 8, name := "BeginString", value := ['F', 'I', 'X', '.', '4', '.', '4'],
        enumDescription := none },
      { tag := 9, name := "BodyLength", value := ['1', '6'], enumDescription := none },
      { tag := 35, name := "MsgType", value := ['D'], enumDescription := none },
      { tag := 54, name := "Side", value := ['1'], enumDescription := none },
      { tag := 9, name := "BodyLength", value := ['7', '7', '7'], enumDescription := none },
      { tag := 10, name := "CheckSum", value := ['2', '2', '1'], enumDescription := none }] }

theorem c1cb_parse_eval : parseMessageE (build c1cb) mA = some c1parsed := by
  have h0 := parseMessageE_eq (build c1cb) mA c1pairs (by decide) (by decide)
  rw [h0]
  rw [parseLoop_step_header mA c1pairs (headerNamesFor mA) (trailerNamesFor mA) initPState 0
    8 ['F', 'I', 'X', '.', '4', '.', '4'] _ (by decide) rfl (by decide)]
  rw [parseLoop_step_header mA c1pairs (headerNamesFor mA) (trailerNamesFor mA) _ 1
    9 ['1', '6'] _ (by decide) rfl (by decide)]
  rw [parseLoop_step_header mA c1pairs (headerNamesFor mA) (trailerNamesFor mA) _ 2
    35 ['D'] _ (by decide) rfl (by decide)]
  rw [parseLoop_step_body_nogroup mA c1pairs (headerNamesFor mA) (trailerNamesFor mA) _ 3
    54 ['1'] _ (by decide) rfl (by decide) (by decide)
    (Or.inr (Or.inr (Or.inl (fun fd hfd => by
      rw [show mapGet mA.fieldsByTag 54 = some fdSide from rfl] at hfd
      injection hfd with he
      rw [← he]
      decide))))]
  rw [parseLoop_step_header mA c1pairs (headerNamesFor mA) (trailerNamesFor mA) _ 4
    9 ['7', '7', '7'] _ (by decide) rfl (by decide)]
  rw [parseLoop_step_trailer mA c1pairs (headerNamesFor mA) (trailerNamesFor mA) _ 5
    10 ['2', '2', '1'] _ (by decide) rfl (by decide) (by decide)]
  rw [parseLoop_halt mA c1pairs (headerNamesFor mA) (trailerNamesFor mA) _ 6 (by decide)]
  rfl

/-- C1: the claim as written is refuted: a builder value containing the
delimiter byte followed by `9=777` yields wire text whose declared body
length (last write wins) disagrees with the recomputed one, so `validateRaw`
does report a body-length-mismatch warning. -/
theorem c1_counterexample :
    ∃ i ∈ (validateRaw (build c1cb) mA).warnings,
      i.tag = some 9 ∧ i.field = some "BodyLength" ∧ i.severity = Severity.warning := by
  have hbl : ∃ i ∈ bodyLengthIssues (build c1cb) c1parsed,
      i.tag = some 9 ∧ i.field = some "BodyLength" ∧ i.severity = Severity.warning := by
    simp only [bodyLengthIssues]
    rw [if_pos ⟨by decide, by decide⟩]
    exact ⟨_, List.mem_singleton.mpr rfl, rfl, rfl, rfl⟩
  rw [validateRaw]
  simp only [c1cb_parse_eval]
  obtain ⟨i, hmem, h1, h2, h3⟩ := hbl
  exact ⟨i, List.mem_append_left _ hmem, h1, h2, h3⟩

/-- A clean builder session on `mA`: message type D with Side set. -/
def c1wb : Builder :=
  { definition := mA, msgDef := mdD, beginString := beginStringFor mA,
    fieldValues := [(35, ['D']), (54, ['1'])] }

/-- C1 witness: the amended round-trip theorem applied to a concrete clean
session. -/
theorem c1_witness :
    (SOH ∉ c1wb.beginString) ∧ ('=' ∉ c1wb.beginString) ∧
    (∀ p ∈ c1wb.fieldValues, SOH ∉ p.2) ∧
    (∃ parsed, parseMessageE (build c1wb) mA = some parsed ∧
      checksumIssues (build c1wb) parsed = [] ∧
      bodyLengthIssues (build c1wb) parsed = [] ∧
      (validateRaw (build c1wb) mA).errors = (validateParsed parsed mA).errors ∧
      (validateRaw (build c1wb) mA).warnings = (validateParsed parsed mA).warnings) :=
  ⟨by decide, by decide, by decide,
    c1_framing_roundtrip mA c1wb (by decide) (by decide) (by decide)⟩

theorem extractStep_msgType (defn : FIXDefinition) (st : PState) (tag : Int) (value : Str) :
    (extractStep defn st tag value).msgType = if tag = 35 then value else st.msgType := by
  rw [extractStep]
  by_cases h8 : tag = 8
  · subst h8
    simp
  · by_cases h9 : tag = 9
    · subst h9
      simp
    · by_cases h10 : tag = 10
      · subst h10
        simp
      · by_cases h35 : tag = 35
        · subst h35
          simp
        · simp [h8, h9, h10, h35]

/-- One iteration of the `parseMessage` while-loop when the pair does not
start a repeating group (abstraction of the loop body used to re-express the
walk as a fold). -/
def stepFn (defn : FIXDefinition) (hdr trl : List String) (st : PState)
    (p : Int × Str) : PState :=
  let st2 := extractStep defn st p.1 p.2
  let fieldName := fieldNameOfTag defn p.1
  if hdr.contains fieldName then { st2 with header := objSetS st2.header fieldName p.2 }
  else if trl.contains fieldName then { st2 with trailer := objSetS st2.trailer fieldName p.2 }
  else { st2 with body := objSet st2.body fieldName (.str p.2) }

theorem stepFn_msgType (defn : FIXDefinition) (hdr trl : List String) (st : PState)
    (p : Int × Str) :
    (stepFn defn hdr trl st p).msgType = if p.1 = 35 then p.2 else st.msgType := by
  rw [stepFn]
  by_cases hh : hdr.contains (fieldNameOfTag defn p.1)
  · rw [if_pos hh]
    show (extractStep defn st p.1 p.2).msgType = _
    rw [extractStep_msgType]
  · rw [if_neg hh]
    by_cases ht : trl.contains (fieldNameOfTag defn p.1)
    · rw [if_pos ht]
      show (extractStep defn st p.1 p.2).msgType = _
      rw [extractStep_msgType]
    · rw [if_neg ht]
      show (extractStep defn st p.1 p.2).msgType = _
      rw [extractStep_msgType]

theorem stepFn_body_cls (defn : FIXDefinition) (hdr trl : List String) (st : PState)
    (p : Int × Str)
    (h : hdr.contains (fieldNameOfTag defn p.1) = true ∨
      trl.contains (fieldNameOfTag defn p.1) = true) :
    (stepFn defn hdr trl st p).body = (extractStep defn st p.1 p.2).body := by
  rw [stepFn]
  by_cases hh : hdr.contains (fieldNameOfTag defn p.1)
  · rw [if_pos hh]
  · rw [if_neg hh]
    rcases h with h | h
    · exact absurd h hh
    · rw [if_pos h]

theorem stepFn_body_fresh (defn : FIXDefinition) (hdr trl : List String) (st : PState)
    (p : Int × Str)
    (hh : hdr.contains (fieldNameOfTag defn p.1) = false)
    (ht : trl.contains (fieldNameOfTag defn p.1) = false) :
    (stepFn defn hdr trl st p).body =
      objSet (extractStep defn st p.1 p.2).body (fieldNameOfTag defn p.1) (.str p.2) := by
  rw [stepFn, if_neg (by rw [hh]; exact Bool.false_ne_true),
    if_neg (by rw [ht]; exact Bool.false_ne_true)]

theorem extractStep_body (defn : FIXDefinition) (st : PState) (tag : Int) (value : Str) :
    (extractStep defn st tag value).body = st.body := by
  rw [extractStep]
  by_cases h8 : tag = 8
  · subst h8
    simp
  · by_cases h9 : tag = 9
    · subst h9
      simp
    · by_cases h10 : tag = 10
      · subst h10
        simp
      · by_cases h35 : tag = 35
        · subst h35
          simp
        · simp [h8, h9, h10, h35]

theorem parseLoop_nogroup_walk (defn : FIXDefinition) (pairs : List (Int × Str))
    (hdr trl : List String) :
    ∀ fuel idx st, pairs.length ≤ idx + fuel →
      (∀ p ∈ pairs.drop idx,
        hdr.contains (fieldNameOfTag defn p.1) = true ∨
        trl.contains (fieldNameOfTag defn p.1) = true ∨
        mapGet defn.fieldsByTag p.1 = none ∨
        (∀ fd, mapGet defn.fieldsByTag p.1 = some fd → fd.ftype ≠ "NUMINGROUP") ∨
        jsParseIntDec p.2 = none ∨ (∃ n, jsParseIntDec p.2 = some n ∧ n ≤ 0)) →
      parseLoop defn pairs hdr trl st idx =
        (pairs.drop idx).foldl (stepFn defn hdr trl) st := by
  intro fuel
  induction fuel with
  | zero =>
    intro idx st hle _
    rw [parseLoop_halt defn pairs hdr trl st idx (by omega),
      List.drop_eq_nil_of_le (by omega)]
    rfl
  | succ fuel ih =>
    intro idx st hle hcond
    by_cases h : idx < pairs.length
    · have hdrop : pairs.drop idx = pairs.get ⟨idx, h⟩ :: pairs.drop (idx + 1) :=
        List.drop_eq_getElem_cons h
      have hpair : pairs[idx]? = some ((pairs.get ⟨idx, h⟩).1, (pairs.get ⟨idx, h⟩).2) := by
        rw [List.getElem?_eq_getElem h]
        exact rfl
      have hcondtail : ∀ p ∈ pairs.drop (idx + 1),
          hdr.contains (fieldNameOfTag defn p.1) = true ∨
          trl.contains (fieldNameOfTag defn p.1) = true ∨
          mapGet defn.fieldsByTag p.1 = none ∨
          (∀ fd, mapGet defn.fieldsByTag p.1 = some fd → fd.ftype ≠ "NUMINGROUP") ∨
          jsParseIntDec p.2 = none ∨ (∃ n, jsParseIntDec p.2 = some n ∧ n ≤ 0) := by
        intro p hp
        exact hcond p (by rw [hdrop]; exact List.mem_cons_of_mem _ hp)
      have hhead := hcond (pairs.get ⟨idx, h⟩) (by rw [hdrop]; exact List.mem_cons_self _ _)
      rw [hdrop, List.foldl_cons]
      by_cases hh : hdr.contains (fieldNameOfTag defn (pairs.get ⟨idx, h⟩).1)
      · rw [parseLoop_step_header defn pairs hdr trl st idx _ _ _ hpair rfl hh,
          ih (idx + 1) _ (by omega) hcondtail]
        congr 1
        simp only [stepFn]
        rw [if_pos hh]
      · have hh2 : hdr.contains (fieldNameOfTag defn (pairs.get ⟨idx, h⟩).1) = false := by
          simpa using hh
        by_cases ht : trl.contains (fieldNameOfTag defn (pairs.get ⟨idx, h⟩).1)
        · rw [parseLoop_step_trailer defn pairs hdr trl st idx _ _ _ hpair rfl hh2 ht,
            ih (idx + 1) _ (by omega) hcondtail]
          congr 1
          simp only [stepFn]
          rw [if_neg (by rw [hh2]; exact Bool.false_ne_true), if_pos ht]
        · have ht2 : trl.contains (fieldNameOfTag defn (pairs.get ⟨idx, h⟩).1) = false := by
            simpa using ht
          have hgd : visibleGroupDef defn
              (extractStep defn st (pairs.get ⟨idx, h⟩).1 (pairs.get ⟨idx, h⟩).2).msgDef
              (fieldNameOfTag defn (pairs.get ⟨idx, h⟩).1) = none ∨
              mapGet defn.fieldsByTag (pairs.get ⟨idx, h⟩).1 = none ∨
              (∀ fd, mapGet defn.fieldsByTag (pairs.get ⟨idx, h⟩).1 = some fd →
                fd.ftype ≠ "NUMINGROUP") ∨
              jsParseIntDec (pairs.get ⟨idx, h⟩).2 = none ∨
              (∃ n, jsParseIntDec (pairs.get ⟨idx, h⟩).2 = some n ∧ n ≤ 0) := by
            rcases hhead with hx | hx | hx | hx | hx | hx
            · exact absurd hx (by rw [hh2]; exact Bool.false_ne_true)
            · exact absurd hx (by rw [ht2]; exact Bool.false_ne_true)
            · exact Or.inr (Or.inl hx)
            · exact Or.inr (Or.inr (Or.inl hx))
            · exact Or.inr (Or.inr (Or.inr (Or.inl hx)))
            · exact Or.inr (Or.inr (Or.inr (Or.inr hx)))
          rw [parseLoop_step_body_nogroup defn pairs hdr trl st idx _ _ _ hpair rfl hh2 ht2 hgd,
            ih (idx + 1) _ (by omega) hcondtail]
          congr 1
          simp only [stepFn]
          rw [if_neg (by rw [hh2]; exact Bool.false_ne_true),
            if_neg (by rw [ht2]; exact Bool.false_ne_true)]
    · rw [parseLoop_halt defn pairs hdr trl st idx (by omega),
        List.drop_eq_nil_of_le (by omega)]
      rfl

theorem foldl_stepFn_msgType (defn : FIXDefinition) (hdr trl : List String) :
    ∀ (ps : List (Int × Str)), (∀ p ∈ ps, p.1 ≠ 35) →
      ∀ st, (ps.foldl (stepFn defn hdr trl) st).msgType = st.msgType := by
  intro ps
  induction ps with
  | nil => intro _ st; rfl
  | cons p t ih =>
    intro h st
    rw [List.foldl_cons, ih (fun q hq => h q (List.mem_cons_of_mem _ hq)),
      stepFn_msgType, if_neg (h p (List.mem_cons_self _ _))]

theorem foldl_stepFn_body_cls (defn : FIXDefinition) (hdr trl : List String) :
    ∀ (ps : List (Int × Str)),
      (∀ p ∈ ps, hdr.contains (fieldNameOfTag defn p.1) = true ∨
        trl.contains (fieldNameOfTag defn p.1) = true) →
      ∀ st, (ps.foldl (stepFn defn hdr trl) st).body = st.body := by
  intro ps
  induction ps with
  | nil => intro _ st; rfl
  | cons p t ih =>
    intro h st
    rw [List.foldl_cons, ih (fun q hq => h q (List.mem_cons_of_mem _ hq)),
      stepFn_body_cls defn hdr trl st p (h p (List.mem_cons_self _ _)), extractStep_body]

theorem foldl_stepFn_body_fresh (defn : FIXDefinition) (hdr trl : List String) :
    ∀ (ps : List (Int × Str)),
      (∀ p ∈ ps, hdr.contains (fieldNameOfTag defn p.1) = false ∧
        trl.contains (fieldNameOfTag defn p.1) = false) →
      ∀ st, (ps.foldl (stepFn defn hdr trl) st).body =
        ps.foldl (fun a p => objSet a (fieldNameOfTag defn p.1) (.str p.2)) st.body := by
  intro ps
  induction ps with
  | nil => intro _ st; rfl
  | cons p t ih =>
    intro h st
    rw [List.foldl_cons, List.foldl_cons, ih (fun q hq => h q (List.mem_cons_of_mem _ hq)),
      stepFn_body_fresh defn hdr trl st p (h p (List.mem_cons_self _ _)).1
        (h p (List.mem_cons_self _ _)).2, extractStep_body]

theorem objSet_fresh : ∀ (l : GEntry) (k : String) (v : GVal),
    (∀ q ∈ l, q.1 ≠ k) → objSet l k v = l ++ [(k, v)] := by
  intro l
  induction l with
  | nil => intro k v _; rfl
  | cons q t ih =>
    intro k v h
    rcases q with ⟨k2, v2⟩
    rw [objSet, if_neg (h (k2, v2) (List.mem_cons_self _ _)),
      ih k v (fun q hq => h q (List.mem_cons_of_mem _ hq))]
    rfl

theorem foldl_objSet_fresh (defn : FIXDefinition) :
    ∀ (ps : List (Int × Str)) (acc : GEntry),
      ((ps.map (fun p => fieldNameOfTag defn p.1)).Nodup) →
      (∀ p ∈ ps, ∀ q ∈ acc, q.1 ≠ fieldNameOfTag defn p.1) →
      ps.foldl (fun a p => objSet a (fieldNameOfTag defn p.1) (.str p.2)) acc =
        acc ++ ps.map (fun p => (fieldNameOfTag defn p.1, GVal.str p.2)) := by
  intro ps
  induction ps with
  | nil =>
    intro acc _ _
    simp
  | cons p t ih =>
    intro acc hnd hdisj
    rw [List.map_cons, List.nodup_cons] at hnd
    rw [List.foldl_cons,
      objSet_fresh acc (fieldNameOfTag defn p.1) (.str p.2)
        (fun q hq => hdisj p (List.mem_cons_self _ _) q hq),
      ih (acc ++ [(fieldNameOfTag defn p.1, GVal.str p.2)]) hnd.2 ?hfresh]
    · simp
    case hfresh =>
      intro p2 hp2 q hq
      rcases List.mem_append.mp hq with hq | hq
      · exact hdisj p2 (List.mem_cons_of_mem _ hp2) q hq
      · rcases List.mem_singleton.mp hq with rfl
        intro he
        have he2 : fieldNameOfTag defn p.1 = fieldNameOfTag defn p2.1 := he
        exact hnd.1 (he2 ▸ List.mem_map_of_mem (fun p => fieldNameOfTag defn p.1) hp2)

theorem bodyPairList_expand (b : Builder) (mt : Str)
    (h35 : mapGet b.fieldValues 35 = some mt) (hmt : mt ≠ []) :
    bodyPairList b = (35, mt) ::
      (sortedBodyTags b).map (fun t => (t, (mapGet b.fieldValues t).getD [])) := by
  rw [bodyPairList]
  simp only [h35]
  rw [if_neg hmt]
  rfl

/-- **C2** (corrected): for a builder session with delimiter-free values, a
known non-empty message type, whose structural tags 8/9/35/10 are classified
into the header or trailer sections, whose body tags are neither
header/trailer-classified nor typed `NUMINGROUP`, and whose body tags carry
pairwise distinct field names, parsing the built text yields exactly the
session's message type and a body holding exactly the values that were set. -/
theorem c2_roundtrip (defn : FIXDefinition) (b : Builder) (mt : Str)
    (hB : SOH ∉ b.beginString)
    (hvals : ∀ p ∈ b.fieldValues, SOH ∉ p.2)
    (h35 : mapGet b.fieldValues 35 = some mt) (hmt : mt ≠ [])
    (h8c : (headerNamesFor defn).contains (fieldNameOfTag defn 8) = true ∨
      (trailerNamesFor defn).contains (fieldNameOfTag defn 8) = true)
    (h9c : (headerNamesFor defn).contains (fieldNameOfTag defn 9) = true ∨
      (trailerNamesFor defn).contains (fieldNameOfTag defn 9) = true)
    (h35c : (headerNamesFor defn).contains (fieldNameOfTag defn 35) = true ∨
      (trailerNamesFor defn).contains (fieldNameOfTag defn 35) = true)
    (h10c : (headerNamesFor defn).contains (fieldNameOfTag defn 10) = true ∨
      (trailerNamesFor defn).contains (fieldNameOfTag defn 10) = true)
    (hbody : ∀ t ∈ sortedBodyTags b,
      (headerNamesFor defn).contains (fieldNameOfTag defn t) = false ∧
      (trailerNamesFor defn).contains (fieldNameOfTag defn t) = false ∧
      (∀ fd, mapGet defn.fieldsByTag t = some fd → fd.ftype ≠ "NUMINGROUP"))
    (hnd : ((sortedBodyTags b).map (fun t => fieldNameOfTag defn t)).Nodup) :
    ∃ parsed, parseMessageE (build b) defn = some parsed ∧
      parsed.msgType = mt ∧
      parsed.body = (sortedBodyTags b).map
        (fun t => (fieldNameOfTag defn t, GVal.str ((mapGet b.fieldValues t).getD []))) := by
  have hbp := bodyPairList_expand b mt h35 hmt
  have hw : ∀ p ∈ ((8, b.beginString) :: (9, decNat (joinSOH (bodyParts b)).length) ::
      (bodyPairList b ++
        [(10, builderChecksum (buildPrefix b (joinSOH (bodyParts b)).length ++
          joinSOH (bodyParts b)))])),
      (headerNamesFor defn).contains (fieldNameOfTag defn p.1) = true ∨
      (trailerNamesFor defn).contains (fieldNameOfTag defn p.1) = true ∨
      mapGet defn.fieldsByTag p.1 = none ∨
      (∀ fd, mapGet defn.fieldsByTag p.1 = some fd → fd.ftype ≠ "NUMINGROUP") ∨
      jsParseIntDec p.2 = none ∨ (∃ n, jsParseIntDec p.2 = some n ∧ n ≤ 0) := by
    intro p hp
    rcases List.mem_cons.mp hp with rfl | hp
    · rcases h8c with h | h
      · exact Or.inl h
      · exact Or.inr (Or.inl h)
    rcases List.mem_cons.mp hp with rfl | hp
    · rcases h9c with h | h
      · exact Or.inl h
      · exact Or.inr (Or.inl h)
    rcases List.mem_append.mp hp with hp | hp
    · rw [hbp] at hp
      rcases List.mem_cons.mp hp with rfl | hp
      · rcases h35c with h | h
        · exact Or.inl h
        · exact Or.inr (Or.inl h)
      · rcases List.mem_map.mp hp with ⟨t, ht, he⟩
        subst he
        exact Or.inr (Or.inr (Or.inr (Or.inl (hbody t ht).2.2)))
    · rcases List.mem_singleton.mp hp with rfl
      rcases h10c with h | h
      · exact Or.inl h
      · exact Or.inr (Or.inl h)
  have hwalk : parseLoop defn
      ((8, b.beginString) :: (9, decNat (joinSOH (bodyParts b)).length) ::
        (bodyPairList b ++
          [(10, builderChecksum (buildPrefix b (joinSOH (bodyParts b)).length ++
            joinSOH (bodyParts b)))]))
      (headerNamesFor defn) (trailerNamesFor defn) initPState 0 =
      ((8, b.beginString) :: (9, decNat (joinSOH (bodyParts b)).length) ::
        (bodyPairList b ++
          [(10, builderChecksum (buildPrefix b (joinSOH (bodyParts b)).length ++
            joinSOH (bodyParts b)))])).foldl
        (stepFn defn (headerNamesFor defn) (trailerNamesFor defn)) initPState := by
    have h0 := parseLoop_nogroup_walk defn
      ((8, b.beginString) :: (9, decNat (joinSOH (bodyParts b)).length) ::
        (bodyPairList b ++
          [(10, builderChecksum (buildPrefix b (joinSOH (bodyParts b)).length ++
            joinSOH (bodyParts b)))]))
      (headerNamesFor defn) (trailerNamesFor defn)
      ((8, b.beginString) :: (9, decNat (joinSOH (bodyParts b)).length) ::
        (bodyPairList b ++
          [(10, builderChecksum (buildPrefix b (joinSOH (bodyParts b)).length ++
            joinSOH (bodyParts b)))])).length
      0 initPState (by omega) (by simpa using hw)
    simpa using h0
  have hne35 : ∀ p ∈ ((sortedBodyTags b).map
      (fun t => (t, (mapGet b.fieldValues t).getD [])) ++
      [((10 : Int), builderChecksum (buildPrefix b (joinSOH (bodyParts b)).length ++
        joinSOH (bodyParts b)))]), p.1 ≠ (35 : Int) := by
    intro p hp
    rcases List.mem_append.mp hp with hp | hp
    · rcases List.mem_map.mp hp with ⟨t, ht, he⟩
      subst he
      exact (mem_sortedBodyTags b t ht).2.1
    · rcases List.mem_singleton.mp hp with rfl
      intro h
      exact absurd (show (10 : Int) = 35 from h) (by decide)
  have hfr : ∀ p ∈ (sortedBodyTags b).map
      (fun t => (t, (mapGet b.fieldValues t).getD [])),
      (headerNamesFor defn).contains (fieldNameOfTag defn p.1) = false ∧
      (trailerNamesFor defn).contains (fieldNameOfTag defn p.1) = false := by
    intro p hp
    rcases List.mem_map.mp hp with ⟨t, ht, he⟩
    subst he
    exact ⟨(hbody t ht).1, (hbody t ht).2.1⟩
  refine ⟨_, build_parse defn b hB hvals, ?_, ?_⟩
  · show (parseLoop defn
      ((8, b.beginString) :: (9, decNat (joinSOH (bodyParts b)).length) ::
        (bodyPairList b ++
          [(10, builderChecksum (buildPrefix b (joinSOH (bodyParts b)).length ++
            joinSOH (bodyParts b)))]))
      (headerNamesFor defn) (trailerNamesFor defn) initPState 0).msgType = mt
    rw [hwalk, hbp]
    rw [List.cons_append, List.foldl_cons, List.foldl_cons, List.foldl_cons]
    rw [foldl_stepFn_msgType defn (headerNamesFor defn) (trailerNamesFor defn) _ hne35]
    rw [stepFn_msgType]
    rw [if_pos rfl]
  · show (parseLoop defn
      ((8, b.beginString) :: (9, decNat (joinSOH (bodyParts b)).length) ::
        (bodyPairList b ++
          [(10, builderChecksum (buildPrefix b (joinSOH (bodyParts b)).length ++
            joinSOH (bodyParts b)))]))
      (headerNamesFor defn) (trailerNamesFor defn) initPState 0).body =
      (sortedBodyTags b).map
        (fun t => (fieldNameOfTag defn t, GVal.str ((mapGet b.fieldValues t).getD [])))
    rw [hwalk, hbp]
    rw [List.cons_append, List.foldl_cons, List.foldl_cons, List.foldl_cons,
      List.foldl_append, List.foldl_cons, List.foldl_nil]
    rw [stepFn_body_cls defn (headerNamesFor defn) (trailerNamesFor defn) _ _ h10c,
      extractStep_body]
    rw [foldl_stepFn_body_fresh defn (headerNamesFor defn) (trailerNamesFor defn) _ hfr]
    rw [stepFn_body_cls defn (headerNamesFor defn) (trailerNamesFor defn) _ _ h35c,
      extractStep_body]
    rw [stepFn_body_cls defn (headerNamesFor defn) (trailerNamesFor defn) _ _ h9c,
      extractStep_body]
    rw [stepFn_body_cls defn (headerNamesFor defn) (trailerNamesFor defn) _ _ h8c,
      extractStep_body]
    rw [show initPState.body = [] from rfl]
    rw [foldl_objSet_fresh defn
      ((sortedBodyTags b).map (fun t => (t, (mapGet b.fieldValues t).getD []))) []
      (by rw [List.map_map]; exact hnd)
      (by intro p _ q hq; simp at hq)]
    rw [List.nil_append, List.map_map]
    rfl

/-- Header field SenderCompID(49). -/
def fdSender : FieldDef := { tag := 49, name := "SenderCompID", ftype := "STRING", values := [] }

/-- A message type D whose only mandatory field is SenderCompID. -/
def mdD2 : MessageDef :=
  { name := "Order2", msgtype := ['D'], msgcat := "app",
    fields := [{ name := "SenderCompID", required := true }], groups := [], components := [] }

/-- A model whose message D requires the standard-header field SenderCompID. -/
def mC2 : FIXDefinition :=
  { major := 4, minor := 4, servicepack := 0,
    fieldsByTag := [(8, fdBegin), (9, fdBodyLen), (35, fdMsgType), (10, fdCheckSum),
      (49, fdSender)],
    fieldsByName := [("BeginString", fdBegin), ("BodyLength", fdBodyLen),
      ("MsgType", fdMsgType), ("CheckSum", fdCheckSum), ("SenderCompID", fdSender)],
    messagesByType := [(['D'], mdD2)],
    messagesByName := [("Order2", mdD2)],
    components := [],
    header := { fields := [], groups := [], components := [] },
    trailer := { fields := [], groups := [], components := [] } }

/-- A session for D with its mandatory field SenderCompID set. -/
def c2cb : Builder :=
  { definition := mC2, msgDef := mdD2, beginString := beginStringFor mC2,
    fieldValues := [(35, ['D']), (49, ['X'])] }

/-- The tokenization of the text built from `c2cb`. -/
def c2pairs : List (Int × Str) :=
  [(8, ['F', 'I', 'X', '.', '4', '.', '4']), (9, ['1', '0']), (35, ['D']), (49, ['X']),
   (10, ['2', '3', '0'])]

/-- The parse of the text built from `c2cb`: SenderCompID is classified into
the header section, leaving the body empty. -/
def c2parsed : ParsedMessage :=
  { beginString := ['F', 'I', 'X', '.', '4', '.', '4'], msgType := ['D'],
    msgTypeName := "Order2", bodyLength := some 10, checkSum := ['2', '3', '0'],
    header := [("BeginString", ['F', 'I', 'X', '.', '4', '.', '4']),
               ("BodyLength", ['1', '0']), ("MsgType", ['D']), ("SenderCompID", ['X'])],
    body := [],
    trailer := [("CheckSum", ['2', '3', '0'])],
    fields := [
      { tag := 8, name := "BeginString", value := ['F', 'I', 'X', '.', '4', '.', '4'],
        enumDescription := none },
      { tag := 9, name := "BodyLength", value := ['1', '0'], enumDescription := none },
      { tag := 35, name := "MsgType", value := ['D'], enumDescription := none },
      { tag := 49, name := "SenderCompID", value := ['X'], enumDescription := none },
      { tag := 10, name := "CheckSum", value := ['2', '3', '0'], enumDescription := none }] }

theorem c2cb_parse_eval : parseMessageE (build c2cb) mC2 = some c2parsed := by
  have h0 := parseMessageE_eq (build c2cb) mC2 c2pairs (by decide) (by decide)
  rw [h0]
  rw [parseLoop_step_header mC2 c2pairs (headerNamesFor mC2) (trailerNamesFor mC2) initPState
    0 8 ['F', 'I', 'X', '.', '4', '.', '4'] _ (by decide) rfl (by decide)]
  rw [parseLoop_step_header mC2 c2pairs (headerNamesFor mC2) (trailerNamesFor mC2) _ 1
    9 ['1', '0'] _ (by decide) rfl (by decide)]
  rw [parseLoop_step_header mC2 c2pairs (headerNamesFor mC2) (trailerNamesFor mC2) _ 2
    35 ['D'] _ (by decide) rfl (by decide)]
  rw [parseLoop_step_header mC2 c2pairs (headerNamesFor mC2) (trailerNamesFor mC2) _ 3
    49 ['X'] _ (by decide) rfl (by decide)]
  rw [parseLoop_step_trailer mC2 c2pairs (headerNamesFor mC2) (trailerNamesFor mC2) _ 4
    10 ['2', '3', '0'] _ (by decide) rfl (by decide) (by decide)]
  rw [parseLoop_halt mC2 c2pairs (headerNamesFor mC2) (trailerNamesFor mC2) _ 5 (by decide)]
  rfl

/-- C2: the claim as written is refuted: on a model whose message type D has
the mandatory field SenderCompID — a standard-header name — building D with
that field set and parsing the result classifies the value into the header
section, so the parsed body does NOT hold the value that was set (the body is
empty). -/
theorem c2_counterexample :
    mdD2.fields = [{ name := "SenderCompID", required := true }] ∧
    mapGet c2cb.fieldValues 49 = some ['X'] ∧
    parseMessageE (build c2cb) mC2 = some c2parsed ∧
    c2parsed.msgType = ['D'] ∧
    c2parsed.body = [] ∧
    objGetS c2parsed.header "SenderCompID" = some ['X'] :=
  ⟨rfl, rfl, c2cb_parse_eval, rfl, rfl, rfl⟩

/-- C2 witness: the amended round-trip theorem applied to the clean session
`c1wb` on model `mA` (type D, mandatory Side set to 1). -/
theorem c2_witness :
    mapGet c1wb.fieldValues 35 = some ['D'] ∧
    sortedBodyTags c1wb = [54] ∧
    (∃ parsed, parseMessageE (build c1wb) mA = some parsed ∧
      parsed.msgType = ['D'] ∧
      parsed.body = (sortedBodyTags c1wb).map
        (fun t => (fieldNameOfTag mA t, GVal.str ((mapGet c1wb.fieldValues t).getD [])))) := by
  refine ⟨rfl, by decide, c2_roundtrip mA c1wb ['D'] (by decide) (by decide) rfl (by decide)
    (Or.inl (by decide)) (Or.inl (by decide)) (Or.inl (by decide)) (Or.inr (by decide))
    ?_ (by decide)⟩
  intro t ht
  rw [show sortedBodyTags c1wb = [54] from by decide] at ht
  rcases List.mem_singleton.mp ht with rfl
  refine ⟨by decide, by decide, ?_⟩
  intro fd hfd
  rw [show mapGet mA.fieldsByTag 54 = some fdSide from rfl] at hfd
  injection hfd with he
  rw [← he]
  decide
